import Mathlib

/-!
# The chat codec of `app/service/biz/chat/chat/codec_schema.tl.pb.go`

A shallow embedding of the generated TL codec: the polymorphic `ChatInviteExt`,
`ChatInviteImported`, `RecentChatInviteRequesters` and `UserChatIdList` records
and their variant views, the method records, two vector containers and the
registry `clazzIdRegisters2`.  The namespace `Dao` further down embeds the cache
keys and the emoji status of `app/service/biz/user/internal/dao/cache_user_data.go`.

Conventions of the embedding.

* Go `int32`/`int64` values are integers (`ℤ`); `uint32` values are `Nat`.  The
  conversions `uint32(x)` and `int32(x)` are `toU32` and `toI32`.
* A Go pointer field (`*types.StringValue`, `*mtproto.Photo`, ...) is an
  `Option`; a Go slice is an `Option (List _)` with `none` for the nil slice.
* A method with a pointer receiver that assigns to the receiver returns the
  updated record; the decode cursor is passed and returned explicitly.
* A Go `error` result is an `Option Error`, `none` being `nil`.
* A view holds a pointer to its storage record: the record after a call on a
  view is the `Data2` of the view the embedding returns.  Where aliasing is the
  subject, the views of `ChatInviteExt` are embedded a second time with their
  storage on a heap and the view holding an address (`OnHeap`).
-/

namespace Chat

/-! ## Bytes and machine integers -/

/-- One byte of the wire format. -/
abbrev Byte := Fin 256

/-- The low eight bits of a number. -/
def byte (n : Nat) : Byte := ⟨n % 256, Nat.mod_lt n (by decide)⟩

/-- The `k` low bytes of `n`, least significant first. -/
def leBytes : Nat → Nat → List Byte
  | 0, _ => []
  | k + 1, n => byte n :: leBytes k (n / 256)

/-- The number a little-endian byte string denotes. -/
def leVal : List Byte → Nat
  | [] => 0
  | b :: bs => b.val + 256 * leVal bs

/-- Go conversion `uint32(x)` of a signed value. -/
def toU32 (v : ℤ) : Nat := (v % 4294967296).toNat

/-- Go conversion `int32(x)` of an unsigned value. -/
def toI32 (n : Nat) : ℤ :=
  if n % 4294967296 < 2147483648 then (n % 4294967296 : Nat)
  else ((n % 4294967296 : Nat) : ℤ) - 4294967296

/-- Go conversion `uint64(x)` of a signed value. -/
def toU64 (v : ℤ) : Nat := (v % 18446744073709551616).toNat

/-- Go conversion `int64(x)` of an unsigned value. -/
def toI64 (n : Nat) : ℤ :=
  if n % 18446744073709551616 < 9223372036854775808 then (n % 18446744073709551616 : Nat)
  else ((n % 18446744073709551616 : Nat) : ℤ) - 18446744073709551616

/-- The value is representable as a Go `int32`. -/
def isInt32 (v : ℤ) : Prop := -2147483648 ≤ v ∧ v < 2147483648

/-- The value is representable as a Go `int64`. -/
def isInt64 (v : ℤ) : Prop := -9223372036854775808 ≤ v ∧ v < 9223372036854775808

instance (v : ℤ) : Decidable (isInt32 v) := by unfold isInt32; infer_instance

instance (v : ℤ) : Decidable (isInt64 v) := by unfold isInt64; infer_instance

/-- The test `(flags & (1 << k)) != 0` of the decoders. -/
def hasBit (flags k : Nat) : Bool := (flags &&& (1 <<< k)) != 0

/-- The update `flags |= 1 << k` of the encoders. -/
def setBit (flags k : Nat) : Nat := flags ||| (1 <<< k)

/-! ## Errors and the byte cursor -/

/-- The errors a decoder returns. -/
inductive Error where
  /-- `fmt.Errorf("invalid constructorId: 0x%x", uint32(m.Constructor))` of a polymorphic decoder. -/
  | invalidConstructorId (tag : Nat)
  /-- `fmt.Errorf("invalid constructor: %x", uint32(m.Data2.Constructor))` of a variant decoder. -/
  | invalidConstructor (tag : Nat)
  /-- A fault recorded by the cursor. -/
  | cursorFault (msg : String)
  deriving DecidableEq, Repr

/-- Modelled from the spec: `mtproto.DecodeBuf`, the read cursor of the external
package `mtproto` ("primitive reader over a byte sequence ... accumulates a
sticky error state on read failure").  `buf` holds the bytes not yet consumed
and `err` the sticky fault. -/
structure DecodeBuf where
  buf : List Byte
  err : Option Error
  deriving DecidableEq, Repr

/-- A fresh cursor over a byte sequence. -/
def NewDecodeBuf (b : List Byte) : DecodeBuf := ⟨b, none⟩

/-- The side-channel query `dBuf.GetError()`. -/
def DecodeBuf.GetError (d : DecodeBuf) : Option Error := d.err

/-- Modelled from the spec: `dBuf.UInt()`, four little-endian bytes; "on underrun
... sets a sticky fault and returns a zero-valued result". -/
def DecodeBuf.UInt (d : DecodeBuf) : Nat × DecodeBuf :=
  match d.err with
  | some _ => (0, d)
  | none =>
    match d.buf with
    | b0 :: b1 :: b2 :: b3 :: r => (leVal [b0, b1, b2, b3], { d with buf := r })
    | _ => (0, { d with err := some (Error.cursorFault "DecodeUInt") })

/-- Modelled from the spec: `dBuf.Int()`, the same four bytes read as a signed value. -/
def DecodeBuf.Int (d : DecodeBuf) : ℤ × DecodeBuf :=
  match d.err with
  | some _ => (0, d)
  | none =>
    match d.buf with
    | b0 :: b1 :: b2 :: b3 :: r => (toI32 (leVal [b0, b1, b2, b3]), { d with buf := r })
    | _ => (0, { d with err := some (Error.cursorFault "DecodeInt") })

/-- Modelled from the spec: `dBuf.Long()`, eight little-endian bytes read as a signed value. -/
def DecodeBuf.Long (d : DecodeBuf) : ℤ × DecodeBuf :=
  match d.err with
  | some _ => (0, d)
  | none =>
    match d.buf with
    | b0 :: b1 :: b2 :: b3 :: b4 :: b5 :: b6 :: b7 :: r =>
      (toI64 (leVal [b0, b1, b2, b3, b4, b5, b6, b7]), { d with buf := r })
    | _ => (0, { d with err := some (Error.cursorFault "DecodeLong") })

/-- Modelled from the spec: `mtproto.EncodeBuf`, the write cursor; every put
appends to `buf`. -/
structure EncodeBuf where
  buf : List Byte
  deriving DecidableEq, Repr

/-- The call `mtproto.NewEncodeBuf(cap)`: an empty buffer (the capacity is only a hint). -/
def NewEncodeBuf (_cap : Nat) : EncodeBuf := ⟨[]⟩

/-- The call `x.GetBuf()`. -/
def EncodeBuf.GetBuf (x : EncodeBuf) : List Byte := x.buf

/-- Modelled from the spec: `x.UInt(v)` appends the four little-endian bytes of `v`. -/
def EncodeBuf.UInt (x : EncodeBuf) (v : Nat) : EncodeBuf := ⟨x.buf ++ leBytes 4 (v % 4294967296)⟩

/-- Modelled from the spec: `x.Int(v)` appends the four little-endian bytes of `uint32(v)`. -/
def EncodeBuf.Int (x : EncodeBuf) (v : ℤ) : EncodeBuf := ⟨x.buf ++ leBytes 4 (toU32 v)⟩

/-- Modelled from the spec: `x.Long(v)` appends the eight little-endian bytes of `uint64(v)`. -/
def EncodeBuf.Long (x : EncodeBuf) (v : ℤ) : EncodeBuf := ⟨x.buf ++ leBytes 8 (toU64 v)⟩

/-- The call `x.Bytes(b)` appends raw bytes. -/
def EncodeBuf.Bytes (x : EncodeBuf) (b : List Byte) : EncodeBuf := ⟨x.buf ++ b⟩

/-! ## What the source file takes from elsewhere -/

/-- The declarations the translated file uses but does not contain: the
variable-width cursor primitives and the nested `Photo` and `MutableChat`
codecs of package `mtproto`, and the two schema tables of package `chat`
(`GetClazzID` and `clazzIdNameRegisters2`).  They are parameters of the
embedding. -/
structure Env where
  /-- The bytes `x.String(s)` appends. -/
  putString : String → List Byte
  /-- The call `dBuf.String()`. -/
  getString : DecodeBuf → String × DecodeBuf
  /-- The bytes `x.VectorLong(v)` appends. -/
  putVectorLong : Option (List ℤ) → List Byte
  /-- The call `dBuf.VectorLong()`. -/
  getVectorLong : DecodeBuf → Option (List ℤ) × DecodeBuf
  /-- The type `mtproto.Photo`. -/
  Photo : Type
  /-- The call `p.Encode(layer)` on a `*mtproto.Photo`. -/
  encodePhoto : Option Photo → ℤ → List Byte
  /-- The call `m.Decode(dBuf)` on a fresh `&mtproto.Photo{}`. -/
  decodePhoto : DecodeBuf → Photo × DecodeBuf
  /-- The type `mtproto.MutableChat`. -/
  MutableChat : Type
  /-- The call `c.Encode(layer)` on a `*mtproto.MutableChat`. -/
  encodeMutableChat : Option MutableChat → ℤ → List Byte
  /-- The call `m.Decode(dBuf)` on a fresh `&mtproto.MutableChat{}`. -/
  decodeMutableChat : DecodeBuf → MutableChat × DecodeBuf
  /-- The lookup `GetClazzID(clazzName, layer)`. -/
  GetClazzID : String → ℤ → ℤ
  /-- The map `clazzIdNameRegisters2` from a tag to its predicate name. -/
  clazzIdNameRegisters2 : ℤ → Option String
  /-- The constant `mtproto.CRC32_vector`, the marker written before a vector of records. -/
  CRC32_vector : ℤ
  /-- The bytes `x.VectorString(v)` appends. -/
  putVectorString : Option (List String) → List Byte
  /-- The type `mtproto.Bool`. -/
  MtprotoBool : Type
  /-- The call `b.Encode(layer)` on a `*mtproto.Bool`. -/
  encodeBool : Option MtprotoBool → ℤ → List Byte
  /-- The type `mtproto.ChatBannedRights`. -/
  ChatBannedRights : Type
  /-- The call `r.Encode(layer)` on a `*mtproto.ChatBannedRights`. -/
  encodeChatBannedRights : Option ChatBannedRights → ℤ → List Byte

/-- The call `x.VectorString(v)`. -/
def EncodeBuf.VectorString (E : Env) (x : EncodeBuf) (v : Option (List String)) : EncodeBuf :=
  ⟨x.buf ++ E.putVectorString v⟩

/-- The call `x.String(s)`. -/
def EncodeBuf.String (E : Env) (x : EncodeBuf) (s : String) : EncodeBuf := ⟨x.buf ++ E.putString s⟩

/-- The call `x.VectorLong(v)`. -/
def EncodeBuf.VectorLong (E : Env) (x : EncodeBuf) (v : Option (List ℤ)) : EncodeBuf :=
  ⟨x.buf ++ E.putVectorLong v⟩

/-- The elements of a Go slice. -/
def elems {α : Type} : Option (List α) → List α
  | none => []
  | some l => l

/-- The call `dBuf.String()`. -/
def DecodeBuf.String (E : Env) (d : DecodeBuf) : String × DecodeBuf := E.getString d

/-- The call `dBuf.VectorLong()`. -/
def DecodeBuf.VectorLong (E : Env) (d : DecodeBuf) : Option (List ℤ) × DecodeBuf := E.getVectorLong d

/-! ## Predicate names

Modelled from the spec: the `Predicate_*` string constants are declared in a
file of package `chat` that is not part of the translated source; each is the
predicate name the generated code and the spec use for the variant. -/

/-- Modelled from the spec: constant `Predicate_chatInviteAlready`. -/
def Predicate_chatInviteAlready : String := "chatInviteAlready"

/-- Modelled from the spec: constant `Predicate_chatInvite`. -/
def Predicate_chatInvite : String := "chatInvite"

/-- Modelled from the spec: constant `Predicate_chatInvitePeek`. -/
def Predicate_chatInvitePeek : String := "chatInvitePeek"

/-- Modelled from the spec: constant `Predicate_chatInviteImported`. -/
def Predicate_chatInviteImported : String := "chatInviteImported"

/-- Modelled from the spec: constant `Predicate_recentChatInviteRequesters`. -/
def Predicate_recentChatInviteRequesters : String := "recentChatInviteRequesters"

/-- Modelled from the spec: constant `Predicate_userChatIdList`. -/
def Predicate_userChatIdList : String := "userChatIdList"

/-! ## ChatInviteExt and its three variant views -/

/-- The storage record `ChatInviteExt`: the union of the fields of its variants. -/
structure ChatInviteExt (E : Env) where
  PredicateName : String := ""
  Constructor : ℤ := 0
  Chat : Option E.MutableChat := none
  RequestNeeded : Bool := false
  Title : String := ""
  About : Option String := none
  Photo : Option E.Photo := none
  ParticipantsCount : ℤ := 0
  Participants : Option (List ℤ) := none
  Expires : ℤ := 0

/-- The view `TLChatInviteAlready` of a storage record. -/
structure TLChatInviteAlready (E : Env) where
  Data2 : ChatInviteExt E

/-- The view `TLChatInvite` of a storage record. -/
structure TLChatInvite (E : Env) where
  Data2 : ChatInviteExt E

/-- The view `TLChatInvitePeek` of a storage record. -/
structure TLChatInvitePeek (E : Env) where
  Data2 : ChatInviteExt E

def ChatInviteExt.To_ChatInviteAlready {E : Env} (m : ChatInviteExt E) : TLChatInviteAlready E :=
  { Data2 := { m with PredicateName := Predicate_chatInviteAlready } }

def ChatInviteExt.To_ChatInvite {E : Env} (m : ChatInviteExt E) : TLChatInvite E :=
  { Data2 := { m with PredicateName := Predicate_chatInvite } }

def ChatInviteExt.To_ChatInvitePeek {E : Env} (m : ChatInviteExt E) : TLChatInvitePeek E :=
  { Data2 := { m with PredicateName := Predicate_chatInvitePeek } }

def MakeTLChatInviteAlready {E : Env} (data2 : Option (ChatInviteExt E)) : TLChatInviteAlready E :=
  match data2 with
  | none => { Data2 := { PredicateName := Predicate_chatInviteAlready } }
  | some data2 => { Data2 := { data2 with PredicateName := Predicate_chatInviteAlready } }

def TLChatInviteAlready.To_ChatInviteExt {E : Env} (m : TLChatInviteAlready E) : ChatInviteExt E :=
  { m.Data2 with PredicateName := Predicate_chatInviteAlready }

def TLChatInviteAlready.SetChat {E : Env} (m : TLChatInviteAlready E) (v : Option E.MutableChat) :
    TLChatInviteAlready E := { Data2 := { m.Data2 with Chat := v } }

def TLChatInviteAlready.GetChat {E : Env} (m : TLChatInviteAlready E) : Option E.MutableChat :=
  m.Data2.Chat

def TLChatInviteAlready.Encode (E : Env) (m : TLChatInviteAlready E) (layer : ℤ) : List Byte :=
  let x := NewEncodeBuf 512
  let clazzId := E.GetClazzID Predicate_chatInviteAlready layer
  if toU32 clazzId = 0xa40e7d5e then
    let x := x.UInt 0xa40e7d5e
    let x := x.Bytes (E.encodeMutableChat m.GetChat layer)
    x.GetBuf
  else
    x.GetBuf

def TLChatInviteAlready.Decode (E : Env) (m : TLChatInviteAlready E) (dBuf : DecodeBuf) :
    Option Error × TLChatInviteAlready E × DecodeBuf :=
  if toU32 m.Data2.Constructor = 0xa40e7d5e then
    let (m0, dBuf) := E.decodeMutableChat dBuf
    let m := m.SetChat (some m0)
    (dBuf.GetError, m, dBuf)
  else
    (some (Error.invalidConstructor (toU32 m.Data2.Constructor)), m, dBuf)

def MakeTLChatInvite {E : Env} (data2 : Option (ChatInviteExt E)) : TLChatInvite E :=
  match data2 with
  | none => { Data2 := { PredicateName := Predicate_chatInvite } }
  | some data2 => { Data2 := { data2 with PredicateName := Predicate_chatInvite } }

def TLChatInvite.To_ChatInviteExt {E : Env} (m : TLChatInvite E) : ChatInviteExt E :=
  { m.Data2 with PredicateName := Predicate_chatInvite }

def TLChatInvite.SetRequestNeeded {E : Env} (m : TLChatInvite E) (v : Bool) : TLChatInvite E :=
  { Data2 := { m.Data2 with RequestNeeded := v } }

def TLChatInvite.GetRequestNeeded {E : Env} (m : TLChatInvite E) : Bool := m.Data2.RequestNeeded

def TLChatInvite.SetTitle {E : Env} (m : TLChatInvite E) (v : String) : TLChatInvite E :=
  { Data2 := { m.Data2 with Title := v } }

def TLChatInvite.GetTitle {E : Env} (m : TLChatInvite E) : String := m.Data2.Title

def TLChatInvite.SetAbout {E : Env} (m : TLChatInvite E) (v : Option String) : TLChatInvite E :=
  { Data2 := { m.Data2 with About := v } }

def TLChatInvite.GetAbout {E : Env} (m : TLChatInvite E) : Option String := m.Data2.About

def TLChatInvite.SetPhoto {E : Env} (m : TLChatInvite E) (v : Option E.Photo) : TLChatInvite E :=
  { Data2 := { m.Data2 with Photo := v } }

def TLChatInvite.GetPhoto {E : Env} (m : TLChatInvite E) : Option E.Photo := m.Data2.Photo

def TLChatInvite.SetParticipantsCount {E : Env} (m : TLChatInvite E) (v : ℤ) : TLChatInvite E :=
  { Data2 := { m.Data2 with ParticipantsCount := v } }

def TLChatInvite.GetParticipantsCount {E : Env} (m : TLChatInvite E) : ℤ := m.Data2.ParticipantsCount

def TLChatInvite.SetParticipants {E : Env} (m : TLChatInvite E) (v : Option (List ℤ)) :
    TLChatInvite E := { Data2 := { m.Data2 with Participants := v } }

def TLChatInvite.GetParticipants {E : Env} (m : TLChatInvite E) : Option (List ℤ) :=
  m.Data2.Participants

/-- The closure `getFlags` of `TLChatInvite.Encode`. -/
def TLChatInvite.getFlags {E : Env} (m : TLChatInvite E) : Nat :=
  let flags : Nat := 0
  let flags := if m.GetRequestNeeded = true then setBit flags 6 else flags
  let flags := if m.GetAbout ≠ none then setBit flags 5 else flags
  let flags := if m.GetParticipants ≠ none then setBit flags 4 else flags
  flags

def TLChatInvite.Encode (E : Env) (m : TLChatInvite E) (layer : ℤ) : List Byte :=
  let x := NewEncodeBuf 512
  let clazzId := E.GetClazzID Predicate_chatInvite layer
  if toU32 clazzId = 0xdb75d1a7 then
    let x := x.UInt 0xdb75d1a7
    let flags := m.getFlags
    let x := x.UInt flags
    let x := x.String E m.GetTitle
    let x := match m.GetAbout with
      | some about => x.String E about
      | none => x
    let x := x.Bytes (E.encodePhoto m.GetPhoto layer)
    let x := x.Int m.GetParticipantsCount
    let x := match m.GetParticipants with
      | some _ => x.VectorLong E m.GetParticipants
      | none => x
    x.GetBuf
  else
    x.GetBuf

def TLChatInvite.Decode (E : Env) (m : TLChatInvite E) (dBuf : DecodeBuf) :
    Option Error × TLChatInvite E × DecodeBuf :=
  if toU32 m.Data2.Constructor = 0xdb75d1a7 then
    let (flags, dBuf) := dBuf.UInt
    let m := if hasBit flags 6 then m.SetRequestNeeded true else m
    let (title, dBuf) := dBuf.String E
    let m := m.SetTitle title
    let (m, dBuf) :=
      if hasBit flags 5 then
        let (about, dBuf) := dBuf.String E
        (m.SetAbout (some about), dBuf)
      else (m, dBuf)
    let (m5, dBuf) := E.decodePhoto dBuf
    let m := m.SetPhoto (some m5)
    let (count, dBuf) := dBuf.Int
    let m := m.SetParticipantsCount count
    let (m, dBuf) :=
      if hasBit flags 4 then
        let (participants, dBuf) := dBuf.VectorLong E
        (m.SetParticipants participants, dBuf)
      else (m, dBuf)
    (dBuf.GetError, m, dBuf)
  else
    (some (Error.invalidConstructor (toU32 m.Data2.Constructor)), m, dBuf)

def MakeTLChatInvitePeek {E : Env} (data2 : Option (ChatInviteExt E)) : TLChatInvitePeek E :=
  match data2 with
  | none => { Data2 := { PredicateName := Predicate_chatInvitePeek } }
  | some data2 => { Data2 := { data2 with PredicateName := Predicate_chatInvitePeek } }

def TLChatInvitePeek.To_ChatInviteExt {E : Env} (m : TLChatInvitePeek E) : ChatInviteExt E :=
  { m.Data2 with PredicateName := Predicate_chatInvitePeek }

def TLChatInvitePeek.SetChat {E : Env} (m : TLChatInvitePeek E) (v : Option E.MutableChat) :
    TLChatInvitePeek E := { Data2 := { m.Data2 with Chat := v } }

def TLChatInvitePeek.GetChat {E : Env} (m : TLChatInvitePeek E) : Option E.MutableChat :=
  m.Data2.Chat

def TLChatInvitePeek.SetExpires {E : Env} (m : TLChatInvitePeek E) (v : ℤ) : TLChatInvitePeek E :=
  { Data2 := { m.Data2 with Expires := v } }

def TLChatInvitePeek.GetExpires {E : Env} (m : TLChatInvitePeek E) : ℤ := m.Data2.Expires

def TLChatInvitePeek.Encode (E : Env) (m : TLChatInvitePeek E) (layer : ℤ) : List Byte :=
  let x := NewEncodeBuf 512
  let clazzId := E.GetClazzID Predicate_chatInvitePeek layer
  if toU32 clazzId = 0xace3e26e then
    let x := x.UInt 0xace3e26e
    let x := x.Bytes (E.encodeMutableChat m.GetChat layer)
    let x := x.Int m.GetExpires
    x.GetBuf
  else
    x.GetBuf

def TLChatInvitePeek.Decode (E : Env) (m : TLChatInvitePeek E) (dBuf : DecodeBuf) :
    Option Error × TLChatInvitePeek E × DecodeBuf :=
  if toU32 m.Data2.Constructor = 0xace3e26e then
    let (m0, dBuf) := E.decodeMutableChat dBuf
    let m := m.SetChat (some m0)
    let (expires, dBuf) := dBuf.Int
    let m := m.SetExpires expires
    (dBuf.GetError, m, dBuf)
  else
    (some (Error.invalidConstructor (toU32 m.Data2.Constructor)), m, dBuf)

/-- The predicate name `Encode` dispatches on: the stored name, or, when that is
empty, the name `clazzIdNameRegisters2` gives for the stored tag. -/
def resolvePredicateName (E : Env) (predicateName : String) (constructor : ℤ) : String :=
  if predicateName = "" then
    match E.clazzIdNameRegisters2 constructor with
    | some n => n
    | none => predicateName
  else predicateName

/-- The method `ChatInviteExt.Encode`: the bytes, and the storage record after the call
(the projection to a view stores the view's predicate name). -/
def ChatInviteExt.Encode (E : Env) (m : ChatInviteExt E) (layer : ℤ) :
    List Byte × ChatInviteExt E :=
  let predicateName := resolvePredicateName E m.PredicateName m.Constructor
  if predicateName = Predicate_chatInviteAlready then
    let t := m.To_ChatInviteAlready
    (t.Encode E layer, t.Data2)
  else if predicateName = Predicate_chatInvite then
    let t := m.To_ChatInvite
    (t.Encode E layer, t.Data2)
  else if predicateName = Predicate_chatInvitePeek then
    let t := m.To_ChatInvitePeek
    (t.Encode E layer, t.Data2)
  else
    ([], m)

/-- The method `ChatInviteExt.Decode`: the returned error, the storage record after the
call and the cursor after the call. -/
def ChatInviteExt.Decode (E : Env) (m : ChatInviteExt E) (dBuf : DecodeBuf) :
    Option Error × ChatInviteExt E × DecodeBuf :=
  let (c, dBuf) := dBuf.Int
  let m := { m with Constructor := c }
  if toU32 m.Constructor = 0xa40e7d5e then
    let m2 := MakeTLChatInviteAlready (some m)
    let (_, m2, dBuf) := m2.Decode E dBuf
    (dBuf.GetError, m2.Data2, dBuf)
  else if toU32 m.Constructor = 0xdb75d1a7 then
    let m2 := MakeTLChatInvite (some m)
    let (_, m2, dBuf) := m2.Decode E dBuf
    (dBuf.GetError, m2.Data2, dBuf)
  else if toU32 m.Constructor = 0xace3e26e then
    let m2 := MakeTLChatInvitePeek (some m)
    let (_, m2, dBuf) := m2.Decode E dBuf
    (dBuf.GetError, m2.Data2, dBuf)
  else
    (some (Error.invalidConstructorId (toU32 m.Constructor)), m, dBuf)

/-! ## RecentChatInviteRequesters -/

/-- The storage record `RecentChatInviteRequesters`. -/
structure RecentChatInviteRequesters where
  PredicateName : String := ""
  Constructor : ℤ := 0
  RequestsPending : ℤ := 0
  RecentRequesters : Option (List ℤ) := none
  deriving DecidableEq, Repr

/-- The view `TLRecentChatInviteRequesters` of a storage record. -/
structure TLRecentChatInviteRequesters where
  Data2 : RecentChatInviteRequesters
  deriving DecidableEq, Repr

def RecentChatInviteRequesters.To_RecentChatInviteRequesters (m : RecentChatInviteRequesters) :
    TLRecentChatInviteRequesters :=
  { Data2 := { m with PredicateName := Predicate_recentChatInviteRequesters } }

def MakeTLRecentChatInviteRequesters (data2 : Option RecentChatInviteRequesters) :
    TLRecentChatInviteRequesters :=
  match data2 with
  | none => { Data2 := { PredicateName := Predicate_recentChatInviteRequesters } }
  | some data2 => { Data2 := { data2 with PredicateName := Predicate_recentChatInviteRequesters } }

def TLRecentChatInviteRequesters.To_RecentChatInviteRequesters (m : TLRecentChatInviteRequesters) :
    RecentChatInviteRequesters :=
  { m.Data2 with PredicateName := Predicate_recentChatInviteRequesters }

def TLRecentChatInviteRequesters.SetRequestsPending (m : TLRecentChatInviteRequesters) (v : ℤ) :
    TLRecentChatInviteRequesters := { Data2 := { m.Data2 with RequestsPending := v } }

def TLRecentChatInviteRequesters.GetRequestsPending (m : TLRecentChatInviteRequesters) : ℤ :=
  m.Data2.RequestsPending

def TLRecentChatInviteRequesters.SetRecentRequesters (m : TLRecentChatInviteRequesters)
    (v : Option (List ℤ)) : TLRecentChatInviteRequesters :=
  { Data2 := { m.Data2 with RecentRequesters := v } }

def TLRecentChatInviteRequesters.GetRecentRequesters (m : TLRecentChatInviteRequesters) :
    Option (List ℤ) := m.Data2.RecentRequesters

def TLRecentChatInviteRequesters.Encode (E : Env) (m : TLRecentChatInviteRequesters) (layer : ℤ) :
    List Byte :=
  let x := NewEncodeBuf 512
  let clazzId := E.GetClazzID Predicate_recentChatInviteRequesters layer
  if toU32 clazzId = 0x1c6e3c54 then
    let x := x.UInt 0x1c6e3c54
    let x := x.Int m.GetRequestsPending
    let x := x.VectorLong E m.GetRecentRequesters
    x.GetBuf
  else
    x.GetBuf

def TLRecentChatInviteRequesters.Decode (E : Env) (m : TLRecentChatInviteRequesters)
    (dBuf : DecodeBuf) : Option Error × TLRecentChatInviteRequesters × DecodeBuf :=
  if toU32 m.Data2.Constructor = 0x1c6e3c54 then
    let (pending, dBuf) := dBuf.Int
    let m := m.SetRequestsPending pending
    let (requesters, dBuf) := dBuf.VectorLong E
    let m := m.SetRecentRequesters requesters
    (dBuf.GetError, m, dBuf)
  else
    (some (Error.invalidConstructor (toU32 m.Data2.Constructor)), m, dBuf)

/-- The method `RecentChatInviteRequesters.Encode`: the bytes and the storage record after
the call. -/
def RecentChatInviteRequesters.Encode (E : Env) (m : RecentChatInviteRequesters) (layer : ℤ) :
    List Byte × RecentChatInviteRequesters :=
  let predicateName := resolvePredicateName E m.PredicateName m.Constructor
  if predicateName = Predicate_recentChatInviteRequesters then
    let t := m.To_RecentChatInviteRequesters
    (t.Encode E layer, t.Data2)
  else
    ([], m)

def RecentChatInviteRequesters.Decode (E : Env) (m : RecentChatInviteRequesters)
    (dBuf : DecodeBuf) : Option Error × RecentChatInviteRequesters × DecodeBuf :=
  let (c, dBuf) := dBuf.Int
  let m := { m with Constructor := c }
  if toU32 m.Constructor = 0x1c6e3c54 then
    let m2 := MakeTLRecentChatInviteRequesters (some m)
    let (_, m2, dBuf) := m2.Decode E dBuf
    (dBuf.GetError, m2.Data2, dBuf)
  else
    (some (Error.invalidConstructorId (toU32 m.Constructor)), m, dBuf)

/-! ## ChatInviteImported -/

/-- The storage record `ChatInviteImported`. -/
structure ChatInviteImported (E : Env) where
  PredicateName : String := ""
  Constructor : ℤ := 0
  Chat : Option E.MutableChat := none
  Requesters : Option RecentChatInviteRequesters := none

/-- The view `TLChatInviteImported` of a storage record. -/
structure TLChatInviteImported (E : Env) where
  Data2 : ChatInviteImported E

def ChatInviteImported.To_ChatInviteImported {E : Env} (m : ChatInviteImported E) :
    TLChatInviteImported E :=
  { Data2 := { m with PredicateName := Predicate_chatInviteImported } }

def MakeTLChatInviteImported {E : Env} (data2 : Option (ChatInviteImported E)) :
    TLChatInviteImported E :=
  match data2 with
  | none => { Data2 := { PredicateName := Predicate_chatInviteImported } }
  | some data2 => { Data2 := { data2 with PredicateName := Predicate_chatInviteImported } }

def TLChatInviteImported.To_ChatInviteImported {E : Env} (m : TLChatInviteImported E) :
    ChatInviteImported E :=
  { m.Data2 with PredicateName := Predicate_chatInviteImported }

def TLChatInviteImported.SetChat {E : Env} (m : TLChatInviteImported E)
    (v : Option E.MutableChat) : TLChatInviteImported E := { Data2 := { m.Data2 with Chat := v } }

def TLChatInviteImported.GetChat {E : Env} (m : TLChatInviteImported E) : Option E.MutableChat :=
  m.Data2.Chat

def TLChatInviteImported.SetRequesters {E : Env} (m : TLChatInviteImported E)
    (v : Option RecentChatInviteRequesters) : TLChatInviteImported E :=
  { Data2 := { m.Data2 with Requesters := v } }

def TLChatInviteImported.GetRequesters {E : Env} (m : TLChatInviteImported E) :
    Option RecentChatInviteRequesters := m.Data2.Requesters

/-- The closure `getFlags` of `TLChatInviteImported.Encode`. -/
def TLChatInviteImported.getFlags {E : Env} (m : TLChatInviteImported E) : Nat :=
  let flags : Nat := 0
  let flags := if m.GetRequesters ≠ none then setBit flags 0 else flags
  flags

def TLChatInviteImported.Encode (E : Env) (m : TLChatInviteImported E) (layer : ℤ) : List Byte :=
  let x := NewEncodeBuf 512
  let clazzId := E.GetClazzID Predicate_chatInviteImported layer
  if toU32 clazzId = 0x721051f6 then
    let x := x.UInt 0x721051f6
    let flags := m.getFlags
    let x := x.UInt flags
    let x := x.Bytes (E.encodeMutableChat m.GetChat layer)
    let x := match m.GetRequesters with
      | some requesters => x.Bytes (requesters.Encode E layer).1
      | none => x
    x.GetBuf
  else
    x.GetBuf

def TLChatInviteImported.Decode (E : Env) (m : TLChatInviteImported E) (dBuf : DecodeBuf) :
    Option Error × TLChatInviteImported E × DecodeBuf :=
  if toU32 m.Data2.Constructor = 0x721051f6 then
    let (flags, dBuf) := dBuf.UInt
    let (m1, dBuf) := E.decodeMutableChat dBuf
    let m := m.SetChat (some m1)
    let (m, dBuf) :=
      if hasBit flags 0 then
        let m2 : RecentChatInviteRequesters := {}
        let (_, m2, dBuf) := m2.Decode E dBuf
        (m.SetRequesters (some m2), dBuf)
      else (m, dBuf)
    (dBuf.GetError, m, dBuf)
  else
    (some (Error.invalidConstructor (toU32 m.Data2.Constructor)), m, dBuf)

/-- The method `ChatInviteImported.Encode`: the bytes and the storage record after the call. -/
def ChatInviteImported.Encode (E : Env) (m : ChatInviteImported E) (layer : ℤ) :
    List Byte × ChatInviteImported E :=
  let predicateName := resolvePredicateName E m.PredicateName m.Constructor
  if predicateName = Predicate_chatInviteImported then
    let t := m.To_ChatInviteImported
    (t.Encode E layer, t.Data2)
  else
    ([], m)

def ChatInviteImported.Decode (E : Env) (m : ChatInviteImported E) (dBuf : DecodeBuf) :
    Option Error × ChatInviteImported E × DecodeBuf :=
  let (c, dBuf) := dBuf.Int
  let m := { m with Constructor := c }
  if toU32 m.Constructor = 0x721051f6 then
    let m2 := MakeTLChatInviteImported (some m)
    let (_, m2, dBuf) := m2.Decode E dBuf
    (dBuf.GetError, m2.Data2, dBuf)
  else
    (some (Error.invalidConstructorId (toU32 m.Constructor)), m, dBuf)

/-! ## UserChatIdList -/

/-- The storage record `UserChatIdList`. -/
structure UserChatIdList where
  PredicateName : String := ""
  Constructor : ℤ := 0
  UserId : ℤ := 0
  ChatIdList : Option (List ℤ) := none
  deriving DecidableEq, Repr

/-- The view `TLUserChatIdList` of a storage record. -/
structure TLUserChatIdList where
  Data2 : UserChatIdList
  deriving DecidableEq, Repr

def UserChatIdList.To_UserChatIdList (m : UserChatIdList) : TLUserChatIdList :=
  { Data2 := { m with PredicateName := Predicate_userChatIdList } }

def MakeTLUserChatIdList (data2 : Option UserChatIdList) : TLUserChatIdList :=
  match data2 with
  | none => { Data2 := { PredicateName := Predicate_userChatIdList } }
  | some data2 => { Data2 := { data2 with PredicateName := Predicate_userChatIdList } }

def TLUserChatIdList.To_UserChatIdList (m : TLUserChatIdList) : UserChatIdList :=
  { m.Data2 with PredicateName := Predicate_userChatIdList }

def TLUserChatIdList.SetUserId (m : TLUserChatIdList) (v : ℤ) : TLUserChatIdList :=
  { Data2 := { m.Data2 with UserId := v } }

def TLUserChatIdList.GetUserId (m : TLUserChatIdList) : ℤ := m.Data2.UserId

def TLUserChatIdList.SetChatIdList (m : TLUserChatIdList) (v : Option (List ℤ)) :
    TLUserChatIdList := { Data2 := { m.Data2 with ChatIdList := v } }

def TLUserChatIdList.GetChatIdList (m : TLUserChatIdList) : Option (List ℤ) := m.Data2.ChatIdList

def TLUserChatIdList.Encode (E : Env) (m : TLUserChatIdList) (layer : ℤ) : List Byte :=
  let x := NewEncodeBuf 512
  let clazzId := E.GetClazzID Predicate_userChatIdList layer
  if toU32 clazzId = 0x50067224 then
    let x := x.UInt 0x50067224
    let x := x.Long m.GetUserId
    let x := x.VectorLong E m.GetChatIdList
    x.GetBuf
  else
    x.GetBuf

def TLUserChatIdList.Decode (E : Env) (m : TLUserChatIdList) (dBuf : DecodeBuf) :
    Option Error × TLUserChatIdList × DecodeBuf :=
  if toU32 m.Data2.Constructor = 0x50067224 then
    let (userId, dBuf) := dBuf.Long
    let m := m.SetUserId userId
    let (chatIdList, dBuf) := dBuf.VectorLong E
    let m := m.SetChatIdList chatIdList
    (dBuf.GetError, m, dBuf)
  else
    (some (Error.invalidConstructor (toU32 m.Data2.Constructor)), m, dBuf)

/-- The method `UserChatIdList.Encode`: the bytes and the storage record after the call. -/
def UserChatIdList.Encode (E : Env) (m : UserChatIdList) (layer : ℤ) :
    List Byte × UserChatIdList :=
  let predicateName := resolvePredicateName E m.PredicateName m.Constructor
  if predicateName = Predicate_userChatIdList then
    let t := m.To_UserChatIdList
    (t.Encode E layer, t.Data2)
  else
    ([], m)

def UserChatIdList.Decode (E : Env) (m : UserChatIdList) (dBuf : DecodeBuf) :
    Option Error × UserChatIdList × DecodeBuf :=
  let (c, dBuf) := dBuf.Int
  let m := { m with Constructor := c }
  if toU32 m.Constructor = 0x50067224 then
    let m2 := MakeTLUserChatIdList (some m)
    let (_, m2, dBuf) := m2.Decode E dBuf
    (dBuf.GetError, m2.Data2, dBuf)
  else
    (some (Error.invalidConstructorId (toU32 m.Constructor)), m, dBuf)

/-! ## Method records with a flags word -/

/-- The method record `TLChatExportChatInvite`. -/
structure TLChatExportChatInvite where
  Constructor : ℤ := 0
  ChatId : ℤ := 0
  AdminId : ℤ := 0
  LegacyRevokePermanent : Bool := false
  RequestNeeded : Bool := false
  ExpireDate : Option ℤ := none
  UsageLimit : Option ℤ := none
  Title : Option String := none
  deriving DecidableEq, Repr

/-- The flags word `TLChatExportChatInvite.Encode` computes. -/
def TLChatExportChatInvite.flags (m : TLChatExportChatInvite) : Nat :=
  let flags : Nat := 0
  let flags := if m.LegacyRevokePermanent = true then setBit flags 2 else flags
  let flags := if m.RequestNeeded = true then setBit flags 3 else flags
  let flags := if m.ExpireDate ≠ none then setBit flags 0 else flags
  let flags := if m.UsageLimit ≠ none then setBit flags 1 else flags
  let flags := if m.Title ≠ none then setBit flags 4 else flags
  flags

def TLChatExportChatInvite.Encode (E : Env) (m : TLChatExportChatInvite) (_layer : ℤ) :
    List Byte :=
  let x := NewEncodeBuf 512
  if toU32 m.Constructor = 0xc5cf804b then
    let x := x.UInt 0xc5cf804b
    let flags := m.flags
    let x := x.UInt flags
    let x := x.Long m.ChatId
    let x := x.Long m.AdminId
    let x := match m.ExpireDate with
      | some v => x.Int v
      | none => x
    let x := match m.UsageLimit with
      | some v => x.Int v
      | none => x
    let x := match m.Title with
      | some v => x.String E v
      | none => x
    x.GetBuf
  else
    x.GetBuf

def TLChatExportChatInvite.Decode (E : Env) (m : TLChatExportChatInvite) (dBuf : DecodeBuf) :
    Option Error × TLChatExportChatInvite × DecodeBuf :=
  if toU32 m.Constructor = 0xc5cf804b then
    let (flags, dBuf) := dBuf.UInt
    let (chatId, dBuf) := dBuf.Long
    let m := { m with ChatId := chatId }
    let (adminId, dBuf) := dBuf.Long
    let m := { m with AdminId := adminId }
    let m := if hasBit flags 2 then { m with LegacyRevokePermanent := true } else m
    let m := if hasBit flags 3 then { m with RequestNeeded := true } else m
    let (m, dBuf) :=
      if hasBit flags 0 then
        let (v, dBuf) := dBuf.Int
        ({ m with ExpireDate := some v }, dBuf)
      else (m, dBuf)
    let (m, dBuf) :=
      if hasBit flags 1 then
        let (v, dBuf) := dBuf.Int
        ({ m with UsageLimit := some v }, dBuf)
      else (m, dBuf)
    let (m, dBuf) :=
      if hasBit flags 4 then
        let (v, dBuf) := dBuf.String E
        ({ m with Title := some v }, dBuf)
      else (m, dBuf)
    (dBuf.GetError, m, dBuf)
  else
    (dBuf.GetError, m, dBuf)

/-- The method record `TLChatGetExportedChatInvites`. -/
structure TLChatGetExportedChatInvites where
  Constructor : ℤ := 0
  ChatId : ℤ := 0
  AdminId : ℤ := 0
  Revoked : Bool := false
  OffsetDate : Option ℤ := none
  OffsetLink : Option String := none
  Limit : ℤ := 0
  deriving DecidableEq, Repr

/-- The flags word `TLChatGetExportedChatInvites.Encode` computes. -/
def TLChatGetExportedChatInvites.flags (m : TLChatGetExportedChatInvites) : Nat :=
  let flags : Nat := 0
  let flags := if m.Revoked = true then setBit flags 3 else flags
  let flags := if m.OffsetDate ≠ none then setBit flags 2 else flags
  let flags := if m.OffsetLink ≠ none then setBit flags 2 else flags
  flags

def TLChatGetExportedChatInvites.Encode (E : Env) (m : TLChatGetExportedChatInvites)
    (_layer : ℤ) : List Byte :=
  let x := NewEncodeBuf 512
  if toU32 m.Constructor = 0xb48f18f6 then
    let x := x.UInt 0xb48f18f6
    let flags := m.flags
    let x := x.UInt flags
    let x := x.Long m.ChatId
    let x := x.Long m.AdminId
    let x := match m.OffsetDate with
      | some v => x.Int v
      | none => x
    let x := match m.OffsetLink with
      | some v => x.String E v
      | none => x
    let x := x.Int m.Limit
    x.GetBuf
  else
    x.GetBuf

def TLChatGetExportedChatInvites.Decode (E : Env) (m : TLChatGetExportedChatInvites)
    (dBuf : DecodeBuf) : Option Error × TLChatGetExportedChatInvites × DecodeBuf :=
  if toU32 m.Constructor = 0xb48f18f6 then
    let (flags, dBuf) := dBuf.UInt
    let (chatId, dBuf) := dBuf.Long
    let m := { m with ChatId := chatId }
    let (adminId, dBuf) := dBuf.Long
    let m := { m with AdminId := adminId }
    let m := if hasBit flags 3 then { m with Revoked := true } else m
    let (m, dBuf) :=
      if hasBit flags 2 then
        let (v, dBuf) := dBuf.Int
        ({ m with OffsetDate := some v }, dBuf)
      else (m, dBuf)
    let (m, dBuf) :=
      if hasBit flags 2 then
        let (v, dBuf) := dBuf.String E
        ({ m with OffsetLink := some v }, dBuf)
      else (m, dBuf)
    let (limit, dBuf) := dBuf.Int
    let m := { m with Limit := limit }
    (dBuf.GetError, m, dBuf)
  else
    (dBuf.GetError, m, dBuf)

/-- The method record `TLChatHideChatJoinRequests`. -/
structure TLChatHideChatJoinRequests where
  Constructor : ℤ := 0
  SelfId : ℤ := 0
  ChatId : ℤ := 0
  Approved : Bool := false
  Link : Option String := none
  UserId : Option ℤ := none
  deriving DecidableEq, Repr

/-- The flags word `TLChatHideChatJoinRequests.Encode` computes. -/
def TLChatHideChatJoinRequests.flags (m : TLChatHideChatJoinRequests) : Nat :=
  let flags : Nat := 0
  let flags := if m.Approved = true then setBit flags 0 else flags
  let flags := if m.Link ≠ none then setBit flags 1 else flags
  let flags := if m.UserId ≠ none then setBit flags 2 else flags
  flags

def TLChatHideChatJoinRequests.Encode (E : Env) (m : TLChatHideChatJoinRequests) (_layer : ℤ) :
    List Byte :=
  let x := NewEncodeBuf 512
  if toU32 m.Constructor = 0x3ea52cd1 then
    let x := x.UInt 0x3ea52cd1
    let flags := m.flags
    let x := x.UInt flags
    let x := x.Long m.SelfId
    let x := x.Long m.ChatId
    let x := match m.Link with
      | some v => x.String E v
      | none => x
    let x := match m.UserId with
      | some v => x.Long v
      | none => x
    x.GetBuf
  else
    x.GetBuf

def TLChatHideChatJoinRequests.Decode (E : Env) (m : TLChatHideChatJoinRequests)
    (dBuf : DecodeBuf) : Option Error × TLChatHideChatJoinRequests × DecodeBuf :=
  if toU32 m.Constructor = 0x3ea52cd1 then
    let (flags, dBuf) := dBuf.UInt
    let (selfId, dBuf) := dBuf.Long
    let m := { m with SelfId := selfId }
    let (chatId, dBuf) := dBuf.Long
    let m := { m with ChatId := chatId }
    let m := if hasBit flags 0 then { m with Approved := true } else m
    let (m, dBuf) :=
      if hasBit flags 1 then
        let (v, dBuf) := dBuf.String E
        ({ m with Link := some v }, dBuf)
      else (m, dBuf)
    let (m, dBuf) :=
      if hasBit flags 2 then
        let (v, dBuf) := dBuf.Long
        ({ m with UserId := some v }, dBuf)
      else (m, dBuf)
    (dBuf.GetError, m, dBuf)
  else
    (dBuf.GetError, m, dBuf)

/-! ## A method record without flags -/

/-- The method record `TLChatGetMutableChat`. -/
structure TLChatGetMutableChat where
  Constructor : ℤ := 0
  ChatId : ℤ := 0
  deriving DecidableEq, Repr

def TLChatGetMutableChat.Encode (m : TLChatGetMutableChat) (_layer : ℤ) : List Byte :=
  let x := NewEncodeBuf 512
  if toU32 m.Constructor = 0x2c2c25d2 then
    let x := x.UInt 0x2c2c25d2
    let x := x.Long m.ChatId
    x.GetBuf
  else
    x.GetBuf

def TLChatGetMutableChat.Decode (m : TLChatGetMutableChat) (dBuf : DecodeBuf) :
    Option Error × TLChatGetMutableChat × DecodeBuf :=
  if toU32 m.Constructor = 0x2c2c25d2 then
    let (chatId, dBuf) := dBuf.Long
    let m := { m with ChatId := chatId }
    (dBuf.GetError, m, dBuf)
  else
    (dBuf.GetError, m, dBuf)

/-! ## The other method records

Of the thirty method records below only the encoder is translated; each encoder has the
shape of `TLChatGetMutableChat.Encode`: one recognised tag, written first. -/

/-- The method record `TLChatGetChatListByIdList`. -/
structure TLChatGetChatListByIdList where
  Constructor : ℤ := 0
  SelfId : ℤ := 0
  IdList : Option (List ℤ) := none
  deriving DecidableEq, Repr

def TLChatGetChatListByIdList.Encode (E : Env) (m : TLChatGetChatListByIdList) (_layer : ℤ) :
    List Byte :=
  let x := NewEncodeBuf 512
  if toU32 m.Constructor = 0xe740f539 then
    let x := x.UInt 0xe740f539
    let x := x.Long m.SelfId
    let x := x.VectorLong E m.IdList
    x.GetBuf
  else
    x.GetBuf

/-- The method record `TLChatGetChatBySelfId`. -/
structure TLChatGetChatBySelfId where
  Constructor : ℤ := 0
  SelfId : ℤ := 0
  ChatId : ℤ := 0
  deriving DecidableEq, Repr

def TLChatGetChatBySelfId.Encode (m : TLChatGetChatBySelfId) (_layer : ℤ) : List Byte :=
  let x := NewEncodeBuf 512
  if toU32 m.Constructor = 0x49b71a48 then
    let x := x.UInt 0x49b71a48
    let x := x.Long m.SelfId
    let x := x.Long m.ChatId
    x.GetBuf
  else
    x.GetBuf

/-- The method record `TLChatCreateChat2`. -/
structure TLChatCreateChat2 where
  Constructor : ℤ := 0
  CreatorId : ℤ := 0
  UserIdList : Option (List ℤ) := none
  Title : String := ""
  deriving DecidableEq, Repr

def TLChatCreateChat2.Encode (E : Env) (m : TLChatCreateChat2) (_layer : ℤ) : List Byte :=
  let x := NewEncodeBuf 512
  if toU32 m.Constructor = 0xe43f61af then
    let x := x.UInt 0xe43f61af
    let x := x.Long m.CreatorId
    let x := x.VectorLong E m.UserIdList
    let x := x.String E m.Title
    x.GetBuf
  else
    x.GetBuf

/-- The method record `TLChatDeleteChat`. -/
structure TLChatDeleteChat where
  Constructor : ℤ := 0
  ChatId : ℤ := 0
  OperatorId : ℤ := 0
  deriving DecidableEq, Repr

def TLChatDeleteChat.Encode (m : TLChatDeleteChat) (_layer : ℤ) : List Byte :=
  let x := NewEncodeBuf 512
  if toU32 m.Constructor = 0x6d11ec1e then
    let x := x.UInt 0x6d11ec1e
    let x := x.Long m.ChatId
    let x := x.Long m.OperatorId
    x.GetBuf
  else
    x.GetBuf

/-- The method record `TLChatDeleteChatUser`. -/
structure TLChatDeleteChatUser where
  Constructor : ℤ := 0
  ChatId : ℤ := 0
  OperatorId : ℤ := 0
  DeleteUserId : ℤ := 0
  deriving DecidableEq, Repr

def TLChatDeleteChatUser.Encode (m : TLChatDeleteChatUser) (_layer : ℤ) : List Byte :=
  let x := NewEncodeBuf 512
  if toU32 m.Constructor = 0xb270fd5 then
    let x := x.UInt 0xb270fd5
    let x := x.Long m.ChatId
    let x := x.Long m.OperatorId
    let x := x.Long m.DeleteUserId
    x.GetBuf
  else
    x.GetBuf

/-- The method record `TLChatEditChatTitle`. -/
structure TLChatEditChatTitle where
  Constructor : ℤ := 0
  ChatId : ℤ := 0
  EditUserId : ℤ := 0
  Title : String := ""
  deriving DecidableEq, Repr

def TLChatEditChatTitle.Encode (E : Env) (m : TLChatEditChatTitle) (_layer : ℤ) : List Byte :=
  let x := NewEncodeBuf 512
  if toU32 m.Constructor = 0x95c59ea7 then
    let x := x.UInt 0x95c59ea7
    let x := x.Long m.ChatId
    let x := x.Long m.EditUserId
    let x := x.String E m.Title
    x.GetBuf
  else
    x.GetBuf

/-- The method record `TLChatEditChatAbout`. -/
structure TLChatEditChatAbout where
  Constructor : ℤ := 0
  ChatId : ℤ := 0
  EditUserId : ℤ := 0
  About : String := ""
  deriving DecidableEq, Repr

def TLChatEditChatAbout.Encode (E : Env) (m : TLChatEditChatAbout) (_layer : ℤ) : List Byte :=
  let x := NewEncodeBuf 512
  if toU32 m.Constructor = 0x5c737c78 then
    let x := x.UInt 0x5c737c78
    let x := x.Long m.ChatId
    let x := x.Long m.EditUserId
    let x := x.String E m.About
    x.GetBuf
  else
    x.GetBuf

/-- The method record `TLChatEditChatPhoto`. -/
structure TLChatEditChatPhoto (E : Env) where
  Constructor : ℤ := 0
  ChatId : ℤ := 0
  EditUserId : ℤ := 0
  ChatPhoto : Option E.Photo := none

def TLChatEditChatPhoto.Encode (E : Env) (m : TLChatEditChatPhoto E) (layer : ℤ) : List Byte :=
  let x := NewEncodeBuf 512
  if toU32 m.Constructor = 0x45c2a668 then
    let x := x.UInt 0x45c2a668
    let x := x.Long m.ChatId
    let x := x.Long m.EditUserId
    let x := x.Bytes (E.encodePhoto m.ChatPhoto layer)
    x.GetBuf
  else
    x.GetBuf

/-- The method record `TLChatEditChatAdmin`. -/
structure TLChatEditChatAdmin (E : Env) where
  Constructor : ℤ := 0
  ChatId : ℤ := 0
  OperatorId : ℤ := 0
  EditChatAdminId : ℤ := 0
  IsAdmin : Option E.MtprotoBool := none

def TLChatEditChatAdmin.Encode (E : Env) (m : TLChatEditChatAdmin E) (layer : ℤ) : List Byte :=
  let x := NewEncodeBuf 512
  if toU32 m.Constructor = 0x1905e5ec then
    let x := x.UInt 0x1905e5ec
    let x := x.Long m.ChatId
    let x := x.Long m.OperatorId
    let x := x.Long m.EditChatAdminId
    let x := x.Bytes (E.encodeBool m.IsAdmin layer)
    x.GetBuf
  else
    x.GetBuf

/-- The method record `TLChatEditChatDefaultBannedRights`. -/
structure TLChatEditChatDefaultBannedRights (E : Env) where
  Constructor : ℤ := 0
  ChatId : ℤ := 0
  OperatorId : ℤ := 0
  BannedRights : Option E.ChatBannedRights := none

def TLChatEditChatDefaultBannedRights.Encode (E : Env) (m : TLChatEditChatDefaultBannedRights E) (layer : ℤ) :
    List Byte :=
  let x := NewEncodeBuf 512
  if toU32 m.Constructor = 0x5a34a687 then
    let x := x.UInt 0x5a34a687
    let x := x.Long m.ChatId
    let x := x.Long m.OperatorId
    let x := x.Bytes (E.encodeChatBannedRights m.BannedRights layer)
    x.GetBuf
  else
    x.GetBuf

/-- The method record `TLChatAddChatUser`. -/
structure TLChatAddChatUser where
  Constructor : ℤ := 0
  ChatId : ℤ := 0
  InviterId : ℤ := 0
  UserId : ℤ := 0
  deriving DecidableEq, Repr

def TLChatAddChatUser.Encode (m : TLChatAddChatUser) (_layer : ℤ) : List Byte :=
  let x := NewEncodeBuf 512
  if toU32 m.Constructor = 0x7c5da48d then
    let x := x.UInt 0x7c5da48d
    let x := x.Long m.ChatId
    let x := x.Long m.InviterId
    let x := x.Long m.UserId
    x.GetBuf
  else
    x.GetBuf

/-- The method record `TLChatGetMutableChatByLink`. -/
structure TLChatGetMutableChatByLink where
  Constructor : ℤ := 0
  Link : String := ""
  deriving DecidableEq, Repr

def TLChatGetMutableChatByLink.Encode (E : Env) (m : TLChatGetMutableChatByLink) (_layer : ℤ) :
    List Byte :=
  let x := NewEncodeBuf 512
  if toU32 m.Constructor = 0xa266278b then
    let x := x.UInt 0xa266278b
    let x := x.String E m.Link
    x.GetBuf
  else
    x.GetBuf

/-- The method record `TLChatToggleNoForwards`. -/
structure TLChatToggleNoForwards (E : Env) where
  Constructor : ℤ := 0
  ChatId : ℤ := 0
  OperatorId : ℤ := 0
  Enabled : Option E.MtprotoBool := none

def TLChatToggleNoForwards.Encode (E : Env) (m : TLChatToggleNoForwards E) (layer : ℤ) :
    List Byte :=
  let x := NewEncodeBuf 512
  if toU32 m.Constructor = 0xd5952af9 then
    let x := x.UInt 0xd5952af9
    let x := x.Long m.ChatId
    let x := x.Long m.OperatorId
    let x := x.Bytes (E.encodeBool m.Enabled layer)
    x.GetBuf
  else
    x.GetBuf

/-- The method record `TLChatMigratedToChannel`. -/
structure TLChatMigratedToChannel (E : Env) where
  Constructor : ℤ := 0
  Chat : Option E.MutableChat := none
  Id : ℤ := 0
  AccessHash : ℤ := 0

def TLChatMigratedToChannel.Encode (E : Env) (m : TLChatMigratedToChannel E) (layer : ℤ) :
    List Byte :=
  let x := NewEncodeBuf 512
  if toU32 m.Constructor = 0x83faadf then
    let x := x.UInt 0x83faadf
    let x := x.Bytes (E.encodeMutableChat m.Chat layer)
    let x := x.Long m.Id
    let x := x.Long m.AccessHash
    x.GetBuf
  else
    x.GetBuf

/-- The method record `TLChatGetChatParticipantIdList`. -/
structure TLChatGetChatParticipantIdList where
  Constructor : ℤ := 0
  ChatId : ℤ := 0
  deriving DecidableEq, Repr

def TLChatGetChatParticipantIdList.Encode (m : TLChatGetChatParticipantIdList) (_layer : ℤ) :
    List Byte :=
  let x := NewEncodeBuf 512
  if toU32 m.Constructor = 0x329622a9 then
    let x := x.UInt 0x329622a9
    let x := x.Long m.ChatId
    x.GetBuf
  else
    x.GetBuf

/-- The method record `TLChatGetUsersChatIdList`. -/
structure TLChatGetUsersChatIdList where
  Constructor : ℤ := 0
  Id : Option (List ℤ) := none
  deriving DecidableEq, Repr

def TLChatGetUsersChatIdList.Encode (E : Env) (m : TLChatGetUsersChatIdList) (_layer : ℤ) :
    List Byte :=
  let x := NewEncodeBuf 512
  if toU32 m.Constructor = 0x2f36ab4c then
    let x := x.UInt 0x2f36ab4c
    let x := x.VectorLong E m.Id
    x.GetBuf
  else
    x.GetBuf

/-- The method record `TLChatGetMyChatList`. -/
structure TLChatGetMyChatList (E : Env) where
  Constructor : ℤ := 0
  UserId : ℤ := 0
  IsCreator : Option E.MtprotoBool := none

def TLChatGetMyChatList.Encode (E : Env) (m : TLChatGetMyChatList E) (layer : ℤ) : List Byte :=
  let x := NewEncodeBuf 512
  if toU32 m.Constructor = 0xf3756c88 then
    let x := x.UInt 0xf3756c88
    let x := x.Long m.UserId
    let x := x.Bytes (E.encodeBool m.IsCreator layer)
    x.GetBuf
  else
    x.GetBuf

/-- The method record `TLChatGetAdminsWithInvites`. -/
structure TLChatGetAdminsWithInvites where
  Constructor : ℤ := 0
  SelfId : ℤ := 0
  ChatId : ℤ := 0
  deriving DecidableEq, Repr

def TLChatGetAdminsWithInvites.Encode (m : TLChatGetAdminsWithInvites) (_layer : ℤ) : List Byte :=
  let x := NewEncodeBuf 512
  if toU32 m.Constructor = 0xd2ea41d2 then
    let x := x.UInt 0xd2ea41d2
    let x := x.Long m.SelfId
    let x := x.Long m.ChatId
    x.GetBuf
  else
    x.GetBuf

/-- The method record `TLChatGetExportedChatInvite`. -/
structure TLChatGetExportedChatInvite where
  Constructor : ℤ := 0
  ChatId : ℤ := 0
  Link : String := ""
  deriving DecidableEq, Repr

def TLChatGetExportedChatInvite.Encode (E : Env) (m : TLChatGetExportedChatInvite) (_layer : ℤ) :
    List Byte :=
  let x := NewEncodeBuf 512
  if toU32 m.Constructor = 0xddea3250 then
    let x := x.UInt 0xddea3250
    let x := x.Long m.ChatId
    let x := x.String E m.Link
    x.GetBuf
  else
    x.GetBuf

/-- The method record `TLChatCheckChatInvite`. -/
structure TLChatCheckChatInvite where
  Constructor : ℤ := 0
  SelfId : ℤ := 0
  Hash : String := ""
  deriving DecidableEq, Repr

def TLChatCheckChatInvite.Encode (E : Env) (m : TLChatCheckChatInvite) (_layer : ℤ) : List Byte :=
  let x := NewEncodeBuf 512
  if toU32 m.Constructor = 0x7387f28c then
    let x := x.UInt 0x7387f28c
    let x := x.Long m.SelfId
    let x := x.String E m.Hash
    x.GetBuf
  else
    x.GetBuf

/-- The method record `TLChatImportChatInvite`. -/
structure TLChatImportChatInvite where
  Constructor : ℤ := 0
  SelfId : ℤ := 0
  Hash : String := ""
  deriving DecidableEq, Repr

def TLChatImportChatInvite.Encode (E : Env) (m : TLChatImportChatInvite) (_layer : ℤ) : List Byte :=
  let x := NewEncodeBuf 512
  if toU32 m.Constructor = 0x58e660d4 then
    let x := x.UInt 0x58e660d4
    let x := x.Long m.SelfId
    let x := x.String E m.Hash
    x.GetBuf
  else
    x.GetBuf

/-- The method record `TLChatDeleteExportedChatInvite`. -/
structure TLChatDeleteExportedChatInvite where
  Constructor : ℤ := 0
  SelfId : ℤ := 0
  ChatId : ℤ := 0
  Link : String := ""
  deriving DecidableEq, Repr

def TLChatDeleteExportedChatInvite.Encode (E : Env) (m : TLChatDeleteExportedChatInvite) (_layer : ℤ) :
    List Byte :=
  let x := NewEncodeBuf 512
  if toU32 m.Constructor = 0x562288b8 then
    let x := x.UInt 0x562288b8
    let x := x.Long m.SelfId
    let x := x.Long m.ChatId
    let x := x.String E m.Link
    x.GetBuf
  else
    x.GetBuf

/-- The method record `TLChatDeleteRevokedExportedChatInvites`. -/
structure TLChatDeleteRevokedExportedChatInvites where
  Constructor : ℤ := 0
  SelfId : ℤ := 0
  ChatId : ℤ := 0
  AdminId : ℤ := 0
  deriving DecidableEq, Repr

def TLChatDeleteRevokedExportedChatInvites.Encode (m : TLChatDeleteRevokedExportedChatInvites) (_layer : ℤ) :
    List Byte :=
  let x := NewEncodeBuf 512
  if toU32 m.Constructor = 0xd0126269 then
    let x := x.UInt 0xd0126269
    let x := x.Long m.SelfId
    let x := x.Long m.ChatId
    let x := x.Long m.AdminId
    x.GetBuf
  else
    x.GetBuf

/-- The method record `TLChatSetChatAvailableReactions`. -/
structure TLChatSetChatAvailableReactions where
  Constructor : ℤ := 0
  SelfId : ℤ := 0
  ChatId : ℤ := 0
  AvailableReactionsType : ℤ := 0
  AvailableReactions : Option (List String) := none
  deriving DecidableEq, Repr

def TLChatSetChatAvailableReactions.Encode (E : Env) (m : TLChatSetChatAvailableReactions) (_layer : ℤ) :
    List Byte :=
  let x := NewEncodeBuf 512
  if toU32 m.Constructor = 0xc4d08972 then
    let x := x.UInt 0xc4d08972
    let x := x.Long m.SelfId
    let x := x.Long m.ChatId
    let x := x.Int m.AvailableReactionsType
    let x := x.VectorString E m.AvailableReactions
    x.GetBuf
  else
    x.GetBuf

/-- The method record `TLChatSetHistoryTTL`. -/
structure TLChatSetHistoryTTL where
  Constructor : ℤ := 0
  SelfId : ℤ := 0
  ChatId : ℤ := 0
  TtlPeriod : ℤ := 0
  deriving DecidableEq, Repr

def TLChatSetHistoryTTL.Encode (m : TLChatSetHistoryTTL) (_layer : ℤ) : List Byte :=
  let x := NewEncodeBuf 512
  if toU32 m.Constructor = 0x3cfb6384 then
    let x := x.UInt 0x3cfb6384
    let x := x.Long m.SelfId
    let x := x.Long m.ChatId
    let x := x.Int m.TtlPeriod
    x.GetBuf
  else
    x.GetBuf

/-- The method record `TLChatSearch`. -/
structure TLChatSearch where
  Constructor : ℤ := 0
  SelfId : ℤ := 0
  Q : String := ""
  Offset : ℤ := 0
  Limit : ℤ := 0
  deriving DecidableEq, Repr

def TLChatSearch.Encode (E : Env) (m : TLChatSearch) (_layer : ℤ) : List Byte :=
  let x := NewEncodeBuf 512
  if toU32 m.Constructor = 0x21e014fb then
    let x := x.UInt 0x21e014fb
    let x := x.Long m.SelfId
    let x := x.String E m.Q
    let x := x.Long m.Offset
    let x := x.Int m.Limit
    x.GetBuf
  else
    x.GetBuf

/-- The method record `TLChatGetRecentChatInviteRequesters`. -/
structure TLChatGetRecentChatInviteRequesters where
  Constructor : ℤ := 0
  SelfId : ℤ := 0
  ChatId : ℤ := 0
  deriving DecidableEq, Repr

def TLChatGetRecentChatInviteRequesters.Encode (m : TLChatGetRecentChatInviteRequesters) (_layer : ℤ) :
    List Byte :=
  let x := NewEncodeBuf 512
  if toU32 m.Constructor = 0xfedc1098 then
    let x := x.UInt 0xfedc1098
    let x := x.Long m.SelfId
    let x := x.Long m.ChatId
    x.GetBuf
  else
    x.GetBuf

/-- The method record `TLChatImportChatInvite2`. -/
structure TLChatImportChatInvite2 where
  Constructor : ℤ := 0
  SelfId : ℤ := 0
  Hash : String := ""
  deriving DecidableEq, Repr

def TLChatImportChatInvite2.Encode (E : Env) (m : TLChatImportChatInvite2) (_layer : ℤ) :
    List Byte :=
  let x := NewEncodeBuf 512
  if toU32 m.Constructor = 0xdcd93dbf then
    let x := x.UInt 0xdcd93dbf
    let x := x.Long m.SelfId
    let x := x.String E m.Hash
    x.GetBuf
  else
    x.GetBuf

/-- The method record `TLChatGetChatInviteImporters`. -/
structure TLChatGetChatInviteImporters where
  Constructor : ℤ := 0
  SelfId : ℤ := 0
  ChatId : ℤ := 0
  Requested : Bool := false
  Link : Option String := none
  Q : Option String := none
  OffsetDate : ℤ := 0
  OffsetUser : ℤ := 0
  Limit : ℤ := 0
  deriving DecidableEq, Repr

/-- The flags word `TLChatGetChatInviteImporters.Encode` computes. -/
def TLChatGetChatInviteImporters.flags (m : TLChatGetChatInviteImporters) : Nat :=
  let flags : Nat := 0
  let flags := if m.Requested = true then setBit flags 0 else flags
  let flags := if m.Link ≠ none then setBit flags 1 else flags
  let flags := if m.Q ≠ none then setBit flags 2 else flags
  flags

def TLChatGetChatInviteImporters.Encode (E : Env) (m : TLChatGetChatInviteImporters)
    (_layer : ℤ) : List Byte :=
  let x := NewEncodeBuf 512
  if toU32 m.Constructor = 0x9846557f then
    let x := x.UInt 0x9846557f
    let flags := m.flags
    let x := x.UInt flags
    let x := x.Long m.SelfId
    let x := x.Long m.ChatId
    let x := match m.Link with
      | some v => x.String E v
      | none => x
    let x := match m.Q with
      | some v => x.String E v
      | none => x
    let x := x.Int m.OffsetDate
    let x := x.Long m.OffsetUser
    let x := x.Int m.Limit
    x.GetBuf
  else
    x.GetBuf

/-- The method record `TLChatEditExportedChatInvite`. -/
structure TLChatEditExportedChatInvite (E : Env) where
  Constructor : ℤ := 0
  SelfId : ℤ := 0
  ChatId : ℤ := 0
  Revoked : Bool := false
  Link : String := ""
  ExpireDate : Option ℤ := none
  UsageLimit : Option ℤ := none
  RequestNeeded : Option E.MtprotoBool := none
  Title : Option String := none

/-- The flags word `TLChatEditExportedChatInvite.Encode` computes. -/
def TLChatEditExportedChatInvite.flags {E : Env} (m : TLChatEditExportedChatInvite E) : Nat :=
  let flags : Nat := 0
  let flags := if m.Revoked = true then setBit flags 2 else flags
  let flags := if m.ExpireDate ≠ none then setBit flags 0 else flags
  let flags := if m.UsageLimit ≠ none then setBit flags 1 else flags
  let flags := if m.RequestNeeded.isSome then setBit flags 3 else flags
  let flags := if m.Title ≠ none then setBit flags 4 else flags
  flags

def TLChatEditExportedChatInvite.Encode (E : Env) (m : TLChatEditExportedChatInvite E)
    (layer : ℤ) : List Byte :=
  let x := NewEncodeBuf 512
  if toU32 m.Constructor = 0xaf994c76 then
    let x := x.UInt 0xaf994c76
    let flags := m.flags
    let x := x.UInt flags
    let x := x.Long m.SelfId
    let x := x.Long m.ChatId
    let x := x.String E m.Link
    let x := match m.ExpireDate with
      | some v => x.Int v
      | none => x
    let x := match m.UsageLimit with
      | some v => x.Int v
      | none => x
    let x := match m.RequestNeeded with
      | some _ => x.Bytes (E.encodeBool m.RequestNeeded layer)
      | none => x
    let x := match m.Title with
      | some v => x.String E v
      | none => x
    x.GetBuf
  else
    x.GetBuf

/-! ## Vector containers -/

/-- How a call ends: it returns a value, or the Go runtime panics. -/
inductive Outcome (α : Type) where
  | returned (a : α)
  | panicked (msg : String)
  deriving DecidableEq, Repr

/-- The container `Vector_Long`. -/
structure Vector_Long where
  Datas : Option (List ℤ) := none
  deriving DecidableEq, Repr

def Vector_Long.Encode (E : Env) (m : Vector_Long) (_layer : ℤ) : List Byte :=
  let x := NewEncodeBuf 512
  let x := x.VectorLong E m.Datas
  x.GetBuf

def Vector_Long.Decode (E : Env) (m : Vector_Long) (dBuf : DecodeBuf) :
    Option Error × Vector_Long × DecodeBuf :=
  let (datas, dBuf) := dBuf.VectorLong E
  let m := { m with Datas := datas }
  (dBuf.GetError, m, dBuf)

/-- The container `Vector_UserChatIdList`.  `Datas` is a slice of pointers; the
elements are the records pointed to, so a nil element pointer (on which `Encode`
would dereference nil) is not a value of this type. -/
structure Vector_UserChatIdList where
  Datas : Option (List UserChatIdList) := none
  deriving DecidableEq, Repr

/-- The loop `for _, v := range m.Datas { x.Bytes((*v).Encode(layer)) }`. -/
def encodeUserChatIdLists (E : Env) (layer : ℤ) : List UserChatIdList → EncodeBuf → EncodeBuf
  | [], x => x
  | v :: vs, x => encodeUserChatIdLists E layer vs (x.Bytes (v.Encode E layer).1)

def Vector_UserChatIdList.Encode (E : Env) (m : Vector_UserChatIdList) (layer : ℤ) : List Byte :=
  let x := NewEncodeBuf 512
  let x := x.Int E.CRC32_vector
  let x := x.Int (toI32 (elems m.Datas).length)
  let x := encodeUserChatIdLists E layer (elems m.Datas) x
  x.GetBuf

/-- The loop `for i := int32(0); i < l1; i++` of `Vector_UserChatIdList.Decode`, with
`n` iterations left: each decodes into a `new(UserChatIdList)` and drops the error the
element decoder returns. -/
def decodeUserChatIdLists (E : Env) : Nat → DecodeBuf → List UserChatIdList × DecodeBuf
  | 0, dBuf => ([], dBuf)
  | n + 1, dBuf =>
    let (_, m, dBuf) := UserChatIdList.Decode E {} dBuf
    let (ms, dBuf) := decodeUserChatIdLists E n dBuf
    (m :: ms, dBuf)

/-- The method `Vector_UserChatIdList.Decode`.  `make([]*UserChatIdList, l1)` panics
in the Go runtime when `l1` is negative. -/
def Vector_UserChatIdList.Decode (E : Env) (m : Vector_UserChatIdList) (dBuf : DecodeBuf) :
    Outcome (Option Error × Vector_UserChatIdList × DecodeBuf) :=
  let (_, dBuf) := dBuf.Int
  let (l1, dBuf) := dBuf.Int
  if l1 < 0 then
    Outcome.panicked "runtime error: makeslice: len out of range"
  else
    let (datas, dBuf) := decodeUserChatIdLists E l1.toNat dBuf
    let m := { m with Datas := some datas }
    Outcome.returned (dBuf.GetError, m, dBuf)

/-! ## The registry -/

/-- The interface `mtproto.TLObject`, restricted to the forty types the registry of this
file creates: a value is a pointer to a record of one of them. -/
inductive TLObject (E : Env) where
  | TLChatInviteAlready (m : Chat.TLChatInviteAlready E)
  | TLChatInvite (m : Chat.TLChatInvite E)
  | TLChatInvitePeek (m : Chat.TLChatInvitePeek E)
  | TLChatInviteImported (m : Chat.TLChatInviteImported E)
  | TLRecentChatInviteRequesters (m : Chat.TLRecentChatInviteRequesters)
  | TLUserChatIdList (m : Chat.TLUserChatIdList)
  | TLChatGetMutableChat (m : Chat.TLChatGetMutableChat)
  | TLChatGetChatListByIdList (m : Chat.TLChatGetChatListByIdList)
  | TLChatGetChatBySelfId (m : Chat.TLChatGetChatBySelfId)
  | TLChatCreateChat2 (m : Chat.TLChatCreateChat2)
  | TLChatDeleteChat (m : Chat.TLChatDeleteChat)
  | TLChatDeleteChatUser (m : Chat.TLChatDeleteChatUser)
  | TLChatEditChatTitle (m : Chat.TLChatEditChatTitle)
  | TLChatEditChatAbout (m : Chat.TLChatEditChatAbout)
  | TLChatEditChatPhoto (m : Chat.TLChatEditChatPhoto E)
  | TLChatEditChatAdmin (m : Chat.TLChatEditChatAdmin E)
  | TLChatEditChatDefaultBannedRights (m : Chat.TLChatEditChatDefaultBannedRights E)
  | TLChatAddChatUser (m : Chat.TLChatAddChatUser)
  | TLChatGetMutableChatByLink (m : Chat.TLChatGetMutableChatByLink)
  | TLChatToggleNoForwards (m : Chat.TLChatToggleNoForwards E)
  | TLChatMigratedToChannel (m : Chat.TLChatMigratedToChannel E)
  | TLChatGetChatParticipantIdList (m : Chat.TLChatGetChatParticipantIdList)
  | TLChatGetUsersChatIdList (m : Chat.TLChatGetUsersChatIdList)
  | TLChatGetMyChatList (m : Chat.TLChatGetMyChatList E)
  | TLChatExportChatInvite (m : Chat.TLChatExportChatInvite)
  | TLChatGetAdminsWithInvites (m : Chat.TLChatGetAdminsWithInvites)
  | TLChatGetExportedChatInvite (m : Chat.TLChatGetExportedChatInvite)
  | TLChatGetExportedChatInvites (m : Chat.TLChatGetExportedChatInvites)
  | TLChatCheckChatInvite (m : Chat.TLChatCheckChatInvite)
  | TLChatImportChatInvite (m : Chat.TLChatImportChatInvite)
  | TLChatGetChatInviteImporters (m : Chat.TLChatGetChatInviteImporters)
  | TLChatDeleteExportedChatInvite (m : Chat.TLChatDeleteExportedChatInvite)
  | TLChatDeleteRevokedExportedChatInvites (m : Chat.TLChatDeleteRevokedExportedChatInvites)
  | TLChatEditExportedChatInvite (m : Chat.TLChatEditExportedChatInvite E)
  | TLChatSetChatAvailableReactions (m : Chat.TLChatSetChatAvailableReactions)
  | TLChatSetHistoryTTL (m : Chat.TLChatSetHistoryTTL)
  | TLChatSearch (m : Chat.TLChatSearch)
  | TLChatGetRecentChatInviteRequesters (m : Chat.TLChatGetRecentChatInviteRequesters)
  | TLChatHideChatJoinRequests (m : Chat.TLChatHideChatJoinRequests)
  | TLChatImportChatInvite2 (m : Chat.TLChatImportChatInvite2)

/-- The field `Constructor` of the record behind a `TLObject` (for a variant view, of
its storage record `Data2`). -/
def TLObject.Constructor {E : Env} : TLObject E → ℤ
  | .TLChatInviteAlready m => m.Data2.Constructor
  | .TLChatInvite m => m.Data2.Constructor
  | .TLChatInvitePeek m => m.Data2.Constructor
  | .TLChatInviteImported m => m.Data2.Constructor
  | .TLRecentChatInviteRequesters m => m.Data2.Constructor
  | .TLUserChatIdList m => m.Data2.Constructor
  | .TLChatGetMutableChat m => m.Constructor
  | .TLChatGetChatListByIdList m => m.Constructor
  | .TLChatGetChatBySelfId m => m.Constructor
  | .TLChatCreateChat2 m => m.Constructor
  | .TLChatDeleteChat m => m.Constructor
  | .TLChatDeleteChatUser m => m.Constructor
  | .TLChatEditChatTitle m => m.Constructor
  | .TLChatEditChatAbout m => m.Constructor
  | .TLChatEditChatPhoto m => m.Constructor
  | .TLChatEditChatAdmin m => m.Constructor
  | .TLChatEditChatDefaultBannedRights m => m.Constructor
  | .TLChatAddChatUser m => m.Constructor
  | .TLChatGetMutableChatByLink m => m.Constructor
  | .TLChatToggleNoForwards m => m.Constructor
  | .TLChatMigratedToChannel m => m.Constructor
  | .TLChatGetChatParticipantIdList m => m.Constructor
  | .TLChatGetUsersChatIdList m => m.Constructor
  | .TLChatGetMyChatList m => m.Constructor
  | .TLChatExportChatInvite m => m.Constructor
  | .TLChatGetAdminsWithInvites m => m.Constructor
  | .TLChatGetExportedChatInvite m => m.Constructor
  | .TLChatGetExportedChatInvites m => m.Constructor
  | .TLChatCheckChatInvite m => m.Constructor
  | .TLChatImportChatInvite m => m.Constructor
  | .TLChatGetChatInviteImporters m => m.Constructor
  | .TLChatDeleteExportedChatInvite m => m.Constructor
  | .TLChatDeleteRevokedExportedChatInvites m => m.Constructor
  | .TLChatEditExportedChatInvite m => m.Constructor
  | .TLChatSetChatAvailableReactions m => m.Constructor
  | .TLChatSetHistoryTTL m => m.Constructor
  | .TLChatSearch m => m.Constructor
  | .TLChatGetRecentChatInviteRequesters m => m.Constructor
  | .TLChatHideChatJoinRequests m => m.Constructor
  | .TLChatImportChatInvite2 m => m.Constructor

/-- The field `PredicateName` of the storage record behind a variant view; a method
record has no such field. -/
def TLObject.PredicateName {E : Env} : TLObject E → Option String
  | .TLChatInviteAlready m => some m.Data2.PredicateName
  | .TLChatInvite m => some m.Data2.PredicateName
  | .TLChatInvitePeek m => some m.Data2.PredicateName
  | .TLChatInviteImported m => some m.Data2.PredicateName
  | .TLRecentChatInviteRequesters m => some m.Data2.PredicateName
  | .TLUserChatIdList m => some m.Data2.PredicateName
  | _ => none

/-- Whether the object is a method record (and not a variant view of a data record). -/
def TLObject.isMethod {E : Env} : TLObject E → Bool
  | .TLChatInviteAlready _ => false
  | .TLChatInvite _ => false
  | .TLChatInvitePeek _ => false
  | .TLChatInviteImported _ => false
  | .TLRecentChatInviteRequesters _ => false
  | .TLUserChatIdList _ => false
  | _ => true

/-- The object with every data field put back to the zero value of its type; only
`Constructor` and, for a variant view, `PredicateName` are kept. -/
def TLObject.clearFields {E : Env} : TLObject E → TLObject E
  | .TLChatInviteAlready m =>
    .TLChatInviteAlready
      { Data2 := { PredicateName := m.Data2.PredicateName, Constructor := m.Data2.Constructor } }
  | .TLChatInvite m =>
    .TLChatInvite
      { Data2 := { PredicateName := m.Data2.PredicateName, Constructor := m.Data2.Constructor } }
  | .TLChatInvitePeek m =>
    .TLChatInvitePeek
      { Data2 := { PredicateName := m.Data2.PredicateName, Constructor := m.Data2.Constructor } }
  | .TLChatInviteImported m =>
    .TLChatInviteImported
      { Data2 := { PredicateName := m.Data2.PredicateName, Constructor := m.Data2.Constructor } }
  | .TLRecentChatInviteRequesters m =>
    .TLRecentChatInviteRequesters
      { Data2 := { PredicateName := m.Data2.PredicateName, Constructor := m.Data2.Constructor } }
  | .TLUserChatIdList m =>
    .TLUserChatIdList
      { Data2 := { PredicateName := m.Data2.PredicateName, Constructor := m.Data2.Constructor } }
  | .TLChatGetMutableChat m => .TLChatGetMutableChat { Constructor := m.Constructor }
  | .TLChatGetChatListByIdList m => .TLChatGetChatListByIdList { Constructor := m.Constructor }
  | .TLChatGetChatBySelfId m => .TLChatGetChatBySelfId { Constructor := m.Constructor }
  | .TLChatCreateChat2 m => .TLChatCreateChat2 { Constructor := m.Constructor }
  | .TLChatDeleteChat m => .TLChatDeleteChat { Constructor := m.Constructor }
  | .TLChatDeleteChatUser m => .TLChatDeleteChatUser { Constructor := m.Constructor }
  | .TLChatEditChatTitle m => .TLChatEditChatTitle { Constructor := m.Constructor }
  | .TLChatEditChatAbout m => .TLChatEditChatAbout { Constructor := m.Constructor }
  | .TLChatEditChatPhoto m => .TLChatEditChatPhoto { Constructor := m.Constructor }
  | .TLChatEditChatAdmin m => .TLChatEditChatAdmin { Constructor := m.Constructor }
  | .TLChatEditChatDefaultBannedRights m => .TLChatEditChatDefaultBannedRights { Constructor := m.Constructor }
  | .TLChatAddChatUser m => .TLChatAddChatUser { Constructor := m.Constructor }
  | .TLChatGetMutableChatByLink m => .TLChatGetMutableChatByLink { Constructor := m.Constructor }
  | .TLChatToggleNoForwards m => .TLChatToggleNoForwards { Constructor := m.Constructor }
  | .TLChatMigratedToChannel m => .TLChatMigratedToChannel { Constructor := m.Constructor }
  | .TLChatGetChatParticipantIdList m => .TLChatGetChatParticipantIdList { Constructor := m.Constructor }
  | .TLChatGetUsersChatIdList m => .TLChatGetUsersChatIdList { Constructor := m.Constructor }
  | .TLChatGetMyChatList m => .TLChatGetMyChatList { Constructor := m.Constructor }
  | .TLChatExportChatInvite m => .TLChatExportChatInvite { Constructor := m.Constructor }
  | .TLChatGetAdminsWithInvites m => .TLChatGetAdminsWithInvites { Constructor := m.Constructor }
  | .TLChatGetExportedChatInvite m => .TLChatGetExportedChatInvite { Constructor := m.Constructor }
  | .TLChatGetExportedChatInvites m => .TLChatGetExportedChatInvites { Constructor := m.Constructor }
  | .TLChatCheckChatInvite m => .TLChatCheckChatInvite { Constructor := m.Constructor }
  | .TLChatImportChatInvite m => .TLChatImportChatInvite { Constructor := m.Constructor }
  | .TLChatGetChatInviteImporters m => .TLChatGetChatInviteImporters { Constructor := m.Constructor }
  | .TLChatDeleteExportedChatInvite m => .TLChatDeleteExportedChatInvite { Constructor := m.Constructor }
  | .TLChatDeleteRevokedExportedChatInvites m => .TLChatDeleteRevokedExportedChatInvites { Constructor := m.Constructor }
  | .TLChatEditExportedChatInvite m => .TLChatEditExportedChatInvite { Constructor := m.Constructor }
  | .TLChatSetChatAvailableReactions m => .TLChatSetChatAvailableReactions { Constructor := m.Constructor }
  | .TLChatSetHistoryTTL m => .TLChatSetHistoryTTL { Constructor := m.Constructor }
  | .TLChatSearch m => .TLChatSearch { Constructor := m.Constructor }
  | .TLChatGetRecentChatInviteRequesters m => .TLChatGetRecentChatInviteRequesters { Constructor := m.Constructor }
  | .TLChatHideChatJoinRequests m => .TLChatHideChatJoinRequests { Constructor := m.Constructor }
  | .TLChatImportChatInvite2 m => .TLChatImportChatInvite2 { Constructor := m.Constructor }

/-- The method `Encode` of the interface: the `Encode` of the record pointed to. -/
def TLObject.Encode (E : Env) (o : TLObject E) (layer : ℤ) : List Byte :=
  match o with
  | .TLChatInviteAlready m => m.Encode E layer
  | .TLChatInvite m => m.Encode E layer
  | .TLChatInvitePeek m => m.Encode E layer
  | .TLChatInviteImported m => m.Encode E layer
  | .TLRecentChatInviteRequesters m => m.Encode E layer
  | .TLUserChatIdList m => m.Encode E layer
  | .TLChatGetMutableChat m => m.Encode layer
  | .TLChatGetChatListByIdList m => m.Encode E layer
  | .TLChatGetChatBySelfId m => m.Encode layer
  | .TLChatCreateChat2 m => m.Encode E layer
  | .TLChatDeleteChat m => m.Encode layer
  | .TLChatDeleteChatUser m => m.Encode layer
  | .TLChatEditChatTitle m => m.Encode E layer
  | .TLChatEditChatAbout m => m.Encode E layer
  | .TLChatEditChatPhoto m => m.Encode E layer
  | .TLChatEditChatAdmin m => m.Encode E layer
  | .TLChatEditChatDefaultBannedRights m => m.Encode E layer
  | .TLChatAddChatUser m => m.Encode layer
  | .TLChatGetMutableChatByLink m => m.Encode E layer
  | .TLChatToggleNoForwards m => m.Encode E layer
  | .TLChatMigratedToChannel m => m.Encode E layer
  | .TLChatGetChatParticipantIdList m => m.Encode layer
  | .TLChatGetUsersChatIdList m => m.Encode E layer
  | .TLChatGetMyChatList m => m.Encode E layer
  | .TLChatExportChatInvite m => m.Encode E layer
  | .TLChatGetAdminsWithInvites m => m.Encode layer
  | .TLChatGetExportedChatInvite m => m.Encode E layer
  | .TLChatGetExportedChatInvites m => m.Encode E layer
  | .TLChatCheckChatInvite m => m.Encode E layer
  | .TLChatImportChatInvite m => m.Encode E layer
  | .TLChatGetChatInviteImporters m => m.Encode E layer
  | .TLChatDeleteExportedChatInvite m => m.Encode E layer
  | .TLChatDeleteRevokedExportedChatInvites m => m.Encode layer
  | .TLChatEditExportedChatInvite m => m.Encode E layer
  | .TLChatSetChatAvailableReactions m => m.Encode E layer
  | .TLChatSetHistoryTTL m => m.Encode layer
  | .TLChatSearch m => m.Encode E layer
  | .TLChatGetRecentChatInviteRequesters m => m.Encode layer
  | .TLChatHideChatJoinRequests m => m.Encode E layer
  | .TLChatImportChatInvite2 m => m.Encode E layer

/-- The map literal `clazzIdRegisters2`: each key with its factory, in the order of the
source.  The comment after a key is the hexadecimal tag the source gives for it. -/
def clazzIdRegisters2 (E : Env) : List (ℤ × (Unit → TLObject E)) :=
  [ (-1542554274, fun _ => -- 0xa40e7d5e
      let o : Chat.TLChatInviteAlready E := MakeTLChatInviteAlready none
      .TLChatInviteAlready { Data2 := { o.Data2 with Constructor := -1542554274 } }),
    (-613035609, fun _ => -- 0xdb75d1a7
      let o : Chat.TLChatInvite E := MakeTLChatInvite none
      .TLChatInvite { Data2 := { o.Data2 with Constructor := -613035609 } }),
    (-1394351506, fun _ => -- 0xace3e26e
      let o : Chat.TLChatInvitePeek E := MakeTLChatInvitePeek none
      .TLChatInvitePeek { Data2 := { o.Data2 with Constructor := -1394351506 } }),
    (1913672182, fun _ => -- 0x721051f6
      let o : Chat.TLChatInviteImported E := MakeTLChatInviteImported none
      .TLChatInviteImported { Data2 := { o.Data2 with Constructor := 1913672182 } }),
    (476986452, fun _ => -- 0x1c6e3c54
      let o : Chat.TLRecentChatInviteRequesters := MakeTLRecentChatInviteRequesters none
      .TLRecentChatInviteRequesters { Data2 := { o.Data2 with Constructor := 476986452 } }),
    (1342599716, fun _ => -- 0x50067224
      let o : Chat.TLUserChatIdList := MakeTLUserChatIdList none
      .TLUserChatIdList { Data2 := { o.Data2 with Constructor := 1342599716 } }),
    (741090770, fun _ => -- 0x2c2c25d2
      .TLChatGetMutableChat { Constructor := 741090770 }),
    (-415173319, fun _ => -- 0xe740f539
      .TLChatGetChatListByIdList { Constructor := -415173319 }),
    (1236736584, fun _ => -- 0x49b71a48
      .TLChatGetChatBySelfId { Constructor := 1236736584 }),
    (-465608273, fun _ => -- 0xe43f61af
      .TLChatCreateChat2 { Constructor := -465608273 }),
    (1829891102, fun _ => -- 0x6d11ec1e
      .TLChatDeleteChat { Constructor := 1829891102 }),
    (187109333, fun _ => -- 0xb270fd5
      .TLChatDeleteChatUser { Constructor := 187109333 }),
    (-1782210905, fun _ => -- 0x95c59ea7
      .TLChatEditChatTitle { Constructor := -1782210905 }),
    (1551072376, fun _ => -- 0x5c737c78
      .TLChatEditChatAbout { Constructor := 1551072376 }),
    (1170384488, fun _ => -- 0x45c2a668
      .TLChatEditChatPhoto { Constructor := 1170384488 }),
    (419816940, fun _ => -- 0x1905e5ec
      .TLChatEditChatAdmin { Constructor := 419816940 }),
    (1513399943, fun _ => -- 0x5a34a687
      .TLChatEditChatDefaultBannedRights { Constructor := 1513399943 }),
    (2086511757, fun _ => -- 0x7c5da48d
      .TLChatAddChatUser { Constructor := 2086511757 }),
    (-1570363509, fun _ => -- 0xa266278b
      .TLChatGetMutableChatByLink { Constructor := -1570363509 }),
    (-711644423, fun _ => -- 0xd5952af9
      .TLChatToggleNoForwards { Constructor := -711644423 }),
    (138390239, fun _ => -- 0x83faadf
      .TLChatMigratedToChannel { Constructor := 138390239 }),
    (848700073, fun _ => -- 0x329622a9
      .TLChatGetChatParticipantIdList { Constructor := 848700073 }),
    (792111948, fun _ => -- 0x2f36ab4c
      .TLChatGetUsersChatIdList { Constructor := 792111948 }),
    (-210408312, fun _ => -- 0xf3756c88
      .TLChatGetMyChatList { Constructor := -210408312 }),
    (-976256949, fun _ => -- 0xc5cf804b
      .TLChatExportChatInvite { Constructor := -976256949 }),
    (-756399662, fun _ => -- 0xd2ea41d2
      .TLChatGetAdminsWithInvites { Constructor := -756399662 }),
    (-571854256, fun _ => -- 0xddea3250
      .TLChatGetExportedChatInvite { Constructor := -571854256 }),
    (-1265690378, fun _ => -- 0xb48f18f6
      .TLChatGetExportedChatInvites { Constructor := -1265690378 }),
    (1938289292, fun _ => -- 0x7387f28c
      .TLChatCheckChatInvite { Constructor := 1938289292 }),
    (1491493076, fun _ => -- 0x58e660d4
      .TLChatImportChatInvite { Constructor := 1491493076 }),
    (-1740221057, fun _ => -- 0x9846557f
      .TLChatGetChatInviteImporters { Constructor := -1740221057 }),
    (1445103800, fun _ => -- 0x562288b8
      .TLChatDeleteExportedChatInvite { Constructor := 1445103800 }),
    (-804101527, fun _ => -- 0xd0126269
      .TLChatDeleteRevokedExportedChatInvites { Constructor := -804101527 }),
    (-1348907914, fun _ => -- 0xaf994c76
      .TLChatEditExportedChatInvite { Constructor := -1348907914 }),
    (-992966286, fun _ => -- 0xc4d08972
      .TLChatSetChatAvailableReactions { Constructor := -992966286 }),
    (1023107972, fun _ => -- 0x3cfb6384
      .TLChatSetHistoryTTL { Constructor := 1023107972 }),
    (568333563, fun _ => -- 0x21e014fb
      .TLChatSearch { Constructor := 568333563 }),
    (-19132264, fun _ => -- 0xfedc1098
      .TLChatGetRecentChatInviteRequesters { Constructor := -19132264 }),
    (1051012305, fun _ => -- 0x3ea52cd1
      .TLChatHideChatJoinRequests { Constructor := 1051012305 }),
    (-589742657, fun _ => -- 0xdcd93dbf
      .TLChatImportChatInvite2 { Constructor := -589742657 }) ]

def NewTLObjectByClassID (E : Env) (classId : ℤ) : Option (TLObject E) :=
  match (clazzIdRegisters2 E).lookup classId with
  | none => none
  | some f => some (f ())

def CheckClassID (E : Env) (classId : ℤ) : Bool :=
  ((clazzIdRegisters2 E).lookup classId).isSome

/-- The forty tags of `clazzIdRegisters2` as the comments of the source give them, in
hexadecimal and in the order of the map literal: six data constructors, then thirty-four
methods. -/
def registeredTags : List Nat :=
  [0xa40e7d5e, 0xdb75d1a7, 0xace3e26e, 0x721051f6, 0x1c6e3c54, 0x50067224, 0x2c2c25d2, 0xe740f539,
    0x49b71a48, 0xe43f61af, 0x6d11ec1e, 0xb270fd5, 0x95c59ea7, 0x5c737c78, 0x45c2a668, 0x1905e5ec,
    0x5a34a687, 0x7c5da48d, 0xa266278b, 0xd5952af9, 0x83faadf, 0x329622a9, 0x2f36ab4c, 0xf3756c88,
    0xc5cf804b, 0xd2ea41d2, 0xddea3250, 0xb48f18f6, 0x7387f28c, 0x58e660d4, 0x9846557f,
    0x562288b8, 0xd0126269, 0xaf994c76, 0xc4d08972, 0x3cfb6384, 0x21e014fb, 0xfedc1098,
    0x3ea52cd1, 0xdcd93dbf]

/-- The one tag the `Encode` of the record behind a `TLObject` recognises: the `case` of
its `switch`, or, for a variant view, the key of its `encodeF` map. -/
def TLObject.recognisedTag {E : Env} : TLObject E → Nat
  | .TLChatInviteAlready _ => 0xa40e7d5e
  | .TLChatInvite _ => 0xdb75d1a7
  | .TLChatInvitePeek _ => 0xace3e26e
  | .TLChatInviteImported _ => 0x721051f6
  | .TLRecentChatInviteRequesters _ => 0x1c6e3c54
  | .TLUserChatIdList _ => 0x50067224
  | .TLChatGetMutableChat _ => 0x2c2c25d2
  | .TLChatGetChatListByIdList _ => 0xe740f539
  | .TLChatGetChatBySelfId _ => 0x49b71a48
  | .TLChatCreateChat2 _ => 0xe43f61af
  | .TLChatDeleteChat _ => 0x6d11ec1e
  | .TLChatDeleteChatUser _ => 0xb270fd5
  | .TLChatEditChatTitle _ => 0x95c59ea7
  | .TLChatEditChatAbout _ => 0x5c737c78
  | .TLChatEditChatPhoto _ => 0x45c2a668
  | .TLChatEditChatAdmin _ => 0x1905e5ec
  | .TLChatEditChatDefaultBannedRights _ => 0x5a34a687
  | .TLChatAddChatUser _ => 0x7c5da48d
  | .TLChatGetMutableChatByLink _ => 0xa266278b
  | .TLChatToggleNoForwards _ => 0xd5952af9
  | .TLChatMigratedToChannel _ => 0x83faadf
  | .TLChatGetChatParticipantIdList _ => 0x329622a9
  | .TLChatGetUsersChatIdList _ => 0x2f36ab4c
  | .TLChatGetMyChatList _ => 0xf3756c88
  | .TLChatExportChatInvite _ => 0xc5cf804b
  | .TLChatGetAdminsWithInvites _ => 0xd2ea41d2
  | .TLChatGetExportedChatInvite _ => 0xddea3250
  | .TLChatGetExportedChatInvites _ => 0xb48f18f6
  | .TLChatCheckChatInvite _ => 0x7387f28c
  | .TLChatImportChatInvite _ => 0x58e660d4
  | .TLChatGetChatInviteImporters _ => 0x9846557f
  | .TLChatDeleteExportedChatInvite _ => 0x562288b8
  | .TLChatDeleteRevokedExportedChatInvites _ => 0xd0126269
  | .TLChatEditExportedChatInvite _ => 0xaf994c76
  | .TLChatSetChatAvailableReactions _ => 0xc4d08972
  | .TLChatSetHistoryTTL _ => 0x3cfb6384
  | .TLChatSearch _ => 0x21e014fb
  | .TLChatGetRecentChatInviteRequesters _ => 0xfedc1098
  | .TLChatHideChatJoinRequests _ => 0x3ea52cd1
  | .TLChatImportChatInvite2 _ => 0xdcd93dbf

/-! ## View operations on one storage record

A view holds a pointer to its storage record, so every operation below acts on the
one record the views share; the record after the call is the `Data2` of the view the
call returns, or the record `To_ChatInviteExt` returns. -/

/-- The operations of the source that project a `ChatInviteExt` storage record to a view
or a view back to its storage record, named by the Go functions; the three
`To_ChatInviteExt` methods carry the name of their receiver type. -/
inductive ViewOp where
  | To_ChatInviteAlready
  | To_ChatInvite
  | To_ChatInvitePeek
  | MakeTLChatInviteAlready
  | MakeTLChatInvite
  | MakeTLChatInvitePeek
  | TLChatInviteAlready_To_ChatInviteExt
  | TLChatInvite_To_ChatInviteExt
  | TLChatInvitePeek_To_ChatInviteExt
  deriving DecidableEq, Repr

/-- The storage record after one view operation on it. -/
def ViewOp.apply {E : Env} (op : ViewOp) (m : ChatInviteExt E) : ChatInviteExt E :=
  match op with
  | .To_ChatInviteAlready => m.To_ChatInviteAlready.Data2
  | .To_ChatInvite => m.To_ChatInvite.Data2
  | .To_ChatInvitePeek => m.To_ChatInvitePeek.Data2
  | .MakeTLChatInviteAlready => (Chat.MakeTLChatInviteAlready (some m)).Data2
  | .MakeTLChatInvite => (Chat.MakeTLChatInvite (some m)).Data2
  | .MakeTLChatInvitePeek => (Chat.MakeTLChatInvitePeek (some m)).Data2
  | .TLChatInviteAlready_To_ChatInviteExt => TLChatInviteAlready.To_ChatInviteExt { Data2 := m }
  | .TLChatInvite_To_ChatInviteExt => TLChatInvite.To_ChatInviteExt { Data2 := m }
  | .TLChatInvitePeek_To_ChatInviteExt => TLChatInvitePeek.To_ChatInviteExt { Data2 := m }

/-- The variant whose view an operation projects to or from. -/
def ViewOp.predicate : ViewOp → String
  | .To_ChatInviteAlready => Predicate_chatInviteAlready
  | .To_ChatInvite => Predicate_chatInvite
  | .To_ChatInvitePeek => Predicate_chatInvitePeek
  | .MakeTLChatInviteAlready => Predicate_chatInviteAlready
  | .MakeTLChatInvite => Predicate_chatInvite
  | .MakeTLChatInvitePeek => Predicate_chatInvitePeek
  | .TLChatInviteAlready_To_ChatInviteExt => Predicate_chatInviteAlready
  | .TLChatInvite_To_ChatInviteExt => Predicate_chatInvite
  | .TLChatInvitePeek_To_ChatInviteExt => Predicate_chatInvitePeek

/-- The storage record after a sequence of view operations, applied from left to right. -/
def applyViewOps {E : Env} (ops : List ViewOp) (m : ChatInviteExt E) : ChatInviteExt E :=
  ops.foldl (fun m op => op.apply m) m

/-- The variant a tag of `ChatInviteExt` identifies: the predicate name of the view the
registry creates for that tag; none for any other tag. -/
def variantOfTag (E : Env) (constructor : ℤ) : Option String :=
  match NewTLObjectByClassID E constructor with
  | some (.TLChatInviteAlready m) => some m.Data2.PredicateName
  | some (.TLChatInvite m) => some m.Data2.PredicateName
  | some (.TLChatInvitePeek m) => some m.Data2.PredicateName
  | _ => none

/-- Tag and predicate name of a storage record identify the same variant, whenever both
are set (the tag is not 0 and the name is not empty). -/
def ChatInviteExt.Consistent {E : Env} (m : ChatInviteExt E) : Prop :=
  m.Constructor ≠ 0 → m.PredicateName ≠ "" → variantOfTag E m.Constructor = some m.PredicateName

/-- The storage record of the variant view the registry creates for a tag, when the tag
is one of the three of `ChatInviteExt`. -/
def registryChatInviteExt (E : Env) (classId : ℤ) : Option (ChatInviteExt E) :=
  match NewTLObjectByClassID E classId with
  | some (.TLChatInviteAlready m) => some m.Data2
  | some (.TLChatInvite m) => some m.Data2
  | some (.TLChatInvitePeek m) => some m.Data2
  | _ => none

/-! ## The dispatch of `ChatInviteExt.Encode`, as the specification words it -/

/-- The encoding of the variant view of `m` that a predicate name names; no bytes when
the name names none of the three variants. -/
def encodeNamedView (E : Env) (name : String) (m : ChatInviteExt E) (layer : ℤ) : List Byte :=
  if name = Predicate_chatInviteAlready then
    TLChatInviteAlready.Encode E { Data2 := m } layer
  else if name = Predicate_chatInvite then
    TLChatInvite.Encode E { Data2 := m } layer
  else if name = Predicate_chatInvitePeek then
    TLChatInvitePeek.Encode E { Data2 := m } layer
  else []

/-- The specification of polymorphic encode: "determine predicate identity (explicit
name if set, else resolved via tag→name lookup); select the matching variant view,
delegate encoding to that view". -/
def ChatInviteExt.EncodeSpec (E : Env) (m : ChatInviteExt E) (layer : ℤ) : List Byte :=
  if m.PredicateName ≠ "" then
    encodeNamedView E m.PredicateName m layer
  else
    match E.clazzIdNameRegisters2 m.Constructor with
    | some name => encodeNamedView E name m layer
    | none => []

/-! ## Assumptions on the environment

The properties of the external primitives that the round-trip theorems assume,
each at the value that is actually written. -/

/-- The `String` primitives are inverse at `s`: reading what was written for `s`
returns `s` and leaves the cursor, without fault, just after those bytes. -/
def Env.StringInverse (E : Env) (s : String) : Prop :=
  ∀ r : List Byte, E.getString ⟨E.putString s ++ r, none⟩ = (s, ⟨r, none⟩)

/-- The `VectorLong` primitives are inverse at `v`: reading what was written for
`v` returns a non-nil slice with the elements of `v` and leaves the cursor,
without fault, just after those bytes. -/
def Env.VectorLongInverse (E : Env) (v : Option (List ℤ)) : Prop :=
  ∀ r : List Byte, E.getVectorLong ⟨E.putVectorLong v ++ r, none⟩ = (some (elems v), ⟨r, none⟩)

/-- The `Photo` decoder consumes, without fault, exactly the bytes the `Photo`
encoder produced for `p`. -/
def Env.PhotoFramed (E : Env) (p : Option E.Photo) (layer : ℤ) : Prop :=
  ∀ r : List Byte, (E.decodePhoto ⟨E.encodePhoto p layer ++ r, none⟩).2 = ⟨r, none⟩

/-- The `MutableChat` decoder consumes, without fault, exactly the bytes the
`MutableChat` encoder produced for `c`. -/
def Env.MutableChatFramed (E : Env) (c : Option E.MutableChat) (layer : ℤ) : Prop :=
  ∀ r : List Byte, (E.decodeMutableChat ⟨E.encodeMutableChat c layer ++ r, none⟩).2 = ⟨r, none⟩

/-- Bytes 4 to 7 of an encoding, read as a little-endian word: the flags word of
a record that has one. -/
def wireFlags (b : List Byte) : Nat := leVal ((b.drop 4).take 4)

/-! ## A concrete environment

An instance of `Env` on which the definitions can be evaluated. -/

/-- The UTF-8 bytes of a string. -/
def utf8Bytes (s : String) : List Byte :=
  (s.data.flatMap String.utf8EncodeChar).map (fun b => byte b.toNat)

/-- The characters a UTF-8 byte string denotes (`fuel` bounds the number of characters). -/
def utf8Chars : Nat → List Byte → List Char
  | 0, _ => []
  | _, [] => []
  | fuel + 1, b0 :: r =>
    if b0.val < 0x80 then Char.ofNat b0.val :: utf8Chars fuel r
    else if b0.val < 0xe0 then
      match r with
      | b1 :: r => Char.ofNat (b0.val % 0x20 * 0x40 + b1.val % 0x40) :: utf8Chars fuel r
      | _ => []
    else if b0.val < 0xf0 then
      match r with
      | b1 :: b2 :: r =>
        Char.ofNat (b0.val % 0x10 * 0x1000 + b1.val % 0x40 * 0x40 + b2.val % 0x40) :: utf8Chars fuel r
      | _ => []
    else
      match r with
      | b1 :: b2 :: b3 :: r =>
        Char.ofNat (b0.val % 0x08 * 0x40000 + b1.val % 0x40 * 0x1000 + b2.val % 0x40 * 0x40
          + b3.val % 0x40) :: utf8Chars fuel r
      | _ => []

/-- The number of zero bytes that pad `n` bytes to a multiple of four. -/
def padding (n : Nat) : Nat := (4 - n % 4) % 4

/-- Modelled from the spec: `x.String(s)`, "length-prefixed string (4-byte length +
UTF-8 bytes, 0-padded to 4-byte alignment)". -/
def specPutString (s : String) : List Byte :=
  leBytes 4 ((utf8Bytes s).length % 4294967296) ++ utf8Bytes s
    ++ List.replicate (padding (utf8Bytes s).length) 0

/-- Modelled from the spec: `dBuf.String()`, the reader of `specPutString`; an
underrun sets the sticky fault and returns the empty string. -/
def specGetString (d : DecodeBuf) : String × DecodeBuf :=
  let (n, d) := d.UInt
  match d.err with
  | some _ => ("", d)
  | none =>
    if d.buf.length < n + padding n then
      ("", { d with err := some (Error.cursorFault "DecodeString") })
    else
      (String.mk (utf8Chars n (d.buf.take n)), { d with buf := d.buf.drop (n + padding n) })

/-- The eight-byte encodings of a list of `int64` values, one after the other. -/
def putLongs : List ℤ → List Byte
  | [] => []
  | v :: vs => leBytes 8 (toU64 v) ++ putLongs vs

/-- Modelled from the spec: `x.VectorLong(v)`, "4-byte count + raw elements, no
per-element marker and ... no leading marker before the count either". -/
def specPutVectorLong (v : Option (List ℤ)) : List Byte :=
  leBytes 4 ((elems v).length % 4294967296) ++ putLongs (elems v)

/-- Modelled from the spec: `x.VectorString(v)`, a vector of strings: "4-byte count + raw
elements", each element a length-prefixed string. -/
def specPutVectorString (v : Option (List String)) : List Byte :=
  leBytes 4 ((elems v).length % 4294967296) ++ (elems v).flatMap specPutString

/-- Reads `n` values with `dBuf.Long()`. -/
def getLongs : Nat → DecodeBuf → List ℤ × DecodeBuf
  | 0, d => ([], d)
  | n + 1, d =>
    let (y, d) := d.Long
    let (ys, d) := getLongs n d
    (y :: ys, d)

/-- Modelled from the spec: `dBuf.VectorLong()`, the reader of `specPutVectorLong`;
a negative count or an underrun sets the sticky fault and returns the nil slice,
and "count 0 produces an empty but non-null sequence". -/
def specGetVectorLong (d : DecodeBuf) : Option (List ℤ) × DecodeBuf :=
  let (size, d) := d.Int
  match d.err with
  | some _ => (none, d)
  | none =>
    if size < 0 then
      (none, { d with err := some (Error.cursorFault "DecodeVectorLong") })
    else
      let (ys, d) := getLongs size.toNat d
      match d.err with
      | some _ => (none, d)
      | none => (some ys, d)

/-- Modelled from the spec: a nested record of package `mtproto`, whose field list
is outside the repository, reduced to a tagged record with one `int64` field
("its own complete encoding (tag + body)"). -/
structure Nested where
  Constructor : ℤ := 0
  Id : ℤ := 0
  deriving DecidableEq, Repr

/-- The encoder of a nested record behind a pointer: tag and id; no bytes for nil. -/
def Nested.Encode (tag : Nat) (p : Option Nested) (_layer : ℤ) : List Byte :=
  match p with
  | none => []
  | some p => leBytes 4 (tag % 4294967296) ++ leBytes 8 (toU64 p.Id)

/-- The decoder of a nested record into a fresh instance: tag, then id. -/
def Nested.Decode (d : DecodeBuf) : Nested × DecodeBuf :=
  let (c, d) := d.Int
  let (id, d) := d.Long
  ({ Constructor := c, Id := id }, d)

/-- Modelled from the spec: the lookup `GetClazzID` of the schema tables, which
give every data constructor of this file one tag at every layer. -/
def specGetClazzID (clazzName : String) (_layer : ℤ) : ℤ :=
  if clazzName = Predicate_chatInviteAlready then -1542554274
  else if clazzName = Predicate_chatInvite then -613035609
  else if clazzName = Predicate_chatInvitePeek then -1394351506
  else if clazzName = Predicate_chatInviteImported then 1913672182
  else if clazzName = Predicate_recentChatInviteRequesters then 476986452
  else if clazzName = Predicate_userChatIdList then 1342599716
  else 0

/-- Modelled from the spec: the map `clazzIdNameRegisters2`, the inverse of the
tag assignment on the six data constructors. -/
def specClazzIdNameRegisters2 (c : ℤ) : Option String :=
  if c = -1542554274 then some Predicate_chatInviteAlready
  else if c = -613035609 then some Predicate_chatInvite
  else if c = -1394351506 then some Predicate_chatInvitePeek
  else if c = 1913672182 then some Predicate_chatInviteImported
  else if c = 476986452 then some Predicate_recentChatInviteRequesters
  else if c = 1342599716 then some Predicate_userChatIdList
  else none

/-- Modelled from the spec: an environment built from the wire format of the
spec's external-interfaces section. -/
def specEnv : Env where
  putString := specPutString
  getString := specGetString
  putVectorLong := specPutVectorLong
  getVectorLong := specGetVectorLong
  Photo := Nested
  encodePhoto := Nested.Encode 0x2331b22d
  decodePhoto := Nested.Decode
  MutableChat := Nested
  encodeMutableChat := Nested.Encode 0xfd2bb8a
  decodeMutableChat := Nested.Decode
  GetClazzID := specGetClazzID
  clazzIdNameRegisters2 := specClazzIdNameRegisters2
  CRC32_vector := 481674261
  putVectorString := specPutVectorString
  MtprotoBool := Nested
  encodeBool := Nested.Encode 0x997275b5
  ChatBannedRights := Nested
  encodeChatBannedRights := Nested.Encode 0x9f120418

/-- An environment whose schema table knows no predicate at any layer: `GetClazzID`
returns 0, the value of a failed lookup. -/
def bareEnv : Env := { specEnv with GetClazzID := fun _ _ => 0 }

/-! ## Concrete records

The inputs at which the theorems below are instantiated. -/

/-- A `userChatIdList` record with a negative user id and two chat ids. -/
def exampleUserChatIdList : UserChatIdList :=
  { PredicateName := Predicate_userChatIdList, UserId := -5, ChatIdList := some [7, 42] }

/-- A `chatInvite` view titled "Team" with an about-text, a photo and a
present-but-empty participant list. -/
def exampleChatInvite : TLChatInvite specEnv :=
  { Data2 :=
      { PredicateName := Predicate_chatInvite, RequestNeeded := true, Title := "Team",
        About := some "chat", Photo := some { Constructor := 590459437, Id := 9 },
        ParticipantsCount := 3, Participants := some [] } }

/-- The `chatInvite` view of the spec's first example scenario: title "Team", no
about-text, no participant list, `RequestNeeded` false. -/
def exampleTeamInvite : TLChatInvite specEnv :=
  { Data2 :=
      { PredicateName := Predicate_chatInvite, Title := "Team",
        Photo := some { Constructor := 590459437, Id := 9 }, ParticipantsCount := 3 } }

/-- A `chat.getExportedChatInvites` record with both offset fields present. -/
def exampleGetExportedChatInvites : TLChatGetExportedChatInvites :=
  { Constructor := -1265690378, ChatId := 11, AdminId := 12, Revoked := true,
    OffsetDate := some 1700000000, OffsetLink := some "Team", Limit := 50 }

/-- A `chat.getExportedChatInvites` record with only `OffsetDate` present. -/
def exampleOffsetDateOnly : TLChatGetExportedChatInvites :=
  { Constructor := -1265690378, OffsetDate := some 1 }

/-- A `chat.exportChatInvite` record with two of the three optional fields present. -/
def exampleExportChatInvite : TLChatExportChatInvite :=
  { Constructor := -976256949, ChatId := 11, AdminId := -12, LegacyRevokePermanent := true,
    ExpireDate := some 1700000000, Title := some "Team" }

/-- A `chatInviteImported` view with a chat and a requesters record. -/
def exampleChatInviteImported : TLChatInviteImported specEnv :=
  { Data2 :=
      { PredicateName := Predicate_chatInviteImported,
        Chat := some { Constructor := 265468810, Id := 77 },
        Requesters := some
          { PredicateName := Predicate_recentChatInviteRequesters, RequestsPending := 3,
            RecentRequesters := some [10, 11] } } }

/-- A vector of two `userChatIdList` records. -/
def exampleVectorUserChatIdList : Vector_UserChatIdList :=
  { Datas := some [exampleUserChatIdList,
      { PredicateName := Predicate_userChatIdList, UserId := 9, ChatIdList := none }] }

/-- A `recentChatInviteRequesters` record with three pending requests. -/
def exampleRequesters : RecentChatInviteRequesters :=
  { PredicateName := Predicate_recentChatInviteRequesters, RequestsPending := 3 }

/-- A vector buffer whose single element is an encoded `recentChatInviteRequesters`
record: vector marker, count 1, then an element that begins with tag `0x1c6e3c54`. -/
def exampleForeignElementVector : List Byte :=
  leBytes 4 481674261 ++ leBytes 4 1 ++ (exampleRequesters.Encode specEnv 158).1

/-- A vector buffer whose count is -1: vector marker, then `ff ff ff ff`. -/
def exampleNegativeCountVector : List Byte :=
  leBytes 4 481674261 ++ [0xff, 0xff, 0xff, 0xff]

/-- A `ChatInviteExt` storage record with no predicate name whose tag names a record
of another supertype (`userChatIdList`). -/
def exampleUnresolvedInvite : ChatInviteExt specEnv :=
  { Constructor := 1342599716, Title := "Team" }

/-- The storage record of the view the registry creates for the tag `0xdb75d1a7`. -/
def exampleRegistryInvite : ChatInviteExt specEnv :=
  { PredicateName := Predicate_chatInvite, Constructor := -613035609 }

/-- The object the registry creates for the tag `0x50067224`. -/
def exampleRegistryUserChatIdList : TLObject specEnv :=
  .TLUserChatIdList { Data2 := { PredicateName := Predicate_userChatIdList, Constructor := 1342599716 } }

/-- The object the registry creates for the tag `0xe43f61af`. -/
def exampleRegistryCreateChat2 : TLObject specEnv :=
  .TLChatCreateChat2 { Constructor := -465608273 }

/-- A registry-created `chat.createChat2` record after its fields were assigned. -/
def exampleCreateChat2 : TLObject specEnv :=
  .TLChatCreateChat2
    { Constructor := -465608273, CreatorId := 5, UserIdList := some [7, 42], Title := "Team" }

/-- A `chat.hideChatJoinRequests` target whose three flag-gated fields are already set. -/
def exampleHideChatJoinRequests : TLChatHideChatJoinRequests :=
  { Constructor := 1051012305, Approved := true, Link := some "Team", UserId := some 7 }

/-- A buffer for `TLChatHideChatJoinRequests.Decode`: a zero flags word, `SelfId` 1 and
`ChatId` 2. -/
def exampleHideBody : List Byte :=
  leBytes 4 0 ++ leBytes 8 1 ++ leBytes 8 2

/-! ## The tags the decoders recognise -/

/-- The four polymorphic supertypes of the file. -/
inductive Supertype where
  | ChatInviteExt
  | ChatInviteImported
  | RecentChatInviteRequesters
  | UserChatIdList
  deriving DecidableEq, Repr

/-- The supertype whose storage record a variant view points to, that is the type of
the field `Data2` of the view; `none` for a method record. -/
def TLObject.supertype {E : Env} : TLObject E → Option Supertype
  | .TLChatInviteAlready _ => some Supertype.ChatInviteExt
  | .TLChatInvite _ => some Supertype.ChatInviteExt
  | .TLChatInvitePeek _ => some Supertype.ChatInviteExt
  | .TLChatInviteImported _ => some Supertype.ChatInviteImported
  | .TLRecentChatInviteRequesters _ => some Supertype.RecentChatInviteRequesters
  | .TLUserChatIdList _ => some Supertype.UserChatIdList
  | _ => none

/-- A polymorphic decoder recognises `t` as a leading tag: for every target and every
cursor whose first read gives `t`, the call returns `dBuf.GetError()`, which is what the
`case` branches of the `switch` return, and not the error of the `default` branch. -/
def Recognises {α : Type} (decode : α → DecodeBuf → Option Error × α × DecodeBuf) (t : ℤ) :
    Prop :=
  ∀ (m : α) (d d1 : DecodeBuf), d.Int = (t, d1) → (decode m d).1 = (decode m d).2.2.GetError

/-- The `Decode` of the variant view behind a `TLObject` accepts the constructor stored
in the view: on every cursor the call returns `dBuf.GetError()`, which is what the
decoding function found under the key `uint32(m.Data2.Constructor)` returns, and not the
error returned when the map has no such key.  Nothing is asked of a method record. -/
def TLObject.DecodeAccepts (E : Env) : TLObject E → Prop
  | .TLChatInviteAlready m => ∀ d, (m.Decode E d).1 = (m.Decode E d).2.2.GetError
  | .TLChatInvite m => ∀ d, (m.Decode E d).1 = (m.Decode E d).2.2.GetError
  | .TLChatInvitePeek m => ∀ d, (m.Decode E d).1 = (m.Decode E d).2.2.GetError
  | .TLChatInviteImported m => ∀ d, (m.Decode E d).1 = (m.Decode E d).2.2.GetError
  | .TLRecentChatInviteRequesters m => ∀ d, (m.Decode E d).1 = (m.Decode E d).2.2.GetError
  | .TLUserChatIdList m => ∀ d, (m.Decode E d).1 = (m.Decode E d).2.2.GetError
  | _ => True

/-- A zero-valued `chat.createChat2` record behind the interface: its `Constructor` is 0. -/
def exampleZeroCreateChat2 : TLObject specEnv := .TLChatCreateChat2 {}

/-- A `chat.getExportedChatInvites` record with both offset fields absent. -/
def exampleListingNoOffsets : TLChatGetExportedChatInvites :=
  { Constructor := -1265690378, ChatId := 11, AdminId := -12, Limit := 50 }

/-- A `ChatInviteExt` record without a name whose tag is that of `chatInvitePeek`. -/
def exampleUnnamedPeek : ChatInviteExt specEnv :=
  { Constructor := -1394351506, Expires := 1700000000 }

/-! ## Views as pointers into a heap

In the source a view is a struct whose one field `Data2` is a pointer to a storage
record.  Here the storage records live in a heap, a view holds the address of its
record, and a method that writes through the pointer returns the heap after the call. -/

/-- The address of a storage record: a non-nil `*ChatInviteExt`. -/
abbrev Ptr := Nat

/-- The heap: the `ChatInviteExt` record each address holds. -/
abbrev Heap (E : Env) := Ptr → ChatInviteExt E

/-- The assignment `*p = r`. -/
def Heap.store {E : Env} (h : Heap E) (p : Ptr) (r : ChatInviteExt E) : Heap E :=
  fun q => if q = p then r else h q

/-- The view `TLChatInviteAlready` as the source declares it: a pointer to the storage. -/
structure OnHeap.TLChatInviteAlready where
  Data2 : Ptr
  deriving DecidableEq, Repr

/-- The view `TLChatInvite` as the source declares it: a pointer to the storage. -/
structure OnHeap.TLChatInvite where
  Data2 : Ptr
  deriving DecidableEq, Repr

/-- The view `TLChatInvitePeek` as the source declares it: a pointer to the storage. -/
structure OnHeap.TLChatInvitePeek where
  Data2 : Ptr
  deriving DecidableEq, Repr

/-- The method `(*ChatInviteExt).To_ChatInviteAlready`: writes the name into `*m` and
returns a view holding `m`. -/
def OnHeap.To_ChatInviteAlready {E : Env} (m : Ptr) (h : Heap E) :
    Heap E × OnHeap.TLChatInviteAlready :=
  (h.store m { h m with PredicateName := Predicate_chatInviteAlready }, { Data2 := m })

/-- The method `(*ChatInviteExt).To_ChatInvite`. -/
def OnHeap.To_ChatInvite {E : Env} (m : Ptr) (h : Heap E) : Heap E × OnHeap.TLChatInvite :=
  (h.store m { h m with PredicateName := Predicate_chatInvite }, { Data2 := m })

/-- The method `(*ChatInviteExt).To_ChatInvitePeek`. -/
def OnHeap.To_ChatInvitePeek {E : Env} (m : Ptr) (h : Heap E) :
    Heap E × OnHeap.TLChatInvitePeek :=
  (h.store m { h m with PredicateName := Predicate_chatInvitePeek }, { Data2 := m })

/-- The function `MakeTLChatInviteAlready`; `fresh` is the address the allocation
`&ChatInviteExt{...}` of the nil branch returns. -/
def OnHeap.MakeTLChatInviteAlready {E : Env} (data2 : Option Ptr) (fresh : Ptr) (h : Heap E) :
    Heap E × OnHeap.TLChatInviteAlready :=
  match data2 with
  | none => (h.store fresh { PredicateName := Predicate_chatInviteAlready }, { Data2 := fresh })
  | some data2 =>
    (h.store data2 { h data2 with PredicateName := Predicate_chatInviteAlready },
      { Data2 := data2 })

/-- The function `MakeTLChatInvite`. -/
def OnHeap.MakeTLChatInvite {E : Env} (data2 : Option Ptr) (fresh : Ptr) (h : Heap E) :
    Heap E × OnHeap.TLChatInvite :=
  match data2 with
  | none => (h.store fresh { PredicateName := Predicate_chatInvite }, { Data2 := fresh })
  | some data2 =>
    (h.store data2 { h data2 with PredicateName := Predicate_chatInvite }, { Data2 := data2 })

/-- The function `MakeTLChatInvitePeek`. -/
def OnHeap.MakeTLChatInvitePeek {E : Env} (data2 : Option Ptr) (fresh : Ptr) (h : Heap E) :
    Heap E × OnHeap.TLChatInvitePeek :=
  match data2 with
  | none => (h.store fresh { PredicateName := Predicate_chatInvitePeek }, { Data2 := fresh })
  | some data2 =>
    (h.store data2 { h data2 with PredicateName := Predicate_chatInvitePeek },
      { Data2 := data2 })

/-- The method `(*TLChatInviteAlready).To_ChatInviteExt`: writes the name into
`*m.Data2` and returns the pointer `m.Data2`. -/
def OnHeap.TLChatInviteAlready.To_ChatInviteExt {E : Env} (m : OnHeap.TLChatInviteAlready)
    (h : Heap E) : Heap E × Ptr :=
  (h.store m.Data2 { h m.Data2 with PredicateName := Predicate_chatInviteAlready }, m.Data2)

def OnHeap.TLChatInviteAlready.SetChat {E : Env} (m : OnHeap.TLChatInviteAlready) (h : Heap E)
    (v : Option E.MutableChat) : Heap E :=
  h.store m.Data2 { h m.Data2 with Chat := v }

def OnHeap.TLChatInviteAlready.GetChat {E : Env} (m : OnHeap.TLChatInviteAlready)
    (h : Heap E) : Option E.MutableChat :=
  (h m.Data2).Chat

/-- The method `(*TLChatInvite).To_ChatInviteExt`. -/
def OnHeap.TLChatInvite.To_ChatInviteExt {E : Env} (m : OnHeap.TLChatInvite) (h : Heap E) :
    Heap E × Ptr :=
  (h.store m.Data2 { h m.Data2 with PredicateName := Predicate_chatInvite }, m.Data2)

def OnHeap.TLChatInvite.SetRequestNeeded {E : Env} (m : OnHeap.TLChatInvite) (h : Heap E)
    (v : Bool) : Heap E :=
  h.store m.Data2 { h m.Data2 with RequestNeeded := v }

def OnHeap.TLChatInvite.GetRequestNeeded {E : Env} (m : OnHeap.TLChatInvite) (h : Heap E) :
    Bool :=
  (h m.Data2).RequestNeeded

def OnHeap.TLChatInvite.SetTitle {E : Env} (m : OnHeap.TLChatInvite) (h : Heap E)
    (v : String) : Heap E :=
  h.store m.Data2 { h m.Data2 with Title := v }

def OnHeap.TLChatInvite.GetTitle {E : Env} (m : OnHeap.TLChatInvite) (h : Heap E) : String :=
  (h m.Data2).Title

def OnHeap.TLChatInvite.SetAbout {E : Env} (m : OnHeap.TLChatInvite) (h : Heap E)
    (v : Option String) : Heap E :=
  h.store m.Data2 { h m.Data2 with About := v }

def OnHeap.TLChatInvite.GetAbout {E : Env} (m : OnHeap.TLChatInvite) (h : Heap E) :
    Option String :=
  (h m.Data2).About

def OnHeap.TLChatInvite.SetPhoto {E : Env} (m : OnHeap.TLChatInvite) (h : Heap E)
    (v : Option E.Photo) : Heap E :=
  h.store m.Data2 { h m.Data2 with Photo := v }

def OnHeap.TLChatInvite.GetPhoto {E : Env} (m : OnHeap.TLChatInvite) (h : Heap E) :
    Option E.Photo :=
  (h m.Data2).Photo

def OnHeap.TLChatInvite.SetParticipantsCount {E : Env} (m : OnHeap.TLChatInvite) (h : Heap E)
    (v : ℤ) : Heap E :=
  h.store m.Data2 { h m.Data2 with ParticipantsCount := v }

def OnHeap.TLChatInvite.GetParticipantsCount {E : Env} (m : OnHeap.TLChatInvite)
    (h : Heap E) : ℤ :=
  (h m.Data2).ParticipantsCount

def OnHeap.TLChatInvite.SetParticipants {E : Env} (m : OnHeap.TLChatInvite) (h : Heap E)
    (v : Option (List ℤ)) : Heap E :=
  h.store m.Data2 { h m.Data2 with Participants := v }

def OnHeap.TLChatInvite.GetParticipants {E : Env} (m : OnHeap.TLChatInvite) (h : Heap E) :
    Option (List ℤ) :=
  (h m.Data2).Participants

/-- The method `(*TLChatInvitePeek).To_ChatInviteExt`. -/
def OnHeap.TLChatInvitePeek.To_ChatInviteExt {E : Env} (m : OnHeap.TLChatInvitePeek)
    (h : Heap E) : Heap E × Ptr :=
  (h.store m.Data2 { h m.Data2 with PredicateName := Predicate_chatInvitePeek }, m.Data2)

def OnHeap.TLChatInvitePeek.SetChat {E : Env} (m : OnHeap.TLChatInvitePeek) (h : Heap E)
    (v : Option E.MutableChat) : Heap E :=
  h.store m.Data2 { h m.Data2 with Chat := v }

def OnHeap.TLChatInvitePeek.GetChat {E : Env} (m : OnHeap.TLChatInvitePeek) (h : Heap E) :
    Option E.MutableChat :=
  (h m.Data2).Chat

def OnHeap.TLChatInvitePeek.SetExpires {E : Env} (m : OnHeap.TLChatInvitePeek) (h : Heap E)
    (v : ℤ) : Heap E :=
  h.store m.Data2 { h m.Data2 with Expires := v }

def OnHeap.TLChatInvitePeek.GetExpires {E : Env} (m : OnHeap.TLChatInvitePeek) (h : Heap E) :
    ℤ :=
  (h m.Data2).Expires

/-- The heap after one view operation on the record at address `s`.  The three `MakeTL...`
functions are called with the non-nil pointer `s`, so they allocate nothing, and the
three `To_ChatInviteExt` methods are called on a view that holds `s`. -/
def ViewOp.applyAt {E : Env} (op : ViewOp) (s : Ptr) (h : Heap E) : Heap E :=
  match op with
  | .To_ChatInviteAlready => (OnHeap.To_ChatInviteAlready s h).1
  | .To_ChatInvite => (OnHeap.To_ChatInvite s h).1
  | .To_ChatInvitePeek => (OnHeap.To_ChatInvitePeek s h).1
  | .MakeTLChatInviteAlready => (OnHeap.MakeTLChatInviteAlready (some s) (s + 1) h).1
  | .MakeTLChatInvite => (OnHeap.MakeTLChatInvite (some s) (s + 1) h).1
  | .MakeTLChatInvitePeek => (OnHeap.MakeTLChatInvitePeek (some s) (s + 1) h).1
  | .TLChatInviteAlready_To_ChatInviteExt =>
    (OnHeap.TLChatInviteAlready.To_ChatInviteExt { Data2 := s } h).1
  | .TLChatInvite_To_ChatInviteExt => (OnHeap.TLChatInvite.To_ChatInviteExt { Data2 := s } h).1
  | .TLChatInvitePeek_To_ChatInviteExt =>
    (OnHeap.TLChatInvitePeek.To_ChatInviteExt { Data2 := s } h).1

/-- The heap after a sequence of view operations on the record at address `s`. -/
def applyViewOpsAt {E : Env} (ops : List ViewOp) (s : Ptr) (h : Heap E) : Heap E :=
  ops.foldl (fun h op => op.applyAt s h) h

/-- A heap of empty records. -/
def exampleHeap : Heap specEnv := fun _ => {}

/-- A `UserChatIdList` record that holds a user id and chat ids and no identity: neither
`PredicateName` nor `Constructor` is set. -/
def exampleBareUserChatIdList : UserChatIdList :=
  { UserId := -5, ChatIdList := some [7, 42] }

/-- A `RecentChatInviteRequesters` record that holds its two fields and no identity. -/
def exampleBareRequesters : RecentChatInviteRequesters :=
  { RequestsPending := 3, RecentRequesters := some [10, 11] }

/-- A `chatInviteImported` view with a chat and a requesters record without identity. -/
def exampleImportedBareRequesters : TLChatInviteImported specEnv :=
  { Data2 :=
      { PredicateName := Predicate_chatInviteImported,
        Chat := some { Constructor := 265468810, Id := 77 },
        Requesters := some exampleBareRequesters } }

end Chat

namespace Dao

/-!
# The cache keys and the emoji status of `app/service/biz/user/internal/dao/cache_user_data.go`

A Go `string` is a `String`, read as its list of characters.  Go indexes strings by
byte; the only index the code computes is the length of an ASCII prefix the string was
just tested to start with, where counting bytes and counting characters agree.
`int64` and `int32` values are integers, as in the codec above.
-/

/-! ## The standard library -/

/-- Modelled from the spec: the specification leaves `strings.HasPrefix` to the Go
standard library; `HasPrefix s p` tells whether `s` begins with `p`. -/
def HasPrefix (s p : String) : Bool := p.data.isPrefixOf s.data

/-- The decimal digits of `n`, least significant first, by at most `fuel` divisions. -/
def decimalDigits : Nat → Nat → List Nat
  | 0, _ => []
  | fuel + 1, n => if n < 10 then [n] else n % 10 :: decimalDigits fuel (n / 10)

/-- The character of a decimal digit. -/
def digitChar (d : Nat) : Char := Char.ofNat (48 + d)

/-- Modelled from the spec: the specification leaves the verb `%d` of `fmt.Sprintf` to
the Go standard library; for an `int64` it writes the decimal digits of the magnitude
without leading zeros (twenty digits are more than an `int64` has), after a `-` when the
value is negative. -/
def formatDecimal (v : ℤ) : String :=
  let digits := String.mk ((decimalDigits 20 v.natAbs).reverse.map digitChar)
  if v < 0 then "-" ++ digits else digits

/-- The two errors of package `strconv`. -/
inductive NumError where
  | ErrSyntax
  | ErrRange
  deriving DecidableEq, Repr

/-- The test `'0' <= c && c <= '9'`. -/
def isDigit (c : Char) : Bool := decide (48 ≤ c.toNat) && decide (c.toNat ≤ 57)

/-- The number a string of decimal digits denotes. -/
def decimalValue (cs : List Char) : Nat := cs.foldl (fun a c => a * 10 + (c.toNat - 48)) 0

/-- Modelled from the spec: the specification leaves `strconv.ParseUint` to the Go
standard library; this is the loop of its source at base 10 and bit size 64, with `n`
the value so far.  A character that is not a decimal digit is a syntax error with value
0; when `n` is at least `maxUint64/10 + 1`, or adding the digit to `10 * n` passes
`maxUint64` (in Go the `uint64` sum wraps below `10 * n`), the loop returns at once with
`maxUint64` and a range error. -/
def parseUintLoop : List Char → Nat → Nat × Option NumError
  | [], n => (n, none)
  | c :: cs, n =>
    if isDigit c then
      if n ≥ 1844674407370955162 then (18446744073709551615, some NumError.ErrRange)
      else if n * 10 + (c.toNat - 48) > 18446744073709551615 then
        (18446744073709551615, some NumError.ErrRange)
      else parseUintLoop cs (n * 10 + (c.toNat - 48))
    else (0, some NumError.ErrSyntax)

/-- Modelled from the spec: `strconv.ParseUint(s, 10, 64)` of the Go standard library;
the empty string is a syntax error. -/
def ParseUint (s : List Char) : Nat × Option NumError :=
  match s with
  | [] => (0, some NumError.ErrSyntax)
  | _ => parseUintLoop s 0

/-- Modelled from the spec: `strconv.ParseInt(s, 10, 64)` of the Go standard library,
after its source.  One leading `+` or `-` is taken off and the rest goes to `ParseUint`;
a syntax error gives 0; an unsigned value of at least `2^63` without `-`, or above `2^63`
with `-`, gives the largest or the smallest `int64` and a range error; otherwise the
value is `int64(un)`, negated (in `int64`) after a `-`. -/
def ParseInt (s : String) : ℤ × Option NumError :=
  match s.data with
  | [] => (0, some NumError.ErrSyntax)
  | c :: cs =>
    let neg := decide (c = '-')
    let body := if c = '+' ∨ c = '-' then cs else c :: cs
    let (un, err) := ParseUint body
    if err = some NumError.ErrSyntax then (0, err)
    else if neg = false ∧ un ≥ 9223372036854775808 then
      (9223372036854775807, some NumError.ErrRange)
    else if neg = true ∧ un > 9223372036854775808 then
      (-9223372036854775808, some NumError.ErrRange)
    else
      let n := Chat.toI64 un
      (if neg then Chat.toI64 (Chat.toU64 (-n)) else n, none)

/-! ## The cache keys -/

/-- The constant `cacheUserDataKeyPrefix`. -/
def cacheUserDataKeyPrefix : String := "user_data.1"

/-- The function `genCacheUserDataCacheKey`: `fmt.Sprintf("%s#%d", ...)` writes the
constant, a `#` and the id in decimal. -/
def genCacheUserDataCacheKey (id : ℤ) : String :=
  cacheUserDataKeyPrefix ++ "#" ++ formatDecimal id

/-- The function `parseCacheUserDataCacheKey`; the error of `strconv.ParseInt` is
dropped and its value returned. -/
def parseCacheUserDataCacheKey (k : String) : ℤ :=
  if HasPrefix k (cacheUserDataKeyPrefix ++ "#") then
    let (v, _) := ParseInt (String.mk (k.data.drop (cacheUserDataKeyPrefix.length + 1)))
    v
  else
    0

/-- The function `isCacheUserDataCacheKey`. -/
def isCacheUserDataCacheKey (k : String) : Bool := HasPrefix k cacheUserDataKeyPrefix

/-! ## The emoji status -/

/-- Modelled from the spec: the storage record `mtproto.EmojiStatus` of the external
package `mtproto`, a polymorphic supertype ("all variants of one supertype share a
single underlying storage record containing the union of all variants' fields"), with
the fields `makeEmojiStatus` writes. -/
structure EmojiStatus where
  PredicateName : String := ""
  Constructor : ℤ := 0
  DocumentId : ℤ := 0
  Until : ℤ := 0
  deriving DecidableEq, Repr

/-- Modelled from the spec: the view `mtproto.TLEmojiStatus`. -/
structure TLEmojiStatus where
  Data2 : EmojiStatus
  deriving DecidableEq, Repr

/-- Modelled from the spec: the view `mtproto.TLEmojiStatusUntil`. -/
structure TLEmojiStatusUntil where
  Data2 : EmojiStatus
  deriving DecidableEq, Repr

/-- The predicate name of the plain emoji-status variant. -/
def Predicate_emojiStatus : String := "emojiStatus"

/-- The predicate name of the emoji-status-until variant. -/
def Predicate_emojiStatusUntil : String := "emojiStatusUntil"

/-- Modelled from the spec: `mtproto.MakeTLEmojiStatus`, as the `MakeTL...` functions
of the chat codec ("constructing a view from a bare storage record ... defaults to that
view's own identity"): the view over the record given, with the name of the variant. -/
def MakeTLEmojiStatus (data2 : Option EmojiStatus) : TLEmojiStatus :=
  match data2 with
  | none => { Data2 := { PredicateName := Predicate_emojiStatus } }
  | some data2 => { Data2 := { data2 with PredicateName := Predicate_emojiStatus } }

/-- Modelled from the spec: `mtproto.MakeTLEmojiStatusUntil`. -/
def MakeTLEmojiStatusUntil (data2 : Option EmojiStatus) : TLEmojiStatusUntil :=
  match data2 with
  | none => { Data2 := { PredicateName := Predicate_emojiStatusUntil } }
  | some data2 => { Data2 := { data2 with PredicateName := Predicate_emojiStatusUntil } }

/-- Modelled from the spec: `(*TLEmojiStatus).To_EmojiStatus`, the storage record of the
view with the name of the variant. -/
def TLEmojiStatus.To_EmojiStatus (m : TLEmojiStatus) : EmojiStatus :=
  { m.Data2 with PredicateName := Predicate_emojiStatus }

/-- Modelled from the spec: `(*TLEmojiStatusUntil).To_EmojiStatus`. -/
def TLEmojiStatusUntil.To_EmojiStatus (m : TLEmojiStatusUntil) : EmojiStatus :=
  { m.Data2 with PredicateName := Predicate_emojiStatusUntil }

/-- The function `makeEmojiStatus`; `none` is the nil pointer, and `until_` is the
parameter `until` of the source. -/
def makeEmojiStatus (documentId : ℤ) (until_ : ℤ) : Option EmojiStatus :=
  if documentId = 0 then
    none
  else if until_ > 0 then
    some (MakeTLEmojiStatus (some { DocumentId := documentId })).To_EmojiStatus
  else
    some (MakeTLEmojiStatusUntil
      (some { DocumentId := documentId, Until := until_ })).To_EmojiStatus

end Dao

namespace Chat

/-! ## The fixed-width primitives are inverse -/

theorem leVal_four (n : Nat) (h : n < 4294967296) :
    leVal [byte n, byte (n / 256), byte (n / 256 / 256), byte (n / 256 / 256 / 256)] = n := by
  simp only [leVal, byte]
  omega

theorem leVal_eight (n : Nat) (h : n < 18446744073709551616) :
    leVal [byte n, byte (n / 256), byte (n / 256 / 256), byte (n / 256 / 256 / 256),
      byte (n / 256 / 256 / 256 / 256), byte (n / 256 / 256 / 256 / 256 / 256),
      byte (n / 256 / 256 / 256 / 256 / 256 / 256),
      byte (n / 256 / 256 / 256 / 256 / 256 / 256 / 256)] = n := by
  simp only [leVal, byte]
  omega

theorem toU32_lt (v : ℤ) : toU32 v < 4294967296 := by
  unfold toU32; omega

theorem toU64_lt (v : ℤ) : toU64 v < 18446744073709551616 := by
  unfold toU64; omega

theorem toI32_toU32 (v : ℤ) (h : isInt32 v) : toI32 (toU32 v) = v := by
  unfold isInt32 at h
  unfold toI32 toU32
  split <;> omega

theorem toI64_toU64 (v : ℤ) (h : isInt64 v) : toI64 (toU64 v) = v := by
  unfold isInt64 at h
  unfold toI64 toU64
  split <;> omega

theorem toU32_toI32 (n : Nat) (h : n < 4294967296) : toU32 (toI32 n) = n := by
  unfold toI32 toU32
  split <;> omega

theorem UInt_leBytes (n : Nat) (r : List Byte) (h : n < 4294967296) :
    DecodeBuf.UInt ⟨leBytes 4 n ++ r, none⟩ = (n, ⟨r, none⟩) := by
  simp only [leBytes, List.cons_append, List.nil_append, DecodeBuf.UInt, leVal_four n h]

theorem Int_leBytes (v : ℤ) (r : List Byte) (h : isInt32 v) :
    DecodeBuf.Int ⟨leBytes 4 (toU32 v) ++ r, none⟩ = (v, ⟨r, none⟩) := by
  simp only [leBytes, List.cons_append, List.nil_append, DecodeBuf.Int,
    leVal_four _ (toU32_lt v), toI32_toU32 v h]

theorem Long_leBytes (v : ℤ) (r : List Byte) (h : isInt64 v) :
    DecodeBuf.Long ⟨leBytes 8 (toU64 v) ++ r, none⟩ = (v, ⟨r, none⟩) := by
  simp only [leBytes, List.cons_append, List.nil_append, DecodeBuf.Long,
    leVal_eight _ (toU64_lt v), toI64_toU64 v h]

theorem length_leBytes (k n : Nat) : (leBytes k n).length = k := by
  induction k generalizing n with
  | zero => rfl
  | succ k ih => simp [leBytes, ih]

example : hasBit 4 2 = true := by simp +decide

theorem Int_leBytes_tag (n : Nat) (r : List Byte) (h : n < 4294967296) :
    DecodeBuf.Int ⟨leBytes 4 n ++ r, none⟩ = (toI32 n, ⟨r, none⟩) := by
  simp only [leBytes, List.cons_append, List.nil_append, DecodeBuf.Int, leVal_four n h]

/-- Decoding one encoded `UserChatIdList` that is followed by further bytes. -/
theorem userChatIdList_decode_encode_append (E : Env) (m m0 : UserChatIdList) (layer : ℤ)
    (r : List Byte)
    (hid : resolvePredicateName E m.PredicateName m.Constructor = Predicate_userChatIdList)
    (hlayer : toU32 (E.GetClazzID Predicate_userChatIdList layer) = 0x50067224)
    (huid : isInt64 m.UserId) (hvec : E.VectorLongInverse m.ChatIdList) :
    UserChatIdList.Decode E m0 ⟨(UserChatIdList.Encode E m layer).1 ++ r, none⟩ =
      (none,
        { PredicateName := Predicate_userChatIdList, Constructor := 1342599716,
          UserId := m.UserId, ChatIdList := some (elems m.ChatIdList) },
        ⟨r, none⟩) := by
  have htag : toI32 1342599716 = 1342599716 := by decide
  have hu : toU32 1342599716 = 1342599716 := by decide
  simp only [UserChatIdList.Encode, hid, if_true, UserChatIdList.To_UserChatIdList,
    TLUserChatIdList.Encode, hlayer, NewEncodeBuf, EncodeBuf.UInt, EncodeBuf.Long,
    EncodeBuf.VectorLong, EncodeBuf.GetBuf, TLUserChatIdList.GetUserId,
    TLUserChatIdList.GetChatIdList, List.nil_append, List.append_assoc, Nat.reduceMod,
    UserChatIdList.Decode, Int_leBytes_tag _ _ (by decide : (1342599716 : Nat) < 4294967296),
    htag, hu, MakeTLUserChatIdList, TLUserChatIdList.Decode, Long_leBytes _ _ huid,
    TLUserChatIdList.SetUserId, TLUserChatIdList.SetChatIdList, DecodeBuf.VectorLong, hvec _,
    DecodeBuf.GetError]

/-! ## The concrete environment satisfies the assumptions -/

theorem getLongs_putLongs (l : List ℤ) (r : List Byte) (h : ∀ x ∈ l, isInt64 x) :
    getLongs l.length ⟨putLongs l ++ r, none⟩ = (l, ⟨r, none⟩) := by
  induction l with
  | nil => simp [getLongs, putLongs]
  | cons v vs ih =>
    have hv : isInt64 v := h v (List.mem_cons_self v vs)
    have hvs : ∀ x ∈ vs, isInt64 x := fun x hx => h x (List.mem_cons_of_mem v hx)
    simp only [List.length_cons, getLongs, putLongs, List.append_assoc, Long_leBytes _ _ hv, ih hvs]

theorem specEnv_VectorLongInverse (v : Option (List ℤ)) (h : ∀ x ∈ elems v, isInt64 x)
    (hlen : (elems v).length < 2147483648) : specEnv.VectorLongInverse v := by
  intro r
  have h1 : (elems v).length % 4294967296 = (elems v).length := Nat.mod_eq_of_lt (by omega)
  have h2 : toI32 (elems v).length = ((elems v).length : ℤ) := by
    unfold toI32; split <;> omega
  simp only [specEnv, specPutVectorLong, specGetVectorLong, List.append_assoc, h1,
    Int_leBytes_tag _ _ (by omega : (elems v).length < 4294967296), h2]
  have h3 : ¬ (((elems v).length : ℤ) < 0) := by omega
  simp only [h3, if_false, Int.toNat_ofNat, getLongs_putLongs _ r h]

theorem specGetString_frame (b : List Byte) (s : String) (r : List Byte)
    (h : specGetString ⟨b, none⟩ = (s, ⟨[], none⟩)) :
    specGetString ⟨b ++ r, none⟩ = (s, ⟨r, none⟩) := by
  match b, h with
  | [], h => simp [specGetString, DecodeBuf.UInt] at h
  | [_], h => simp [specGetString, DecodeBuf.UInt] at h
  | [_, _], h => simp [specGetString, DecodeBuf.UInt] at h
  | [_, _, _], h => simp [specGetString, DecodeBuf.UInt] at h
  | b0 :: b1 :: b2 :: b3 :: t, h =>
    simp only [specGetString, DecodeBuf.UInt, List.cons_append] at h ⊢
    split at h
    · simp at h
    · rename_i hlt
      simp only [Prod.mk.injEq, DecodeBuf.mk.injEq, and_true] at h
      obtain ⟨hs, hd⟩ := h
      have hle : t.length ≤ leVal [b0, b1, b2, b3] + padding (leVal [b0, b1, b2, b3]) := by
        have := List.drop_eq_nil_iff.mp hd
        exact this
      have heq : t.length = leVal [b0, b1, b2, b3] + padding (leVal [b0, b1, b2, b3]) := by omega
      have hn : leVal [b0, b1, b2, b3] ≤ t.length := by omega
      have h1 : ¬ ((t ++ r).length < leVal [b0, b1, b2, b3] + padding (leVal [b0, b1, b2, b3])) := by
        simp only [List.length_append]; omega
      rw [if_neg h1, List.take_append_of_le_length hn, hs, ← heq, List.drop_left]

theorem Nested_framed (tag : Nat) (p : Nested) (layer : ℤ) (r : List Byte) (h : isInt64 p.Id) :
    (Nested.Decode ⟨Nested.Encode tag (some p) layer ++ r, none⟩).2 = ⟨r, none⟩ := by
  simp only [Nested.Encode, Nested.Decode, List.append_assoc,
    Int_leBytes_tag _ _ (Nat.mod_lt tag (by decide)), Long_leBytes _ _ h]

/-- Decoding one encoded `chatInvite` that is followed by further bytes. -/
theorem chatInvite_decode_encode_append (E : Env) (m : TLChatInvite E) (layer : ℤ)
    (r : List Byte)
    (hlayer : toU32 (E.GetClazzID Predicate_chatInvite layer) = 0xdb75d1a7)
    (hcount : isInt32 m.GetParticipantsCount)
    (htitle : E.StringInverse m.GetTitle)
    (habout : ∀ a, m.GetAbout = some a → E.StringInverse a)
    (hphoto : E.PhotoFramed m.GetPhoto layer)
    (hparts : ∀ l, m.GetParticipants = some l → E.VectorLongInverse (some l)) :
    ∃ p : E.Photo,
      ChatInviteExt.Decode E {} ⟨(ChatInviteExt.Encode E m.To_ChatInviteExt layer).1 ++ r, none⟩ =
        (none,
          { PredicateName := Predicate_chatInvite, Constructor := -613035609,
            RequestNeeded := m.GetRequestNeeded, Title := m.GetTitle, About := m.GetAbout,
            Photo := some p, ParticipantsCount := m.GetParticipantsCount,
            Participants := m.GetParticipants },
          ⟨r, none⟩) := by
  obtain ⟨f, hf⟩ : ∃ f : List Byte → E.Photo, ∀ t : List Byte,
      E.decodePhoto ⟨E.encodePhoto m.GetPhoto layer ++ t, none⟩ = (f t, ⟨t, none⟩) :=
    ⟨fun t => (E.decodePhoto ⟨E.encodePhoto m.GetPhoto layer ++ t, none⟩).1,
      fun t => Prod.ext rfl (hphoto t)⟩
  have htag : toI32 3681931687 = -613035609 := by decide
  have hu : toU32 (-613035609) = 3681931687 := by decide
  have hne1 : ¬ ((3681931687 : Nat) = 2752413022) := by decide
  have hid : resolvePredicateName E Predicate_chatInvite m.Data2.Constructor
      = Predicate_chatInvite := by
    simp [resolvePredicateName, Predicate_chatInvite]
  have hne2 : ¬ (Predicate_chatInvite = Predicate_chatInviteAlready) := by decide
  obtain ⟨⟨pn, c, chat, rn, title, about, photo, count, parts, ex⟩⟩ := m
  simp only [TLChatInvite.GetRequestNeeded, TLChatInvite.GetTitle, TLChatInvite.GetAbout,
    TLChatInvite.GetPhoto, TLChatInvite.GetParticipantsCount, TLChatInvite.GetParticipants,
    Env.StringInverse, Env.VectorLongInverse] at hcount htitle habout hf hparts hid ⊢
  cases rn <;> cases about <;> cases parts <;>
  simp +decide only [ChatInviteExt.Encode, TLChatInvite.To_ChatInviteExt, hid, hne2, if_true, if_false,
    ChatInviteExt.To_ChatInvite, TLChatInvite.Encode, hlayer, TLChatInvite.getFlags, setBit,
    NewEncodeBuf, EncodeBuf.UInt, EncodeBuf.Int, EncodeBuf.String, EncodeBuf.Bytes,
    EncodeBuf.VectorLong, EncodeBuf.GetBuf, TLChatInvite.GetRequestNeeded, TLChatInvite.GetTitle,
    TLChatInvite.GetAbout, TLChatInvite.GetPhoto, TLChatInvite.GetParticipantsCount,
    TLChatInvite.GetParticipants, List.nil_append, List.append_assoc, Nat.reduceMod,
    ChatInviteExt.Decode, Int_leBytes_tag _ _ (by decide : (3681931687 : Nat) < 4294967296),
    htag, hu, hne1, MakeTLChatInvite, TLChatInvite.Decode,
    UInt_leBytes, hasBit, DecodeBuf.String, htitle, habout, hf, Int_leBytes _ _ hcount,
    TLChatInvite.SetRequestNeeded, TLChatInvite.SetTitle, TLChatInvite.SetAbout,
    TLChatInvite.SetPhoto, TLChatInvite.SetParticipantsCount, TLChatInvite.SetParticipants,
    DecodeBuf.VectorLong, hparts, DecodeBuf.GetError, elems, ne_eq, not_true_eq_false,
    not_false_eq_true, reduceCtorEq, Nat.reduceShiftLeft, Nat.reduceOr, Nat.reduceAnd,
    Nat.reduceLT, bne_iff_ne]
  all_goals exact ⟨_, rfl⟩

/-- Decoding an encoded `chat.exportChatInvite` (its tag already consumed) that is followed
by further bytes. -/
theorem exportChatInvite_decode_encode_append (E : Env) (m : TLChatExportChatInvite)
    (layer : ℤ) (r : List Byte)
    (hc : toU32 m.Constructor = 0xc5cf804b)
    (hchat : isInt64 m.ChatId) (hadmin : isInt64 m.AdminId)
    (hexpire : ∀ v, m.ExpireDate = some v → isInt32 v)
    (husage : ∀ v, m.UsageLimit = some v → isInt32 v)
    (htitle : ∀ s, m.Title = some s → E.StringInverse s) :
    TLChatExportChatInvite.Decode E { Constructor := m.Constructor }
        ⟨(m.Encode E layer).drop 4 ++ r, none⟩ = (none, m, ⟨r, none⟩) := by
  obtain ⟨c, chatId, adminId, legacy, rn, expire, usage, title⟩ := m
  simp only [Env.StringInverse] at hc hchat hadmin hexpire husage htitle
  have he : ∀ v t, expire = some v →
      DecodeBuf.Int ⟨leBytes 4 (toU32 v) ++ t, none⟩ = (v, ⟨t, none⟩) :=
    fun v t h => Int_leBytes v t (hexpire v h)
  have hus : ∀ v t, usage = some v →
      DecodeBuf.Int ⟨leBytes 4 (toU32 v) ++ t, none⟩ = (v, ⟨t, none⟩) :=
    fun v t h => Int_leBytes v t (husage v h)
  have hdrop : ∀ t : List Byte, (leBytes 4 3318710347 ++ t).drop 4 = t := fun t =>
    List.drop_left' (length_leBytes 4 _)
  cases legacy <;> cases rn <;> cases expire <;> cases usage <;> cases title <;>
  simp +decide only [TLChatExportChatInvite.Encode, TLChatExportChatInvite.Decode, hc, if_true, if_false,
    TLChatExportChatInvite.flags, setBit, NewEncodeBuf, EncodeBuf.UInt, EncodeBuf.Int,
    EncodeBuf.Long, EncodeBuf.String, EncodeBuf.GetBuf, List.nil_append, List.append_assoc,
    List.append_nil, Nat.reduceMod, hdrop, UInt_leBytes, Long_leBytes _ _ hchat,
    Long_leBytes _ _ hadmin, hasBit, DecodeBuf.String, he, hus, htitle, DecodeBuf.GetError,
    ne_eq, not_true_eq_false, not_false_eq_true, reduceCtorEq, Nat.reduceShiftLeft, Nat.reduceOr,
    Nat.reduceAnd, Nat.reduceLT, bne_iff_ne]

/-- Decoding an encoded `chat.getExportedChatInvites` (its tag already consumed) whose two
offset fields are both present or both absent, followed by further bytes. -/
theorem getExportedChatInvites_decode_encode_append (E : Env)
    (m : TLChatGetExportedChatInvites) (layer : ℤ) (r : List Byte)
    (hc : toU32 m.Constructor = 0xb48f18f6)
    (hboth : m.OffsetDate.isSome = m.OffsetLink.isSome)
    (hchat : isInt64 m.ChatId) (hadmin : isInt64 m.AdminId) (hlimit : isInt32 m.Limit)
    (hdate : ∀ v, m.OffsetDate = some v → isInt32 v)
    (hlink : ∀ s, m.OffsetLink = some s → E.StringInverse s) :
    TLChatGetExportedChatInvites.Decode E { Constructor := m.Constructor }
        ⟨(m.Encode E layer).drop 4 ++ r, none⟩ = (none, m, ⟨r, none⟩) := by
  obtain ⟨c, chatId, adminId, revoked, date, link, limit⟩ := m
  simp only [Env.StringInverse] at hc hboth hchat hadmin hlimit hdate hlink
  have hd : ∀ v t, date = some v →
      DecodeBuf.Int ⟨leBytes 4 (toU32 v) ++ t, none⟩ = (v, ⟨t, none⟩) :=
    fun v t h => Int_leBytes v t (hdate v h)
  have hdrop : ∀ t : List Byte, (leBytes 4 3029276918 ++ t).drop 4 = t := fun t =>
    List.drop_left' (length_leBytes 4 _)
  cases revoked <;> cases date <;> cases link <;>
  first
  | (simp at hboth; done)
  | simp +decide only [TLChatGetExportedChatInvites.Encode, TLChatGetExportedChatInvites.Decode,
      hc, if_true, if_false, TLChatGetExportedChatInvites.flags, setBit, NewEncodeBuf,
      EncodeBuf.UInt, EncodeBuf.Int, EncodeBuf.Long, EncodeBuf.String, EncodeBuf.GetBuf,
      List.nil_append, List.append_assoc, List.append_nil, Nat.reduceMod, hdrop, UInt_leBytes,
      Long_leBytes _ _ hchat, Long_leBytes _ _ hadmin, Int_leBytes _ _ hlimit, hasBit,
      DecodeBuf.String, hd, hlink, DecodeBuf.GetError, ne_eq, not_true_eq_false,
      not_false_eq_true, reduceCtorEq, Nat.reduceShiftLeft, Nat.reduceOr, Nat.reduceAnd,
      Nat.reduceLT, bne_iff_ne]

/-- Decoding one encoded `RecentChatInviteRequesters` that is followed by further bytes. -/
theorem recentChatInviteRequesters_decode_encode_append (E : Env)
    (m m0 : RecentChatInviteRequesters) (layer : ℤ) (r : List Byte)
    (hid : resolvePredicateName E m.PredicateName m.Constructor
      = Predicate_recentChatInviteRequesters)
    (hlayer : toU32 (E.GetClazzID Predicate_recentChatInviteRequesters layer) = 0x1c6e3c54)
    (hpending : isInt32 m.RequestsPending) (hvec : E.VectorLongInverse m.RecentRequesters) :
    RecentChatInviteRequesters.Decode E m0
        ⟨(RecentChatInviteRequesters.Encode E m layer).1 ++ r, none⟩ =
      (none,
        { PredicateName := Predicate_recentChatInviteRequesters, Constructor := 476986452,
          RequestsPending := m.RequestsPending,
          RecentRequesters := some (elems m.RecentRequesters) },
        ⟨r, none⟩) := by
  have htag : toI32 476986452 = 476986452 := by decide
  have hu : toU32 476986452 = 476986452 := by decide
  simp only [RecentChatInviteRequesters.Encode, hid, if_true,
    RecentChatInviteRequesters.To_RecentChatInviteRequesters,
    TLRecentChatInviteRequesters.Encode, hlayer, NewEncodeBuf, EncodeBuf.UInt, EncodeBuf.Int,
    EncodeBuf.VectorLong, EncodeBuf.GetBuf, TLRecentChatInviteRequesters.GetRequestsPending,
    TLRecentChatInviteRequesters.GetRecentRequesters, List.nil_append, List.append_assoc,
    Nat.reduceMod, RecentChatInviteRequesters.Decode,
    Int_leBytes_tag _ _ (by decide : (476986452 : Nat) < 4294967296),
    htag, hu, MakeTLRecentChatInviteRequesters, TLRecentChatInviteRequesters.Decode,
    Int_leBytes _ _ hpending, TLRecentChatInviteRequesters.SetRequestsPending,
    TLRecentChatInviteRequesters.SetRecentRequesters, DecodeBuf.VectorLong, hvec _,
    DecodeBuf.GetError]

/-- Decoding one encoded `chatInviteImported` that is followed by further bytes. -/
theorem chatInviteImported_decode_encode_append (E : Env) (m : TLChatInviteImported E)
    (layer : ℤ) (r : List Byte)
    (hlayer : toU32 (E.GetClazzID Predicate_chatInviteImported layer) = 0x721051f6)
    (hlayer2 : toU32 (E.GetClazzID Predicate_recentChatInviteRequesters layer) = 0x1c6e3c54)
    (hchat : E.MutableChatFramed m.GetChat layer)
    (hreq : ∀ q, m.GetRequesters = some q →
      resolvePredicateName E q.PredicateName q.Constructor = Predicate_recentChatInviteRequesters
        ∧ isInt32 q.RequestsPending ∧ E.VectorLongInverse q.RecentRequesters) :
    ∃ c : E.MutableChat,
      ChatInviteImported.Decode E {}
          ⟨(ChatInviteImported.Encode E m.To_ChatInviteImported layer).1 ++ r, none⟩ =
        (none,
          { PredicateName := Predicate_chatInviteImported, Constructor := 1913672182,
            Chat := some c,
            Requesters := m.GetRequesters.map fun q =>
              { PredicateName := Predicate_recentChatInviteRequesters, Constructor := 476986452,
                RequestsPending := q.RequestsPending,
                RecentRequesters := some (elems q.RecentRequesters) } },
          ⟨r, none⟩) := by
  obtain ⟨f, hf⟩ : ∃ f : List Byte → E.MutableChat, ∀ t : List Byte,
      E.decodeMutableChat ⟨E.encodeMutableChat m.GetChat layer ++ t, none⟩
        = (f t, ⟨t, none⟩) :=
    ⟨fun t => (E.decodeMutableChat ⟨E.encodeMutableChat m.GetChat layer ++ t, none⟩).1,
      fun t => Prod.ext rfl (hchat t)⟩
  have htag : toI32 1913672182 = 1913672182 := by decide
  have hu : toU32 1913672182 = 1913672182 := by decide
  have hid : resolvePredicateName E Predicate_chatInviteImported m.Data2.Constructor
      = Predicate_chatInviteImported := by
    simp [resolvePredicateName, Predicate_chatInviteImported]
  obtain ⟨⟨pn, c, chat, req⟩⟩ := m
  simp only [TLChatInviteImported.GetChat, TLChatInviteImported.GetRequesters] at hf hreq hid ⊢
  cases req with
  | none =>
    simp +decide only [ChatInviteImported.Encode, TLChatInviteImported.To_ChatInviteImported,
      hid, if_true, if_false, ChatInviteImported.To_ChatInviteImported,
      TLChatInviteImported.Encode, hlayer, TLChatInviteImported.getFlags, setBit, NewEncodeBuf,
      EncodeBuf.UInt, EncodeBuf.Bytes, EncodeBuf.GetBuf, TLChatInviteImported.GetChat,
      TLChatInviteImported.GetRequesters, List.nil_append, List.append_assoc, Nat.reduceMod,
      ChatInviteImported.Decode, Int_leBytes_tag _ _ (by decide : (1913672182 : Nat) < 4294967296),
      htag, hu, MakeTLChatInviteImported, TLChatInviteImported.Decode, UInt_leBytes, hasBit, hf,
      TLChatInviteImported.SetChat, TLChatInviteImported.SetRequesters, DecodeBuf.GetError,
      ne_eq, not_true_eq_false, not_false_eq_true, reduceCtorEq, Nat.reduceShiftLeft,
      Nat.reduceOr, Nat.reduceAnd, Nat.reduceLT, bne_iff_ne, Option.map_none']
    exact ⟨_, rfl⟩
  | some q =>
    obtain ⟨hq1, hq2, hq3⟩ := hreq q rfl
    have hq := fun t => recentChatInviteRequesters_decode_encode_append E q {} layer t hq1
      hlayer2 hq2 hq3
    simp +decide only [ChatInviteImported.Encode, TLChatInviteImported.To_ChatInviteImported,
      hid, if_true, if_false, ChatInviteImported.To_ChatInviteImported,
      TLChatInviteImported.Encode, hlayer, TLChatInviteImported.getFlags, setBit, NewEncodeBuf,
      EncodeBuf.UInt, EncodeBuf.Bytes, EncodeBuf.GetBuf, TLChatInviteImported.GetChat,
      TLChatInviteImported.GetRequesters, List.nil_append, List.append_assoc, Nat.reduceMod,
      ChatInviteImported.Decode, Int_leBytes_tag _ _ (by decide : (1913672182 : Nat) < 4294967296),
      htag, hu, MakeTLChatInviteImported, TLChatInviteImported.Decode, UInt_leBytes, hasBit, hf,
      hq, TLChatInviteImported.SetChat, TLChatInviteImported.SetRequesters, DecodeBuf.GetError,
      ne_eq, not_true_eq_false, not_false_eq_true, reduceCtorEq, Nat.reduceShiftLeft,
      Nat.reduceOr, Nat.reduceAnd, Nat.reduceLT, bne_iff_ne, Option.map_some']
    exact ⟨_, rfl⟩

theorem hasBit_eq_testBit (flags k : Nat) : hasBit flags k = flags.testBit k := by
  unfold hasBit
  rw [Nat.one_shiftLeft, Nat.and_two_pow]
  cases h : flags.testBit k <;> simp

theorem leVal_lt_four (b0 b1 b2 b3 : Byte) : leVal [b0, b1, b2, b3] < 4294967296 := by
  simp only [leVal]
  omega

theorem TLChatExportChatInvite.flags_lt (m : TLChatExportChatInvite) : m.flags < 32 := by
  obtain ⟨c, chatId, adminId, legacy, rn, expire, usage, title⟩ := m
  cases legacy <;> cases rn <;> cases expire <;> cases usage <;> cases title <;>
    simp +decide [TLChatExportChatInvite.flags, setBit]

theorem TLChatExportChatInvite.flags_bits (m : TLChatExportChatInvite) :
    m.flags.testBit 0 = m.ExpireDate.isSome ∧ m.flags.testBit 1 = m.UsageLimit.isSome
      ∧ m.flags.testBit 4 = m.Title.isSome ∧ m.flags.testBit 2 = m.LegacyRevokePermanent
      ∧ m.flags.testBit 3 = m.RequestNeeded := by
  obtain ⟨c, chatId, adminId, legacy, rn, expire, usage, title⟩ := m
  cases legacy <;> cases rn <;> cases expire <;> cases usage <;> cases title <;>
    simp +decide [TLChatExportChatInvite.flags, setBit]

/-- The bytes `TLChatExportChatInvite.Encode` produces, field by field. -/
theorem TLChatExportChatInvite.Encode_eq (E : Env) (m : TLChatExportChatInvite) (layer : ℤ)
    (hc : toU32 m.Constructor = 0xc5cf804b) :
    m.Encode E layer =
      (leBytes 4 0xc5cf804b ++ leBytes 4 m.flags)
        ++ ((leBytes 8 (toU64 m.ChatId) ++ leBytes 8 (toU64 m.AdminId))
        ++ ((match m.ExpireDate with | some v => leBytes 4 (toU32 v) | none => [])
        ++ ((match m.UsageLimit with | some v => leBytes 4 (toU32 v) | none => [])
        ++ (match m.Title with | some s => E.putString s | none => [])))) := by
  have hf : m.flags % 4294967296 = m.flags := Nat.mod_eq_of_lt (by have := m.flags_lt; omega)
  simp only [TLChatExportChatInvite.Encode, hc, if_true, NewEncodeBuf, EncodeBuf.UInt,
    EncodeBuf.Long, EncodeBuf.GetBuf, List.nil_append, Nat.reduceMod, hf]
  cases m.ExpireDate <;> cases m.UsageLimit <;> cases m.Title <;>
    simp only [EncodeBuf.Int, EncodeBuf.String, List.append_assoc, List.append_nil, List.nil_append]

theorem wireFlags_eq (tag flags : Nat) (t : List Byte) (h : flags < 4294967296) :
    wireFlags ((leBytes 4 tag ++ leBytes 4 flags) ++ t) = flags := by
  simp only [wireFlags, leBytes, List.cons_append, List.nil_append, List.drop_succ_cons,
    List.drop_zero, List.take_succ_cons, List.take_zero, leVal_four flags h]

theorem specEnv_StringInverse (s : String)
    (h : specGetString ⟨specPutString s, none⟩ = (s, ⟨[], none⟩)) : specEnv.StringInverse s :=
  fun r => specGetString_frame (specPutString s) s r h

/-! ## The claims -/

/-- C1, as amended: round trip for the user-chat-id-list record whose identity is set.
For a record whose identity resolves to `userChatIdList` (its `PredicateName` is that
name, or is empty while `clazzIdNameRegisters2` maps its `Constructor` to that name), at a layer that resolves the predicate to `0x50067224`,
decoding the encoding into an empty instance returns no error and yields the same
`UserId` and the same `ChatIdList` elements in the same order (the `VectorLong`
primitives being inverse at the list). -/
theorem userChatIdList_roundtrip (E : Env) (m : UserChatIdList) (layer : ℤ)
    (hid : resolvePredicateName E m.PredicateName m.Constructor = Predicate_userChatIdList)
    (hlayer : toU32 (E.GetClazzID Predicate_userChatIdList layer) = 0x50067224)
    (huid : isInt64 m.UserId) (hvec : E.VectorLongInverse m.ChatIdList) :
    ∃ m' d', UserChatIdList.Decode E {} (NewDecodeBuf (UserChatIdList.Encode E m layer).1)
        = (none, m', d')
      ∧ m'.UserId = m.UserId ∧ elems m'.ChatIdList = elems m.ChatIdList := by
  have h := userChatIdList_decode_encode_append E m {} layer [] hid hlayer huid hvec
  rw [List.append_nil] at h
  exact ⟨_, _, h, rfl, rfl⟩

/-- The amended round trip of C1 at a record with a negative user id and two chat ids. -/
theorem userChatIdList_roundtrip_witness :
    ∃ m' d', UserChatIdList.Decode specEnv {}
          (NewDecodeBuf (UserChatIdList.Encode specEnv exampleUserChatIdList 158).1)
        = (none, m', d')
      ∧ m'.UserId = exampleUserChatIdList.UserId
      ∧ elems m'.ChatIdList = elems exampleUserChatIdList.ChatIdList :=
  userChatIdList_roundtrip specEnv exampleUserChatIdList 158 (by decide) (by decide)
    (by decide) (specEnv_VectorLongInverse _ (by decide) (by decide))

/-- C2: round trip for the chat-invite variant over all optional-field combinations.
At a layer that resolves `chatInvite` to `0xdb75d1a7`, decoding the encoding of a
`TLChatInvite` into an empty instance returns no error and reproduces `RequestNeeded`,
`Title`, `About`, `ParticipantsCount` and `Participants` exactly, an absent
`Participants` staying distinct from an empty one (the string and vector primitives being
inverse at the values written, and the photo decoder consuming exactly the photo's
bytes). -/
theorem chatInvite_roundtrip (E : Env) (m : TLChatInvite E) (layer : ℤ)
    (hlayer : toU32 (E.GetClazzID Predicate_chatInvite layer) = 0xdb75d1a7)
    (hcount : isInt32 m.GetParticipantsCount)
    (htitle : E.StringInverse m.GetTitle)
    (habout : ∀ a, m.GetAbout = some a → E.StringInverse a)
    (hphoto : E.PhotoFramed m.GetPhoto layer)
    (hparts : ∀ l, m.GetParticipants = some l → E.VectorLongInverse (some l)) :
    ∃ m' d', ChatInviteExt.Decode E {}
          (NewDecodeBuf (ChatInviteExt.Encode E m.To_ChatInviteExt layer).1) = (none, m', d')
      ∧ m'.RequestNeeded = m.GetRequestNeeded ∧ m'.Title = m.GetTitle
      ∧ m'.About = m.GetAbout ∧ m'.ParticipantsCount = m.GetParticipantsCount
      ∧ m'.Participants = m.GetParticipants := by
  obtain ⟨p, h⟩ := chatInvite_decode_encode_append E m layer [] hlayer hcount
    htitle habout hphoto hparts
  rw [List.append_nil] at h
  exact ⟨_, _, h, rfl, rfl, rfl, rfl, rfl⟩

/-- The round trip of C2 at an invite with an about-text and a present-but-empty participant list. -/
theorem chatInvite_roundtrip_witness :
    ∃ m' d', ChatInviteExt.Decode specEnv {}
          (NewDecodeBuf (ChatInviteExt.Encode specEnv exampleChatInvite.To_ChatInviteExt 158).1)
        = (none, m', d')
      ∧ m'.RequestNeeded = true ∧ m'.Title = "Team" ∧ m'.About = some "chat"
      ∧ m'.ParticipantsCount = 3 ∧ m'.Participants = some [] :=
  chatInvite_roundtrip specEnv exampleChatInvite 158 (by decide) (by decide)
    (specEnv_StringInverse "Team" (by decide))
    (fun a h => by
      obtain rfl : "chat" = a := Option.some.inj h
      exact specEnv_StringInverse "chat" (by decide))
    (fun r => Nested_framed _ _ 158 r (by decide))
    (fun l h => by
      obtain rfl : [] = l := Option.some.inj h
      exact specEnv_VectorLongInverse _ (by decide) (by decide))

/-- C3, as amended: round trip for the exported-chat-invite listing method when its two
offset fields agree in presence.  For a `TLChatGetExportedChatInvites` with constructor
`0xb48f18f6` in which `OffsetDate` and `OffsetLink` are both present or both absent,
decoding the encoding (leading tag consumed) into an empty instance carrying the same
constructor returns no error and yields a record equal to the original. -/
theorem getExportedChatInvites_roundtrip (E : Env) (m : TLChatGetExportedChatInvites)
    (layer : ℤ)
    (hc : toU32 m.Constructor = 0xb48f18f6)
    (hboth : m.OffsetDate.isSome = m.OffsetLink.isSome)
    (hchat : isInt64 m.ChatId) (hadmin : isInt64 m.AdminId) (hlimit : isInt32 m.Limit)
    (hdate : ∀ v, m.OffsetDate = some v → isInt32 v)
    (hlink : ∀ s, m.OffsetLink = some s → E.StringInverse s) :
    (TLChatGetExportedChatInvites.Decode E { Constructor := m.Constructor }
        (NewDecodeBuf ((m.Encode E layer).drop 4))).1 = none
      ∧ (TLChatGetExportedChatInvites.Decode E { Constructor := m.Constructor }
        (NewDecodeBuf ((m.Encode E layer).drop 4))).2.1 = m := by
  have h := getExportedChatInvites_decode_encode_append E m layer [] hc hboth hchat
    hadmin hlimit hdate hlink
  rw [List.append_nil] at h
  rw [NewDecodeBuf, h]
  exact ⟨rfl, rfl⟩

/-- The amended round trip of C3 at a record with both offset fields present. -/
theorem getExportedChatInvites_roundtrip_witness :
    (TLChatGetExportedChatInvites.Decode specEnv
        { Constructor := exampleGetExportedChatInvites.Constructor }
        (NewDecodeBuf ((exampleGetExportedChatInvites.Encode specEnv 158).drop 4))).1 = none
      ∧ (TLChatGetExportedChatInvites.Decode specEnv
        { Constructor := exampleGetExportedChatInvites.Constructor }
        (NewDecodeBuf ((exampleGetExportedChatInvites.Encode specEnv 158).drop 4))).2.1
        = exampleGetExportedChatInvites :=
  getExportedChatInvites_roundtrip specEnv exampleGetExportedChatInvites 158 (by decide)
    (by decide) (by decide) (by decide) (by decide)
    (fun v h => by
      obtain rfl : 1700000000 = v := Option.some.inj h
      decide)
    (fun s h => by
      obtain rfl : "Team" = s := Option.some.inj h
      exact specEnv_StringInverse "Team" (by decide))

/-- C3, counterexample: with only `OffsetDate` present the round trip fails.  The decoder
gates both offset reads on flags bit 2, so it reads an `OffsetLink` that was never
written: the call returns an error and the decoded record differs from the original. -/
theorem getExportedChatInvites_roundtrip_fails :
    (TLChatGetExportedChatInvites.Decode specEnv
        { Constructor := exampleOffsetDateOnly.Constructor }
        (NewDecodeBuf ((exampleOffsetDateOnly.Encode specEnv 158).drop 4))).1 ≠ none
      ∧ (TLChatGetExportedChatInvites.Decode specEnv
        { Constructor := exampleOffsetDateOnly.Constructor }
        (NewDecodeBuf ((exampleOffsetDateOnly.Encode specEnv 158).drop 4))).2.1
        ≠ exampleOffsetDateOnly := by
  decide

/-- C4: round trip for the export-chat-invite method over all 32 flag combinations.
For a `TLChatExportChatInvite` with constructor `0xc5cf804b`, decoding the encoding
(leading tag consumed) into an empty instance carrying the same constructor returns no
error and yields a record equal to the original. -/
theorem exportChatInvite_roundtrip (E : Env) (m : TLChatExportChatInvite) (layer : ℤ)
    (hc : toU32 m.Constructor = 0xc5cf804b)
    (hchat : isInt64 m.ChatId) (hadmin : isInt64 m.AdminId)
    (hexpire : ∀ v, m.ExpireDate = some v → isInt32 v)
    (husage : ∀ v, m.UsageLimit = some v → isInt32 v)
    (htitle : ∀ s, m.Title = some s → E.StringInverse s) :
    (TLChatExportChatInvite.Decode E { Constructor := m.Constructor }
        (NewDecodeBuf ((m.Encode E layer).drop 4))).1 = none
      ∧ (TLChatExportChatInvite.Decode E { Constructor := m.Constructor }
        (NewDecodeBuf ((m.Encode E layer).drop 4))).2.1 = m := by
  have h := exportChatInvite_decode_encode_append E m layer [] hc hchat hadmin hexpire
    husage htitle
  rw [List.append_nil] at h
  rw [NewDecodeBuf, h]
  exact ⟨rfl, rfl⟩

/-- The round trip of C4 at a record with two optional fields present and one absent. -/
theorem exportChatInvite_roundtrip_witness :
    (TLChatExportChatInvite.Decode specEnv
        { Constructor := exampleExportChatInvite.Constructor }
        (NewDecodeBuf ((exampleExportChatInvite.Encode specEnv 158).drop 4))).1 = none
      ∧ (TLChatExportChatInvite.Decode specEnv
        { Constructor := exampleExportChatInvite.Constructor }
        (NewDecodeBuf ((exampleExportChatInvite.Encode specEnv 158).drop 4))).2.1
        = exampleExportChatInvite :=
  exportChatInvite_roundtrip specEnv exampleExportChatInvite 158 (by decide) (by decide)
    (by decide)
    (fun v h => by
      obtain rfl : 1700000000 = v := Option.some.inj h
      decide)
    (fun v h => nomatch h)
    (fun s h => by
      obtain rfl : "Team" = s := Option.some.inj h
      exact specEnv_StringInverse "Team" (by decide))

/-- C5, as amended: round trip through a nested, flag-gated polymorphic field whose
record carries its identity.  At a layer that
resolves `chatInviteImported` to `0x721051f6` and `recentChatInviteRequesters` to
`0x1c6e3c54`, decoding the encoding of a `TLChatInviteImported` into an empty instance
returns no error, yields `Requesters` absent exactly when it was absent, and otherwise
yields the same `RequestsPending` and `RecentRequesters` (the nested chat decoder
consuming exactly the chat's bytes, and the identity of a present requesters record
resolving to `recentChatInviteRequesters`). -/
theorem chatInviteImported_roundtrip (E : Env) (m : TLChatInviteImported E) (layer : ℤ)
    (hlayer : toU32 (E.GetClazzID Predicate_chatInviteImported layer) = 0x721051f6)
    (hlayer2 : toU32 (E.GetClazzID Predicate_recentChatInviteRequesters layer) = 0x1c6e3c54)
    (hchat : E.MutableChatFramed m.GetChat layer)
    (hreq : ∀ q, m.GetRequesters = some q →
      resolvePredicateName E q.PredicateName q.Constructor = Predicate_recentChatInviteRequesters
        ∧ isInt32 q.RequestsPending ∧ E.VectorLongInverse q.RecentRequesters) :
    ∃ m' d', ChatInviteImported.Decode E {}
          (NewDecodeBuf (ChatInviteImported.Encode E m.To_ChatInviteImported layer).1)
        = (none, m', d')
      ∧ (m'.Requesters = none ↔ m.GetRequesters = none)
      ∧ ∀ q, m.GetRequesters = some q →
          ∃ q', m'.Requesters = some q' ∧ q'.RequestsPending = q.RequestsPending
            ∧ elems q'.RecentRequesters = elems q.RecentRequesters := by
  obtain ⟨c, h⟩ := chatInviteImported_decode_encode_append E m layer [] hlayer hlayer2 hchat hreq
  rw [List.append_nil] at h
  refine ⟨_, _, h, ?_, ?_⟩
  · cases m.GetRequesters <;> simp
  · intro q hq
    rw [hq]
    exact ⟨_, rfl, rfl, rfl⟩

/-- The amended round trip of C5 at an imported invite that carries a requesters record. -/
theorem chatInviteImported_roundtrip_witness :
    ∃ m' d', ChatInviteImported.Decode specEnv {}
          (NewDecodeBuf
            (ChatInviteImported.Encode specEnv exampleChatInviteImported.To_ChatInviteImported
              158).1)
        = (none, m', d')
      ∧ (m'.Requesters = none ↔ exampleChatInviteImported.GetRequesters = none)
      ∧ ∀ q, exampleChatInviteImported.GetRequesters = some q →
          ∃ q', m'.Requesters = some q' ∧ q'.RequestsPending = q.RequestsPending
            ∧ elems q'.RecentRequesters = elems q.RecentRequesters :=
  chatInviteImported_roundtrip specEnv exampleChatInviteImported 158 (by decide) (by decide)
    (fun r => Nested_framed _ _ 158 r (by decide))
    (fun q h => by
      obtain rfl := Option.some.inj h
      exact ⟨by decide, by decide, specEnv_VectorLongInverse _ (by decide) (by decide)⟩)

/-- C6: wire layout of the chat-invite variant.  At a layer that resolves `chatInvite`
to `0xdb75d1a7`, `TLChatInvite.Encode` yields the four little-endian bytes of the tag,
the flags word (bit 6 for `RequestNeeded`, bit 5 for a present `About`, bit 4 for a
present `Participants`), the title, the about-text only if present, the photo's own
encoding, the four bytes of `ParticipantsCount`, and the participant vector only if
present.  With title "Team", no about-text, no participants and `RequestNeeded` false the
flags word is zero and nothing follows the participant count. -/
theorem chatInvite_wire_layout (E : Env) (m : TLChatInvite E) (layer : ℤ)
    (hlayer : toU32 (E.GetClazzID Predicate_chatInvite layer) = 0xdb75d1a7) :
    m.Encode E layer =
        ([0xa7, 0xd1, 0x75, 0xdb] : List Byte)
          ++ leBytes 4 ((if m.GetRequestNeeded then 1 <<< 6 else 0)
              ||| (if m.GetAbout.isSome then 1 <<< 5 else 0)
              ||| (if m.GetParticipants.isSome then 1 <<< 4 else 0))
          ++ E.putString m.GetTitle
          ++ (match m.GetAbout with | some a => E.putString a | none => [])
          ++ E.encodePhoto m.GetPhoto layer
          ++ leBytes 4 (toU32 m.GetParticipantsCount)
          ++ (match m.GetParticipants with | some l => E.putVectorLong (some l) | none => [])
      ∧ (m.GetTitle = "Team" → m.GetAbout = none → m.GetParticipants = none →
          m.GetRequestNeeded = false →
          m.Encode E layer =
            ([0xa7, 0xd1, 0x75, 0xdb] : List Byte) ++ [0, 0, 0, 0] ++ E.putString "Team"
              ++ E.encodePhoto m.GetPhoto layer ++ leBytes 4 (toU32 m.GetParticipantsCount)) := by
  have htag : leBytes 4 3681931687 = [0xa7, 0xd1, 0x75, 0xdb] := by decide
  have hzero : leBytes 4 0 = [0, 0, 0, 0] := by decide
  obtain ⟨⟨pn, c, chat, rn, title, about, photo, count, parts, ex⟩⟩ := m
  constructor
  · cases rn <;> cases about <;> cases parts <;>
    simp +decide only [TLChatInvite.Encode, hlayer, if_true, if_false, TLChatInvite.getFlags,
      setBit, NewEncodeBuf, EncodeBuf.UInt, EncodeBuf.Int, EncodeBuf.String, EncodeBuf.Bytes,
      EncodeBuf.VectorLong, EncodeBuf.GetBuf, TLChatInvite.GetRequestNeeded,
      TLChatInvite.GetTitle, TLChatInvite.GetAbout, TLChatInvite.GetPhoto,
      TLChatInvite.GetParticipantsCount, TLChatInvite.GetParticipants, List.nil_append,
      List.append_assoc, List.append_nil, Nat.reduceMod, htag, ne_eq, not_true_eq_false,
      not_false_eq_true, reduceCtorEq, Nat.reduceShiftLeft, Nat.reduceOr, Option.isSome_none,
      Option.isSome_some, Bool.false_eq_true]
  · intro h1 h2 h3 h4
    simp only [TLChatInvite.GetRequestNeeded, TLChatInvite.GetTitle, TLChatInvite.GetAbout,
      TLChatInvite.GetParticipants] at h1 h2 h3 h4
    subst h1 h2 h3 h4
    simp +decide only [TLChatInvite.Encode, hlayer, if_true, if_false, TLChatInvite.getFlags,
      setBit, NewEncodeBuf, EncodeBuf.UInt, EncodeBuf.Int, EncodeBuf.String, EncodeBuf.Bytes,
      EncodeBuf.GetBuf, TLChatInvite.GetRequestNeeded,
      TLChatInvite.GetTitle, TLChatInvite.GetAbout, TLChatInvite.GetPhoto,
      TLChatInvite.GetParticipantsCount, TLChatInvite.GetParticipants, List.nil_append,
      List.append_assoc, List.append_nil, Nat.reduceMod, htag, hzero, ne_eq, not_true_eq_false,
      not_false_eq_true, reduceCtorEq, Bool.false_eq_true]

/-- The layout of C6 at the invite titled Team of the first example scenario. -/
theorem chatInvite_wire_layout_witness :
    exampleTeamInvite.Encode specEnv 158 =
      ([0xa7, 0xd1, 0x75, 0xdb] : List Byte) ++ [0, 0, 0, 0] ++ specEnv.putString "Team"
        ++ specEnv.encodePhoto exampleTeamInvite.GetPhoto 158
        ++ leBytes 4 (toU32 exampleTeamInvite.GetParticipantsCount) :=
  (chatInvite_wire_layout specEnv exampleTeamInvite 158 (by decide)).2 rfl rfl rfl rfl

/-- C7: bitmask precision on encode.  For a `TLChatExportChatInvite` whose constructor
is `0xc5cf804b`, bytes 4..7 of the encoding are a flags word with bit 0 set iff
`ExpireDate` is present, bit 1 iff `UsageLimit` is present, bit 4 iff `Title` is present,
bit 2 iff `LegacyRevokePermanent`, bit 3 iff `RequestNeeded`, and every other bit clear;
bytes 8..23 are `ChatId` and `AdminId`, and the bytes after them are the encodings of the
present optional fields in the order `ExpireDate`, `UsageLimit`, `Title`, an absent field
contributing no byte. -/
theorem exportChatInvite_encode_precision (E : Env) (m : TLChatExportChatInvite) (layer : ℤ)
    (hc : toU32 m.Constructor = 0xc5cf804b) :
    (wireFlags (m.Encode E layer)).testBit 0 = m.ExpireDate.isSome
      ∧ (wireFlags (m.Encode E layer)).testBit 1 = m.UsageLimit.isSome
      ∧ (wireFlags (m.Encode E layer)).testBit 4 = m.Title.isSome
      ∧ (wireFlags (m.Encode E layer)).testBit 2 = m.LegacyRevokePermanent
      ∧ (wireFlags (m.Encode E layer)).testBit 3 = m.RequestNeeded
      ∧ (∀ k, 4 < k → (wireFlags (m.Encode E layer)).testBit k = false)
      ∧ ((m.Encode E layer).drop 8).take 16
          = leBytes 8 (toU64 m.ChatId) ++ leBytes 8 (toU64 m.AdminId)
      ∧ (m.Encode E layer).drop 24 =
          (match m.ExpireDate with | some v => leBytes 4 (toU32 v) | none => [])
            ++ (match m.UsageLimit with | some v => leBytes 4 (toU32 v) | none => [])
            ++ (match m.Title with | some s => E.putString s | none => []) := by
  have hlt := m.flags_lt
  obtain ⟨b0, b1, b4, b2, b3⟩ := m.flags_bits
  have hw : wireFlags (m.Encode E layer) = m.flags := by
    rw [TLChatExportChatInvite.Encode_eq E m layer hc]
    exact wireFlags_eq _ _ _ (by omega)
  rw [hw]
  refine ⟨b0, b1, b4, b2, b3, ?_, ?_, ?_⟩
  · intro k hk
    apply Nat.testBit_lt_two_pow
    calc m.flags < 32 := hlt
      _ = 2 ^ 5 := by norm_num
      _ ≤ 2 ^ k := Nat.pow_le_pow_right (by norm_num) (by omega)
  · rw [TLChatExportChatInvite.Encode_eq E m layer hc,
      List.drop_left' (by simp [length_leBytes] : (leBytes 4 0xc5cf804b ++ leBytes 4 m.flags).length = 8),
      List.take_left' (by simp [length_leBytes])]
  · rw [TLChatExportChatInvite.Encode_eq E m layer hc, ← List.append_assoc,
      List.drop_left' (by simp [length_leBytes]), List.append_assoc]

/-- The flags word and field bytes of C7 at a record with flags bits 0, 2 and 4 set. -/
theorem exportChatInvite_encode_precision_witness :
    (wireFlags (exampleExportChatInvite.Encode specEnv 158)).testBit 0 = true
      ∧ (wireFlags (exampleExportChatInvite.Encode specEnv 158)).testBit 1 = false
      ∧ (wireFlags (exampleExportChatInvite.Encode specEnv 158)).testBit 4 = true
      ∧ (wireFlags (exampleExportChatInvite.Encode specEnv 158)).testBit 2 = true
      ∧ (wireFlags (exampleExportChatInvite.Encode specEnv 158)).testBit 3 = false
      ∧ (∀ k, 4 < k → (wireFlags (exampleExportChatInvite.Encode specEnv 158)).testBit k = false)
      ∧ ((exampleExportChatInvite.Encode specEnv 158).drop 8).take 16
          = leBytes 8 (toU64 11) ++ leBytes 8 (toU64 (-12))
      ∧ (exampleExportChatInvite.Encode specEnv 158).drop 24 =
          leBytes 4 (toU32 1700000000) ++ [] ++ specEnv.putString "Team" :=
  exportChatInvite_encode_precision specEnv exampleExportChatInvite 158 (by decide)

/-- C8: bitmask precision on decode.  Decoding any buffer into a fresh
`TLChatHideChatJoinRequests` with constructor `0x3ea52cd1` leaves `Approved` false when
bit 0 of the flags word read from the buffer is clear, `Link` absent when bit 1 is clear
and `UserId` absent when bit 2 is clear (each is set exactly when its bit is set); and the
cursor is advanced past the flags word, `SelfId` and `ChatId`, then by the string read only
if bit 1 is set and by the `int64` read only if bit 2 is set. -/
theorem hideChatJoinRequests_decode_precision (E : Env) (d : DecodeBuf) :
    (TLChatHideChatJoinRequests.Decode E { Constructor := 1051012305 } d).2.1.Approved
        = d.UInt.1.testBit 0
      ∧ (TLChatHideChatJoinRequests.Decode E { Constructor := 1051012305 } d).2.1.Link.isSome
        = d.UInt.1.testBit 1
      ∧ (TLChatHideChatJoinRequests.Decode E { Constructor := 1051012305 } d).2.1.UserId.isSome
        = d.UInt.1.testBit 2
      ∧ (TLChatHideChatJoinRequests.Decode E { Constructor := 1051012305 } d).2.2
        = (if d.UInt.1.testBit 2
            then (if d.UInt.1.testBit 1 then (E.getString d.UInt.2.Long.2.Long.2).2
              else d.UInt.2.Long.2.Long.2).Long.2
            else (if d.UInt.1.testBit 1 then (E.getString d.UInt.2.Long.2.Long.2).2
              else d.UInt.2.Long.2.Long.2)) := by
  have hu : toU32 1051012305 = 1051012305 := by decide
  simp only [TLChatHideChatJoinRequests.Decode, hu, if_true, hasBit_eq_testBit,
    DecodeBuf.String]
  cases d.UInt.1.testBit 0 <;> cases d.UInt.1.testBit 1 <;> cases d.UInt.1.testBit 2 <;> simp

/-- C9: tag rejection by the polymorphic decoder.  On a buffer of at least four bytes
whose leading little-endian tag is none of `0xa40e7d5e`, `0xdb75d1a7`, `0xace3e26e`,
`ChatInviteExt.Decode` returns the unknown-constructor error that carries that tag. -/
theorem chatInviteExt_decode_rejects_unknown_tag (E : Env) (m : ChatInviteExt E)
    (b : List Byte) (hlen : 4 ≤ b.length)
    (h1 : leVal (b.take 4) ≠ 0xa40e7d5e) (h2 : leVal (b.take 4) ≠ 0xdb75d1a7)
    (h3 : leVal (b.take 4) ≠ 0xace3e26e) :
    (ChatInviteExt.Decode E m (NewDecodeBuf b)).1
      = some (Error.invalidConstructorId (leVal (b.take 4))) := by
  match b, hlen with
  | b0 :: b1 :: b2 :: b3 :: t, _ =>
    simp only [List.take_succ_cons, List.take_zero] at h1 h2 h3 ⊢
    simp only [ChatInviteExt.Decode, NewDecodeBuf, DecodeBuf.Int,
      toU32_toI32 _ (leVal_lt_four b0 b1 b2 b3), h1, h2, h3, if_false]

/-- The rejection of C9 at a five-byte buffer that starts with the unknown tag 1. -/
theorem chatInviteExt_decode_rejects_unknown_tag_witness :
    (ChatInviteExt.Decode specEnv exampleChatInvite.Data2 (NewDecodeBuf [1, 0, 0, 0, 9])).1
      = some (Error.invalidConstructorId (leVal (List.take 4 [1, 0, 0, 0, 9]))) :=
  chatInviteExt_decode_rejects_unknown_tag specEnv exampleChatInvite.Data2 [1, 0, 0, 0, 9]
    (by decide) (by decide) (by decide) (by decide)

/-- C10, as amended: a tag rejection changes only `Constructor`.  Whenever the tag that
`ChatInviteExt.Decode` reads is none of its three recognised tags, the call fails with
the unknown-constructor error, every field of the target other than `Constructor`
(`PredicateName` included) keeps its prior value, and `Constructor` holds the rejected
tag. -/
theorem chatInviteExt_decode_reject_frame (E : Env) (m : ChatInviteExt E) (d : DecodeBuf)
    (h1 : toU32 d.Int.1 ≠ 0xa40e7d5e) (h2 : toU32 d.Int.1 ≠ 0xdb75d1a7)
    (h3 : toU32 d.Int.1 ≠ 0xace3e26e) :
    ChatInviteExt.Decode E m d
      = (some (Error.invalidConstructorId (toU32 d.Int.1)),
          { m with Constructor := d.Int.1 }, d.Int.2) := by
  simp only [ChatInviteExt.Decode, h1, h2, h3, if_false]

/-- The frame property of amended C10 at a populated record and the unknown tag 1. -/
theorem chatInviteExt_decode_reject_frame_witness :
    ChatInviteExt.Decode specEnv exampleChatInvite.Data2 (NewDecodeBuf [1, 0, 0, 0, 9])
      = (some (Error.invalidConstructorId (toU32 (NewDecodeBuf [1, 0, 0, 0, 9]).Int.1)),
          { exampleChatInvite.Data2 with Constructor := (NewDecodeBuf [1, 0, 0, 0, 9]).Int.1 },
          (NewDecodeBuf [1, 0, 0, 0, 9]).Int.2) :=
  chatInviteExt_decode_reject_frame specEnv exampleChatInvite.Data2
    (NewDecodeBuf [1, 0, 0, 0, 9]) (by decide) (by decide) (by decide)

/-- C10, counterexample: decoding the four bytes of the unknown tag `1` into an empty
`ChatInviteExt` fails and leaves `Constructor` changed from `0` to `1`. -/
theorem chatInviteExt_decode_reject_mutates :
    (ChatInviteExt.Decode specEnv {} (NewDecodeBuf [1, 0, 0, 0])).1
        = some (Error.invalidConstructorId 1)
      ∧ (ChatInviteExt.Decode specEnv {} (NewDecodeBuf [1, 0, 0, 0])).2.1.Constructor
        ≠ ({} : ChatInviteExt specEnv).Constructor := by
  decide

/-! ## Vectors of records -/

theorem encodeUserChatIdLists_buf (E : Env) (layer : ℤ) (ds : List UserChatIdList)
    (x : EncodeBuf) :
    (encodeUserChatIdLists E layer ds x).buf
      = x.buf ++ (encodeUserChatIdLists E layer ds ⟨[]⟩).buf := by
  induction ds generalizing x with
  | nil => simp [encodeUserChatIdLists]
  | cons v vs ih =>
    simp only [encodeUserChatIdLists, EncodeBuf.Bytes, List.nil_append]
    rw [ih ⟨x.buf ++ (v.Encode E layer).1⟩, ih ⟨(v.Encode E layer).1⟩, List.append_assoc]

theorem decodeUserChatIdLists_encode (E : Env) (layer : ℤ) (ds : List UserChatIdList)
    (r : List Byte)
    (hlayer : toU32 (E.GetClazzID Predicate_userChatIdList layer) = 0x50067224)
    (hds : ∀ x ∈ ds,
      resolvePredicateName E x.PredicateName x.Constructor = Predicate_userChatIdList
        ∧ isInt64 x.UserId ∧ E.VectorLongInverse x.ChatIdList) :
    decodeUserChatIdLists E ds.length
        ⟨(encodeUserChatIdLists E layer ds ⟨[]⟩).buf ++ r, none⟩
      = (ds.map (fun x =>
          ({ PredicateName := Predicate_userChatIdList, Constructor := 1342599716,
             UserId := x.UserId, ChatIdList := some (elems x.ChatIdList) } : UserChatIdList)),
         ⟨r, none⟩) := by
  induction ds with
  | nil => simp [encodeUserChatIdLists, decodeUserChatIdLists]
  | cons v vs ih =>
    obtain ⟨h1, h2, h3⟩ := hds v (List.mem_cons_self v vs)
    have hvs := fun x hx => hds x (List.mem_cons_of_mem v hx)
    simp only [encodeUserChatIdLists, EncodeBuf.Bytes, List.nil_append, List.length_cons,
      decodeUserChatIdLists, List.map_cons]
    rw [encodeUserChatIdLists_buf, List.append_assoc,
      userChatIdList_decode_encode_append E v {} layer _ h1 hlayer h2 h3]
    simp only [ih hvs]

theorem toI32_of_lt (n : Nat) (h : n < 2147483648) : toI32 n = (n : ℤ) := by
  unfold toI32; split <;> omega

theorem toU32_natCast (n : Nat) (h : n < 4294967296) : toU32 (n : ℤ) = n := by
  unfold toU32; omega

/-- Decoding an encoded vector of `userChatIdList` records that is followed by further
bytes. -/
theorem vector_userChatIdList_decode_encode_append (E : Env) (v m0 : Vector_UserChatIdList)
    (layer : ℤ) (r : List Byte)
    (hlayer : toU32 (E.GetClazzID Predicate_userChatIdList layer) = 0x50067224)
    (hlen : (elems v.Datas).length < 2147483648)
    (hds : ∀ x ∈ elems v.Datas,
      resolvePredicateName E x.PredicateName x.Constructor = Predicate_userChatIdList
        ∧ isInt64 x.UserId ∧ E.VectorLongInverse x.ChatIdList) :
    Vector_UserChatIdList.Decode E m0 ⟨Vector_UserChatIdList.Encode E v layer ++ r, none⟩
      = Outcome.returned (none,
          { Datas := some ((elems v.Datas).map (fun x =>
              ({ PredicateName := Predicate_userChatIdList, Constructor := 1342599716,
                 UserId := x.UserId, ChatIdList := some (elems x.ChatIdList) }
                : UserChatIdList))) },
          ⟨r, none⟩) := by
  have hn : (elems v.Datas).length < 4294967296 := by omega
  have h3 : ¬ (((elems v.Datas).length : ℤ) < 0) := by omega
  simp only [Vector_UserChatIdList.Encode, Vector_UserChatIdList.Decode, NewEncodeBuf,
    EncodeBuf.Int, EncodeBuf.GetBuf, List.nil_append]
  rw [encodeUserChatIdLists_buf]
  simp only [List.append_assoc, Int_leBytes_tag _ _ (toU32_lt _), toI32_of_lt _ hlen,
    toU32_natCast _ hn, Int_leBytes_tag _ _ hn, h3, if_false, Int.toNat_ofNat,
    decodeUserChatIdLists_encode E layer _ r hlayer hds, DecodeBuf.GetError]

/-! ## Faults of the cursor on short input -/

theorem Int_sticky (d : DecodeBuf) (h : d.err ≠ none) : d.Int = (0, d) := by
  unfold DecodeBuf.Int
  split
  · rfl
  · rename_i h'; exact absurd h' h

theorem Long_sticky (d : DecodeBuf) (h : d.err ≠ none) : d.Long = (0, d) := by
  unfold DecodeBuf.Long
  split
  · rfl
  · rename_i h'; exact absurd h' h

theorem Int_short (b : List Byte) (h : b.length < 4) :
    (DecodeBuf.Int ⟨b, none⟩).2.err ≠ none := by
  simp only [DecodeBuf.Int]
  split
  · simp only [List.length_cons] at h; omega
  · simp

theorem Long_cases (b : List Byte) :
    (∃ v r, b.length = r.length + 8 ∧ DecodeBuf.Long ⟨b, none⟩ = (v, ⟨r, none⟩))
      ∨ (b.length < 8 ∧ (DecodeBuf.Long ⟨b, none⟩).2.err ≠ none) := by
  match b with
  | b0 :: b1 :: b2 :: b3 :: b4 :: b5 :: b6 :: b7 :: r =>
    exact Or.inl ⟨_, r, by simp, rfl⟩
  | [] => exact Or.inr ⟨by simp, by simp [DecodeBuf.Long]⟩
  | [_] => exact Or.inr ⟨by simp, by simp [DecodeBuf.Long]⟩
  | [_, _] => exact Or.inr ⟨by simp, by simp [DecodeBuf.Long]⟩
  | [_, _, _] => exact Or.inr ⟨by simp, by simp [DecodeBuf.Long]⟩
  | [_, _, _, _] => exact Or.inr ⟨by simp, by simp [DecodeBuf.Long]⟩
  | [_, _, _, _, _] => exact Or.inr ⟨by simp, by simp [DecodeBuf.Long]⟩
  | [_, _, _, _, _, _] => exact Or.inr ⟨by simp, by simp [DecodeBuf.Long]⟩
  | [_, _, _, _, _, _, _] => exact Or.inr ⟨by simp, by simp [DecodeBuf.Long]⟩

theorem getLongs_sticky (n : Nat) (d : DecodeBuf) (h : d.err ≠ none) :
    (getLongs n d).2.err ≠ none := by
  induction n with
  | zero => exact h
  | succ n ih => simp only [getLongs, Long_sticky d h]; exact ih

theorem getLongs_short (n : Nat) (b : List Byte) (h : b.length < 8 * n) :
    (getLongs n ⟨b, none⟩).2.err ≠ none := by
  induction n generalizing b with
  | zero => omega
  | succ n ih =>
    rcases Long_cases b with ⟨v, r, hlen, hv⟩ | ⟨_, herr⟩
    · simp only [getLongs, hv]
      exact ih r (by omega)
    · simp only [getLongs]
      exact getLongs_sticky n _ herr

theorem length_putLongs (l : List ℤ) : (putLongs l).length = 8 * l.length := by
  induction l with
  | nil => rfl
  | cons v vs ih => simp only [putLongs, List.length_append, length_leBytes, ih, List.length_cons]; omega

theorem specGetVectorLong_sticky (d : DecodeBuf) (h : d.err ≠ none) :
    (specGetVectorLong d).2.err ≠ none := by
  simp only [specGetVectorLong, Int_sticky d h]
  cases hd : d.err with
  | none => exact absurd hd h
  | some e => simp [hd]

theorem specGetVectorLong_truncated (v : Option (List ℤ)) (hlen : (elems v).length < 2147483648)
    (j : Nat) (hj : j < (specPutVectorLong v).length) :
    (specGetVectorLong ⟨(specPutVectorLong v).take j, none⟩).2.err ≠ none := by
  have hn : (elems v).length < 4294967296 := by omega
  have hmod : (elems v).length % 4294967296 = (elems v).length := Nat.mod_eq_of_lt hn
  simp only [specPutVectorLong, hmod, List.length_append, length_leBytes, length_putLongs] at hj ⊢
  by_cases h4 : j < 4
  · have hs : (List.take j (leBytes 4 (elems v).length ++ putLongs (elems v))).length < 4 := by
      simp only [List.length_take]; omega
    have := Int_short _ hs
    simp only [specGetVectorLong]
    generalize DecodeBuf.Int ⟨List.take j (leBytes 4 (elems v).length ++ putLongs (elems v)), none⟩
      = q at this ⊢
    obtain ⟨s, d⟩ := q
    simp only at this ⊢
    cases hd : d.err with
    | none => exact absurd hd this
    | some e => simp [hd]
  · have ht : List.take j (leBytes 4 (elems v).length ++ putLongs (elems v))
        = leBytes 4 (elems v).length ++ List.take (j - 4) (putLongs (elems v)) := by
      rw [List.take_append_eq_append_take, length_leBytes,
        List.take_of_length_le (by rw [length_leBytes]; omega)]
    have h3 : ¬ (((elems v).length : ℤ) < 0) := by omega
    have hshort : (List.take (j - 4) (putLongs (elems v))).length < 8 * (elems v).length := by
      simp only [List.length_take, length_putLongs]; omega
    have := getLongs_short _ _ hshort
    simp only [ht, specGetVectorLong, Int_leBytes_tag _ _ hn, toI32_of_lt _ hlen, h3, if_false,
      Int.toNat_ofNat]
    generalize getLongs (elems v).length ⟨List.take (j - 4) (putLongs (elems v)), none⟩ = q
      at this ⊢
    obtain ⟨s, d⟩ := q
    simp only at this ⊢
    cases hd : d.err with
    | none => exact absurd hd this
    | some e => simp [hd]

theorem Long_short (b : List Byte) (h : b.length < 8) :
    (DecodeBuf.Long ⟨b, none⟩).2.err ≠ none := by
  rcases Long_cases b with ⟨v, r, hlen, _⟩ | ⟨_, herr⟩
  · omega
  · exact herr

theorem Long_leBytes_raw (n : Nat) (r : List Byte) :
    DecodeBuf.Long ⟨leBytes 8 n ++ r, none⟩ = (toI64 (leVal (leBytes 8 n)), ⟨r, none⟩) := by
  simp only [leBytes, List.cons_append, List.nil_append, DecodeBuf.Long]

/-- The bytes `UserChatIdList.Encode` produces: nothing, or tag, user id and chat ids. -/
theorem userChatIdList_encode_eq (E : Env) (x : UserChatIdList) (layer : ℤ) :
    (UserChatIdList.Encode E x layer).1 = []
      ∨ (UserChatIdList.Encode E x layer).1
        = leBytes 4 1342599716 ++ (leBytes 8 (toU64 x.UserId) ++ E.putVectorLong x.ChatIdList) := by
  by_cases hid : resolvePredicateName E x.PredicateName x.Constructor = Predicate_userChatIdList
  · by_cases hl : toU32 (E.GetClazzID Predicate_userChatIdList layer) = 0x50067224
    · right
      simp only [UserChatIdList.Encode, hid, if_true, UserChatIdList.To_UserChatIdList,
        TLUserChatIdList.Encode, hl, NewEncodeBuf, EncodeBuf.UInt, EncodeBuf.Long,
        EncodeBuf.VectorLong, EncodeBuf.GetBuf, TLUserChatIdList.GetUserId,
        TLUserChatIdList.GetChatIdList, List.nil_append, List.append_assoc, Nat.reduceMod]
    · left
      simp only [UserChatIdList.Encode, hid, if_true, TLUserChatIdList.Encode, hl, if_false,
        NewEncodeBuf, EncodeBuf.GetBuf]
  · left
    simp only [UserChatIdList.Encode, hid, if_false]

/-- Decoding the first `k` bytes of an encoded `UserChatIdList`, tag included, faults. -/
theorem userChatIdList_decode_take (E : Env) (x m0 : UserChatIdList) (layer : ℤ) (k : Nat)
    (hsticky : ∀ d : DecodeBuf, d.err ≠ none → (E.getVectorLong d).2.err ≠ none)
    (htrunc : ∀ j, j < (E.putVectorLong x.ChatIdList).length →
      (E.getVectorLong ⟨(E.putVectorLong x.ChatIdList).take j, none⟩).2.err ≠ none)
    (hk4 : 4 ≤ k) (hk : k < (UserChatIdList.Encode E x layer).1.length) :
    (UserChatIdList.Decode E m0 ⟨(UserChatIdList.Encode E x layer).1.take k, none⟩).1 ≠ none := by
  rcases userChatIdList_encode_eq E x layer with h | h
  · rw [h] at hk; simp at hk
  · rw [h] at hk ⊢
    simp only [List.length_append, length_leBytes] at hk
    have htag : toI32 1342599716 = 1342599716 := by decide
    have hu : toU32 1342599716 = 1342599716 := by decide
    have ht : List.take k (leBytes 4 1342599716
          ++ (leBytes 8 (toU64 x.UserId) ++ E.putVectorLong x.ChatIdList))
        = leBytes 4 1342599716
          ++ List.take (k - 4) (leBytes 8 (toU64 x.UserId) ++ E.putVectorLong x.ChatIdList) := by
      rw [List.take_append_eq_append_take, length_leBytes,
        List.take_of_length_le (by rw [length_leBytes]; omega)]
    simp only [ht, UserChatIdList.Decode,
      Int_leBytes_tag _ _ (by decide : (1342599716 : Nat) < 4294967296), htag, hu, if_true,
      MakeTLUserChatIdList, TLUserChatIdList.Decode, TLUserChatIdList.SetUserId,
      TLUserChatIdList.SetChatIdList, DecodeBuf.VectorLong, DecodeBuf.GetError]
    by_cases h12 : k < 12
    · apply hsticky
      apply Long_short
      simp only [List.length_take]; omega
    · have ht2 : List.take (k - 4) (leBytes 8 (toU64 x.UserId) ++ E.putVectorLong x.ChatIdList)
          = leBytes 8 (toU64 x.UserId) ++ List.take (k - 12) (E.putVectorLong x.ChatIdList) := by
        rw [List.take_append_eq_append_take, length_leBytes,
          List.take_of_length_le (by rw [length_leBytes]; omega)]
        congr 2
      simp only [ht2, Long_leBytes_raw]
      exact htrunc (k - 12) (by omega)

/-! ## Decoding a recognised tag -/

theorem TLChatInvite_decode_identity (E : Env) (m : TLChatInvite E) (d : DecodeBuf) :
    (m.Decode E d).2.1.Data2.Constructor = m.Data2.Constructor
      ∧ (m.Decode E d).2.1.Data2.PredicateName = m.Data2.PredicateName := by
  simp only [TLChatInvite.Decode, TLChatInvite.SetRequestNeeded, TLChatInvite.SetTitle,
    TLChatInvite.SetAbout, TLChatInvite.SetPhoto, TLChatInvite.SetParticipantsCount,
    TLChatInvite.SetParticipants]
  split_ifs <;> exact ⟨rfl, rfl⟩

/-- The result of `ChatInviteExt.Decode` when the tag read names `chatInviteAlready`. -/
theorem chatInviteExt_decode_already (E : Env) (m : ChatInviteExt E) (d d1 : DecodeBuf) (c : ℤ)
    (hInt : d.Int = (c, d1)) (hc : toU32 c = 0xa40e7d5e) :
    ChatInviteExt.Decode E m d
      = ((E.decodeMutableChat d1).2.err,
          { m with PredicateName := Predicate_chatInviteAlready, Constructor := c,
                   Chat := some (E.decodeMutableChat d1).1 },
          (E.decodeMutableChat d1).2) := by
  simp only [ChatInviteExt.Decode, hInt, hc, if_true, MakeTLChatInviteAlready,
    TLChatInviteAlready.Decode, TLChatInviteAlready.SetChat, DecodeBuf.GetError]

/-- The identity `ChatInviteExt.Decode` leaves when the tag read names `chatInvite`. -/
theorem chatInviteExt_decode_invite (E : Env) (m : ChatInviteExt E) (d d1 : DecodeBuf) (c : ℤ)
    (hInt : d.Int = (c, d1)) (hc : toU32 c = 0xdb75d1a7) :
    (ChatInviteExt.Decode E m d).2.1.Constructor = c
      ∧ (ChatInviteExt.Decode E m d).2.1.PredicateName = Predicate_chatInvite := by
  have n21 : ¬ ((3681931687 : Nat) = 2752413022) := by decide
  have h := TLChatInvite_decode_identity E
    (MakeTLChatInvite (some { m with Constructor := c })) d1
  simp only [ChatInviteExt.Decode, hInt, hc, n21, if_true, if_false]
  exact h

/-- The result of `ChatInviteExt.Decode` when the tag read names `chatInvitePeek`. -/
theorem chatInviteExt_decode_peek (E : Env) (m : ChatInviteExt E) (d d1 : DecodeBuf) (c : ℤ)
    (hInt : d.Int = (c, d1)) (hc : toU32 c = 0xace3e26e) :
    ChatInviteExt.Decode E m d
      = ((E.decodeMutableChat d1).2.Int.2.err,
          { m with PredicateName := Predicate_chatInvitePeek, Constructor := c,
                   Chat := some (E.decodeMutableChat d1).1,
                   Expires := (E.decodeMutableChat d1).2.Int.1 },
          (E.decodeMutableChat d1).2.Int.2) := by
  have n31 : ¬ ((2900615790 : Nat) = 2752413022) := by decide
  have n32 : ¬ ((2900615790 : Nat) = 3681931687) := by decide
  simp only [ChatInviteExt.Decode, hInt, hc, n31, n32, if_true, if_false, MakeTLChatInvitePeek,
    TLChatInvitePeek.Decode, TLChatInvitePeek.SetChat, TLChatInvitePeek.SetExpires,
    DecodeBuf.GetError]

/-! ## The claims on method records, containers and dispatch -/

/-- C11, at the failing input: a zero-valued `TLChatGetMutableChat`, whose constructor
is 0 and not `0x2c2c25d2`, decodes a faultless buffer without any error; the record and
the cursor are left as they were. -/
theorem getMutableChat_decode_accepts_unknown_constructor :
    TLChatGetMutableChat.Decode {} (NewDecodeBuf [1, 2, 3])
      = (none, {}, NewDecodeBuf [1, 2, 3]) := by
  decide

/-- C12, as amended: the error of an element is discarded and the cursor's fault is
returned.  On every cursor whose count is not negative, `Vector_UserChatIdList.Decode`
returns, yields as many elements as the count says, and the error it returns is exactly
the cursor's sticky fault after the last read (so none when no read faulted), whatever
the element decoders returned. -/
theorem vector_decode_returns_cursor_fault (E : Env) (m : Vector_UserChatIdList)
    (d : DecodeBuf) (hcount : 0 ≤ d.Int.2.Int.1) :
    ∃ ds d', Vector_UserChatIdList.Decode E m d
        = Outcome.returned (d'.err, { Datas := some ds }, d')
      ∧ ds.length = d.Int.2.Int.1.toNat := by
  have hlen : ∀ (n : Nat) (c : DecodeBuf), (decodeUserChatIdLists E n c).1.length = n := by
    intro n
    induction n with
    | zero => intro c; rfl
    | succ n ih => intro c; simp only [decodeUserChatIdLists, List.length_cons, ih]
  refine ⟨(decodeUserChatIdLists E d.Int.2.Int.1.toNat d.Int.2.Int.2).1,
    (decodeUserChatIdLists E d.Int.2.Int.1.toNat d.Int.2.Int.2).2, ?_, hlen _ _⟩
  simp only [Vector_UserChatIdList.Decode, not_lt.mpr hcount, if_false, DecodeBuf.GetError]

/-- The fault-only return of amended C12 at a truncated vector of five announced elements. -/
theorem vector_decode_returns_cursor_fault_witness :
    ∃ ds d', Vector_UserChatIdList.Decode specEnv {}
          (NewDecodeBuf (leBytes 4 481674261 ++ [5, 0, 0, 0]))
        = Outcome.returned (d'.err, { Datas := some ds }, d')
      ∧ ds.length = (NewDecodeBuf (leBytes 4 481674261 ++ [5, 0, 0, 0])).Int.2.Int.1.toNat :=
  vector_decode_returns_cursor_fault specEnv {}
    (NewDecodeBuf (leBytes 4 481674261 ++ [5, 0, 0, 0])) (by decide)

/-- C12, counterexample: a vector of one element that begins with the tag `0x1c6e3c54`.
The element decoder reports the unknown constructor, yet `Vector_UserChatIdList.Decode`
returns no error and leaves the eight bytes after the tag unread. -/
theorem vector_decode_ignores_unknown_tag :
    (UserChatIdList.Decode specEnv {}
        (NewDecodeBuf (exampleRequesters.Encode specEnv 158).1)).1
        = some (Error.invalidConstructorId 0x1c6e3c54)
      ∧ Vector_UserChatIdList.Decode specEnv {} (NewDecodeBuf exampleForeignElementVector)
        = Outcome.returned (none, { Datas := some [{ Constructor := 476986452 }] },
            ⟨[3, 0, 0, 0, 0, 0, 0, 0], none⟩) := by
  decide

/-- C13: vector laws for vectors of records.  For a vector of `userChatIdList` records,
at a layer that resolves the predicate to `0x50067224`, decoding the encoding returns no
error and yields a sequence of the same length whose elements have, in order, the same
`UserId` and the same `ChatIdList` elements; for an empty vector the encoding is the
four-byte marker followed by a zero count and the result is a present sequence of
length 0. -/
theorem vector_userChatIdList_roundtrip (E : Env) (v : Vector_UserChatIdList) (layer : ℤ)
    (hlayer : toU32 (E.GetClazzID Predicate_userChatIdList layer) = 0x50067224)
    (hlen : (elems v.Datas).length < 2147483648)
    (hds : ∀ x ∈ elems v.Datas,
      resolvePredicateName E x.PredicateName x.Constructor = Predicate_userChatIdList
        ∧ isInt64 x.UserId ∧ E.VectorLongInverse x.ChatIdList) :
    (∃ ds' d', Vector_UserChatIdList.Decode E {}
          (NewDecodeBuf (Vector_UserChatIdList.Encode E v layer))
        = Outcome.returned (none, { Datas := some ds' }, d')
      ∧ ds'.length = (elems v.Datas).length
      ∧ ds'.map (fun x => (x.UserId, elems x.ChatIdList))
        = (elems v.Datas).map (fun x => (x.UserId, elems x.ChatIdList)))
    ∧ (elems v.Datas = [] →
        Vector_UserChatIdList.Encode E v layer = leBytes 4 (toU32 E.CRC32_vector) ++ [0, 0, 0, 0]
        ∧ Vector_UserChatIdList.Decode E {}
            (NewDecodeBuf (Vector_UserChatIdList.Encode E v layer))
          = Outcome.returned (none, { Datas := some [] }, ⟨[], none⟩)) := by
  have h := vector_userChatIdList_decode_encode_append E v {} layer [] hlayer hlen hds
  rw [List.append_nil] at h
  refine ⟨⟨_, _, h, by simp, ?_⟩, ?_⟩
  · simp only [List.map_map]
    rfl
  · intro he
    rw [NewDecodeBuf, h, he]
    refine ⟨?_, rfl⟩
    have hz : leBytes 4 0 = [0, 0, 0, 0] := by decide
    have h0 : toI32 0 = 0 := by decide
    have hu0 : toU32 0 = 0 := by decide
    simp only [Vector_UserChatIdList.Encode, he, NewEncodeBuf, EncodeBuf.Int, EncodeBuf.GetBuf,
      List.nil_append, List.length_nil, encodeUserChatIdLists, Nat.cast_zero, h0, hu0, hz]

/-- The vector laws of C13 at a vector of two records. -/
theorem vector_userChatIdList_roundtrip_witness :
    (∃ ds' d', Vector_UserChatIdList.Decode specEnv {}
          (NewDecodeBuf (Vector_UserChatIdList.Encode specEnv exampleVectorUserChatIdList 158))
        = Outcome.returned (none, { Datas := some ds' }, d')
      ∧ ds'.length = (elems exampleVectorUserChatIdList.Datas).length
      ∧ ds'.map (fun x => (x.UserId, elems x.ChatIdList))
        = (elems exampleVectorUserChatIdList.Datas).map (fun x => (x.UserId, elems x.ChatIdList)))
    ∧ (elems exampleVectorUserChatIdList.Datas = [] →
        Vector_UserChatIdList.Encode specEnv exampleVectorUserChatIdList 158
          = leBytes 4 (toU32 specEnv.CRC32_vector) ++ [0, 0, 0, 0]
        ∧ Vector_UserChatIdList.Decode specEnv {}
            (NewDecodeBuf (Vector_UserChatIdList.Encode specEnv exampleVectorUserChatIdList 158))
          = Outcome.returned (none, { Datas := some [] }, ⟨[], none⟩)) :=
  vector_userChatIdList_roundtrip specEnv exampleVectorUserChatIdList 158 (by decide)
    (by decide)
    (fun x hx => by
      have hx' : x = exampleUserChatIdList
          ∨ x = { PredicateName := Predicate_userChatIdList, UserId := 9, ChatIdList := none } := by
        simpa [exampleVectorUserChatIdList, elems] using hx
      rcases hx' with rfl | rfl
      · exact ⟨by decide, by decide, specEnv_VectorLongInverse _ (by decide) (by decide)⟩
      · exact ⟨by decide, by decide, specEnv_VectorLongInverse _ (by decide) (by decide)⟩)

/-- C14: round trip for vectors of `int64`, on the cursor modelled from the spec.  For
every slice of `int64` values, `Vector_Long.Decode` over the bytes of `Vector_Long.Encode`
(followed by any further bytes) returns no error, yields exactly the values in order, and
leaves the cursor at the first byte after the encoding; the encoding is the four-byte
count and eight bytes for each value, nothing else. -/
theorem vectorLong_roundtrip (v : Option (List ℤ)) (layer : ℤ) (r : List Byte)
    (hv : ∀ x ∈ elems v, isInt64 x) (hlen : (elems v).length < 2147483648) :
    Vector_Long.Decode specEnv {} ⟨Vector_Long.Encode specEnv { Datas := v } layer ++ r, none⟩
        = (none, { Datas := some (elems v) }, ⟨r, none⟩)
      ∧ (Vector_Long.Encode specEnv { Datas := v } layer).length = 4 + 8 * (elems v).length := by
  have hinv := specEnv_VectorLongInverse v hv hlen
  constructor
  · simp only [Vector_Long.Encode, Vector_Long.Decode, NewEncodeBuf, EncodeBuf.VectorLong,
      EncodeBuf.GetBuf, List.nil_append, DecodeBuf.VectorLong, hinv r, DecodeBuf.GetError]
  · simp only [Vector_Long.Encode, NewEncodeBuf, EncodeBuf.VectorLong, EncodeBuf.GetBuf,
      List.nil_append, specEnv, specPutVectorLong, List.length_append, length_leBytes,
      length_putLongs]

/-- The round trip of C14 at the two values 7 and 42 of the third example scenario. -/
theorem vectorLong_roundtrip_witness :
    Vector_Long.Decode specEnv {}
          ⟨Vector_Long.Encode specEnv { Datas := some [7, 42] } 158 ++ [], none⟩
        = (none, { Datas := some (elems (some [7, 42])) }, ⟨[], none⟩)
      ∧ (Vector_Long.Encode specEnv { Datas := some [7, 42] } 158).length
        = 4 + 8 * (elems (some ([7, 42] : List ℤ))).length :=
  vectorLong_roundtrip (some [7, 42]) 158 [] (by decide) (by decide)

/-- C15, at the failing input: on a buffer that holds the vector marker and the count
-1, `Vector_UserChatIdList.Decode` does not return: `make([]*UserChatIdList, l1)` panics
on the negative length. -/
theorem vector_decode_panics_on_negative_count :
    Vector_UserChatIdList.Decode specEnv {} (NewDecodeBuf exampleNegativeCountVector)
      = Outcome.panicked "runtime error: makeslice: len out of range" := by
  decide

/-- C16: truncation is always detected.  For every `UserChatIdList` value, every layer
and every proper prefix of its encoding that still contains the four-byte tag,
`UserChatIdList.Decode` over the prefix returns an error (the `VectorLong` reader
keeping a fault it finds and faulting on every proper prefix of what the writer wrote). -/
theorem userChatIdList_truncation_detected (E : Env) (x m0 : UserChatIdList) (layer : ℤ)
    (p : List Byte)
    (hsticky : ∀ d : DecodeBuf, d.err ≠ none → (E.getVectorLong d).2.err ≠ none)
    (htrunc : ∀ j, j < (E.putVectorLong x.ChatIdList).length →
      (E.getVectorLong ⟨(E.putVectorLong x.ChatIdList).take j, none⟩).2.err ≠ none)
    (hp : p <+: (UserChatIdList.Encode E x layer).1)
    (hne : p ≠ (UserChatIdList.Encode E x layer).1) (htag : 4 ≤ p.length) :
    (UserChatIdList.Decode E m0 (NewDecodeBuf p)).1 ≠ none := by
  have hpt := List.prefix_iff_eq_take.mp hp
  have hle := hp.length_le
  have hlt : p.length < (UserChatIdList.Encode E x layer).1.length := by
    rcases Nat.lt_or_ge p.length (UserChatIdList.Encode E x layer).1.length with h | h
    · exact h
    · exact absurd (hpt.trans (List.take_of_length_le h)) hne
  rw [NewDecodeBuf, hpt]
  exact userChatIdList_decode_take E x m0 layer p.length hsticky htrunc htag hlt

/-- The detection of C16 at the first 20 of the 32 bytes of an encoded record. -/
theorem userChatIdList_truncation_detected_witness :
    (UserChatIdList.Decode specEnv {}
      (NewDecodeBuf ((UserChatIdList.Encode specEnv exampleUserChatIdList 158).1.take 20))).1
      ≠ none :=
  userChatIdList_truncation_detected specEnv exampleUserChatIdList {} 158
    ((UserChatIdList.Encode specEnv exampleUserChatIdList 158).1.take 20)
    specGetVectorLong_sticky
    (specGetVectorLong_truncated _ (by decide))
    (List.take_prefix _ _) (by decide) (by decide)

/-- C17: unresolvable identity encodes to nothing.  When the predicate name of a
`ChatInviteExt` record is a non-empty name other than the three variant names, or is
empty while `clazzIdNameRegisters2` has no entry for the constructor or an entry other
than the three names, `ChatInviteExt.Encode` returns the empty byte sequence (and leaves
the record as it was). -/
theorem chatInviteExt_encode_unresolved_empty (E : Env) (m : ChatInviteExt E) (layer : ℤ)
    (h : (m.PredicateName ≠ "" ∧ m.PredicateName ≠ Predicate_chatInviteAlready
          ∧ m.PredicateName ≠ Predicate_chatInvite ∧ m.PredicateName ≠ Predicate_chatInvitePeek)
      ∨ (m.PredicateName = "" ∧ E.clazzIdNameRegisters2 m.Constructor = none)
      ∨ (m.PredicateName = "" ∧ ∃ n, E.clazzIdNameRegisters2 m.Constructor = some n
          ∧ n ≠ Predicate_chatInviteAlready ∧ n ≠ Predicate_chatInvite
          ∧ n ≠ Predicate_chatInvitePeek)) :
    ChatInviteExt.Encode E m layer = ([], m) := by
  have e1 : ¬ ("" = Predicate_chatInviteAlready) := by decide
  have e2 : ¬ ("" = Predicate_chatInvite) := by decide
  have e3 : ¬ ("" = Predicate_chatInvitePeek) := by decide
  rcases h with ⟨h0, h1, h2, h3⟩ | ⟨h0, hn⟩ | ⟨h0, n, hn, h1, h2, h3⟩
  · simp only [ChatInviteExt.Encode, resolvePredicateName, h0, h1, h2, h3, if_false]
  · simp only [ChatInviteExt.Encode, resolvePredicateName, h0, hn, if_true, e1, e2, e3, if_false]
  · simp only [ChatInviteExt.Encode, resolvePredicateName, h0, hn, if_true, h1, h2, h3, if_false]

/-- The empty encoding of C17 at a record whose tag names a record of another supertype. -/
theorem chatInviteExt_encode_unresolved_empty_witness :
    ChatInviteExt.Encode specEnv exampleUnresolvedInvite 158 = ([], exampleUnresolvedInvite) :=
  chatInviteExt_encode_unresolved_empty specEnv exampleUnresolvedInvite 158
    (Or.inr (Or.inr ⟨rfl, Predicate_userChatIdList, by decide, by decide, by decide, by decide⟩))

/-- C18: an unsupported layer never emits a wrong tag.  At a layer for which
`GetClazzID` does not give the variant's one tag, the `Encode` of each of the three
variant views returns the empty byte sequence. -/
theorem encode_unsupported_layer_empty (E : Env) (layer : ℤ) (m : TLChatInvite E)
    (a : TLChatInviteAlready E) (p : TLChatInvitePeek E) :
    (toU32 (E.GetClazzID Predicate_chatInvite layer) ≠ 0xdb75d1a7 → m.Encode E layer = [])
      ∧ (toU32 (E.GetClazzID Predicate_chatInviteAlready layer) ≠ 0xa40e7d5e →
          a.Encode E layer = [])
      ∧ (toU32 (E.GetClazzID Predicate_chatInvitePeek layer) ≠ 0xace3e26e →
          p.Encode E layer = []) := by
  refine ⟨fun h => ?_, fun h => ?_, fun h => ?_⟩
  · simp only [TLChatInvite.Encode, h, if_false, NewEncodeBuf, EncodeBuf.GetBuf]
  · simp only [TLChatInviteAlready.Encode, h, if_false, NewEncodeBuf, EncodeBuf.GetBuf]
  · simp only [TLChatInvitePeek.Encode, h, if_false, NewEncodeBuf, EncodeBuf.GetBuf]

/-- The empty encodings of C18 in an environment whose schema table knows no predicate. -/
theorem encode_unsupported_layer_empty_witness :
    (MakeTLChatInvite none : TLChatInvite bareEnv).Encode bareEnv 158 = []
      ∧ (MakeTLChatInviteAlready none : TLChatInviteAlready bareEnv).Encode bareEnv 158 = []
      ∧ (MakeTLChatInvitePeek none : TLChatInvitePeek bareEnv).Encode bareEnv 158 = [] :=
  ⟨(encode_unsupported_layer_empty bareEnv 158 (MakeTLChatInvite none)
      (MakeTLChatInviteAlready none) (MakeTLChatInvitePeek none)).1 (by decide),
   (encode_unsupported_layer_empty bareEnv 158 (MakeTLChatInvite none)
      (MakeTLChatInviteAlready none) (MakeTLChatInvitePeek none)).2.1 (by decide),
   (encode_unsupported_layer_empty bareEnv 158 (MakeTLChatInvite none)
      (MakeTLChatInviteAlready none) (MakeTLChatInvitePeek none)).2.2 (by decide)⟩

/-- C19: polymorphic encode is delegation, the predicate name taking precedence over
the tag.  The bytes of `ChatInviteExt.Encode` are those of the specification
`ChatInviteExt.EncodeSpec`: the encoding of the variant view named by `PredicateName`
when that is non-empty, whatever `Constructor` holds, and otherwise of the view named by
the tag-to-name lookup of `Constructor`. -/
theorem chatInviteExt_encode_refines_spec (E : Env) (m : ChatInviteExt E) (layer : ℤ) :
    (ChatInviteExt.Encode E m layer).1 = ChatInviteExt.EncodeSpec E m layer := by
  have e1 : ¬ ("" = Predicate_chatInviteAlready) := by decide
  have e2 : ¬ ("" = Predicate_chatInvite) := by decide
  have e3 : ¬ ("" = Predicate_chatInvitePeek) := by decide
  have key : ∀ name : String,
      (if name = Predicate_chatInviteAlready then
          (m.To_ChatInviteAlready.Encode E layer, m.To_ChatInviteAlready.Data2)
        else if name = Predicate_chatInvite then
          (m.To_ChatInvite.Encode E layer, m.To_ChatInvite.Data2)
        else if name = Predicate_chatInvitePeek then
          (m.To_ChatInvitePeek.Encode E layer, m.To_ChatInvitePeek.Data2)
        else ([], m)).1 = encodeNamedView E name m layer := by
    intro name
    unfold encodeNamedView
    split
    · rfl
    · split
      · rfl
      · split
        · rfl
        · rfl
  unfold ChatInviteExt.Encode ChatInviteExt.EncodeSpec
  simp only [key]
  by_cases h0 : m.PredicateName = ""
  · simp only [resolvePredicateName, h0, if_true, ne_eq, not_true_eq_false, if_false]
    cases E.clazzIdNameRegisters2 m.Constructor with
    | none => simp only [encodeNamedView, e1, e2, e3, if_false]
    | some n => rfl
  · simp only [resolvePredicateName, h0, if_false, ne_eq, not_false_eq_true, if_true]

/-- C20: decode resolves identity from the tag.  On a buffer that begins with one of
the tags `0xa40e7d5e`, `0xdb75d1a7`, `0xace3e26e`, `ChatInviteExt.Decode` leaves
`Constructor` equal to the `int32` conversion of that tag and
`PredicateName` equal to the variant the tag names, whatever the record held before; for
`0xa40e7d5e` the `Chat` accessor of the already-a-member view returns the chat decoded
from the bytes after the tag. -/
theorem chatInviteExt_decode_resolves_identity (E : Env) (m : ChatInviteExt E)
    (rest : List Byte) :
    ((ChatInviteExt.Decode E m (NewDecodeBuf (leBytes 4 0xa40e7d5e ++ rest))).2.1.Constructor
          = toI32 0xa40e7d5e
        ∧ (ChatInviteExt.Decode E m (NewDecodeBuf (leBytes 4 0xa40e7d5e ++ rest))).2.1.PredicateName
          = Predicate_chatInviteAlready
        ∧ (ChatInviteExt.Decode E m
              (NewDecodeBuf (leBytes 4 0xa40e7d5e ++ rest))).2.1.To_ChatInviteAlready.GetChat
          = some (E.decodeMutableChat ⟨rest, none⟩).1)
      ∧ ((ChatInviteExt.Decode E m (NewDecodeBuf (leBytes 4 0xdb75d1a7 ++ rest))).2.1.Constructor
          = toI32 0xdb75d1a7
        ∧ (ChatInviteExt.Decode E m (NewDecodeBuf (leBytes 4 0xdb75d1a7 ++ rest))).2.1.PredicateName
          = Predicate_chatInvite)
      ∧ ((ChatInviteExt.Decode E m (NewDecodeBuf (leBytes 4 0xace3e26e ++ rest))).2.1.Constructor
          = toI32 0xace3e26e
        ∧ (ChatInviteExt.Decode E m (NewDecodeBuf (leBytes 4 0xace3e26e ++ rest))).2.1.PredicateName
          = Predicate_chatInvitePeek) := by
  have i1 := Int_leBytes_tag 0xa40e7d5e rest (by decide)
  have i2 := Int_leBytes_tag 0xdb75d1a7 rest (by decide)
  have i3 := Int_leBytes_tag 0xace3e26e rest (by decide)
  have hA := chatInviteExt_decode_already E m _ _ _ i1 (toU32_toI32 _ (by decide))
  have hB := chatInviteExt_decode_invite E m _ _ _ i2 (toU32_toI32 _ (by decide))
  have hC := chatInviteExt_decode_peek E m _ _ _ i3 (toU32_toI32 _ (by decide))
  rw [NewDecodeBuf, NewDecodeBuf, NewDecodeBuf, hA, hC]
  exact ⟨⟨rfl, rfl, rfl⟩, hB, ⟨rfl, rfl⟩⟩

/-! ## The registry -/

theorem lookup_some_mem {α β : Type} [BEq α] [LawfulBEq α] (l : List (α × β)) (a : α) (b : β)
    (h : l.lookup a = some b) : (a, b) ∈ l := by
  induction l with
  | nil => simp at h
  | cons p l ih =>
    obtain ⟨k, v⟩ := p
    rw [List.lookup_cons] at h
    split at h
    · rename_i heq
      have hk : a = k := eq_of_beq heq
      have hv : v = b := Option.some.inj h
      rw [hk, hv]
      exact List.mem_cons_self _ _
    · exact List.mem_cons_of_mem _ (ih h)

theorem lookup_none_iff {α β : Type} [BEq α] [LawfulBEq α] (l : List (α × β)) (a : α) :
    l.lookup a = none ↔ a ∉ l.map Prod.fst := by
  induction l with
  | nil => simp
  | cons p l ih =>
    obtain ⟨k, v⟩ := p
    rw [List.lookup_cons, List.map_cons, List.mem_cons, not_or]
    by_cases h : a = k
    · subst h
      simp
    · have hb : (a == k) = false := by simpa using h
      rw [hb]
      simp only [ih]
      exact ⟨fun h2 => ⟨h, h2⟩, fun h2 => h2.2⟩

/-- An object the registry returns comes from one of the entries of the map literal. -/
theorem newTLObject_mem (E : Env) (t : ℤ) (o : TLObject E)
    (h : NewTLObjectByClassID E t = some o) :
    ∃ f, (t, f) ∈ clazzIdRegisters2 E ∧ f () = o := by
  unfold NewTLObjectByClassID at h
  cases hl : (clazzIdRegisters2 E).lookup t with
  | none => rw [hl] at h; simp at h
  | some f =>
    rw [hl] at h
    exact ⟨f, lookup_some_mem _ _ _ hl, Option.some.inj h⟩

/-- The keys of the map literal. -/
theorem registry_keys (E : Env) :
    (clazzIdRegisters2 E).map Prod.fst
      = [-1542554274, -613035609, -1394351506, 1913672182, 476986452, 1342599716, 741090770,
      -415173319, 1236736584, -465608273, 1829891102, 187109333, -1782210905, 1551072376,
      1170384488, 419816940, 1513399943, 2086511757, -1570363509, -711644423, 138390239,
      848700073, 792111948, -210408312, -976256949, -756399662, -571854256, -1265690378,
      1938289292, 1491493076, -1740221057, 1445103800, -804101527, -1348907914, -992966286,
      1023107972, 568333563, -19132264, 1051012305, -589742657] := rfl

/-- The keys of the map literal, read as unsigned values, are the tags of the comments. -/
theorem registry_keys_unsigned :
    ([-1542554274, -613035609, -1394351506, 1913672182, 476986452, 1342599716, 741090770,
      -415173319, 1236736584, -465608273, 1829891102, 187109333, -1782210905, 1551072376,
      1170384488, 419816940, 1513399943, 2086511757, -1570363509, -711644423, 138390239,
      848700073, 792111948, -210408312, -976256949, -756399662, -571854256, -1265690378,
      1938289292, 1491493076, -1740221057, 1445103800, -804101527, -1348907914, -992966286,
      1023107972, 568333563, -19132264, 1051012305, -589742657] : List ℤ).map toU32
      = registeredTags := by
  decide

theorem registry_keys_int32 :
    ∀ k ∈ ([-1542554274, -613035609, -1394351506, 1913672182, 476986452, 1342599716, 741090770,
      -415173319, 1236736584, -465608273, 1829891102, 187109333, -1782210905, 1551072376,
      1170384488, 419816940, 1513399943, 2086511757, -1570363509, -711644423, 138390239,
      848700073, 792111948, -210408312, -976256949, -756399662, -571854256, -1265690378,
      1938289292, 1491493076, -1740221057, 1445103800, -804101527, -1348907914, -992966286,
      1023107972, 568333563, -19132264, 1051012305, -589742657] : List ℤ),
      isInt32 k := by
  decide

theorem toU32_injOn (a b : ℤ) (ha : isInt32 a) (hb : isInt32 b) (h : toU32 a = toU32 b) :
    a = b := by
  rw [← toI32_toU32 a ha, ← toI32_toU32 b hb, h]

/-- What every entry of the map literal creates: an object that carries the key, a key
that is an `int32` and reads unsigned as the tag the encoder of the object recognises, all
data fields at their zero value, and for a variant view the name of the variant. -/
theorem registry_instance_facts (E : Env) (t : ℤ) (o : TLObject E)
    (h : NewTLObjectByClassID E t = some o) :
    o.Constructor = t ∧ isInt32 t ∧ toU32 t = o.recognisedTag
      ∧ o.clearFields = o
      ∧ (toU32 t = 0xa40e7d5e → o.PredicateName = some Predicate_chatInviteAlready)
      ∧ (toU32 t = 0xdb75d1a7 → o.PredicateName = some Predicate_chatInvite)
      ∧ (toU32 t = 0xace3e26e → o.PredicateName = some Predicate_chatInvitePeek)
      ∧ (toU32 t = 0x721051f6 → o.PredicateName = some Predicate_chatInviteImported)
      ∧ (toU32 t = 0x1c6e3c54 → o.PredicateName = some Predicate_recentChatInviteRequesters)
      ∧ (toU32 t = 0x50067224 → o.PredicateName = some Predicate_userChatIdList) := by
  obtain ⟨f, hmem, rfl⟩ := newTLObject_mem E t o h
  simp only [clazzIdRegisters2, List.mem_cons, Prod.mk.injEq, List.not_mem_nil, or_false] at hmem
  rcases hmem with
    ⟨rfl, rfl⟩ | ⟨rfl, rfl⟩ | ⟨rfl, rfl⟩ | ⟨rfl, rfl⟩ | ⟨rfl, rfl⟩ | ⟨rfl, rfl⟩ | ⟨rfl, rfl⟩ |
    ⟨rfl, rfl⟩ | ⟨rfl, rfl⟩ | ⟨rfl, rfl⟩ | ⟨rfl, rfl⟩ | ⟨rfl, rfl⟩ | ⟨rfl, rfl⟩ | ⟨rfl, rfl⟩ |
    ⟨rfl, rfl⟩ | ⟨rfl, rfl⟩ | ⟨rfl, rfl⟩ | ⟨rfl, rfl⟩ | ⟨rfl, rfl⟩ | ⟨rfl, rfl⟩ | ⟨rfl, rfl⟩ |
    ⟨rfl, rfl⟩ | ⟨rfl, rfl⟩ | ⟨rfl, rfl⟩ | ⟨rfl, rfl⟩ | ⟨rfl, rfl⟩ | ⟨rfl, rfl⟩ | ⟨rfl, rfl⟩ |
    ⟨rfl, rfl⟩ | ⟨rfl, rfl⟩ | ⟨rfl, rfl⟩ | ⟨rfl, rfl⟩ | ⟨rfl, rfl⟩ | ⟨rfl, rfl⟩ | ⟨rfl, rfl⟩ |
    ⟨rfl, rfl⟩ | ⟨rfl, rfl⟩ | ⟨rfl, rfl⟩ | ⟨rfl, rfl⟩ | ⟨rfl, rfl⟩
  all_goals
    refine ⟨rfl, by decide, ?_, rfl, ?_, ?_, ?_, ?_, ?_, ?_⟩
    · simp only [TLObject.recognisedTag]
      decide
    all_goals first
      | (intro _; rfl)
      | (intro hx; exact absurd hx (by decide))

theorem clearFields_keeps (E : Env) (o : TLObject E) :
    o.clearFields.Constructor = o.Constructor ∧ o.clearFields.recognisedTag = o.recognisedTag
      ∧ o.clearFields.isMethod = o.isMethod := by
  cases o <;> exact ⟨rfl, rfl, rfl⟩

theorem take_four_leBytes (n : Nat) (s : List Byte) : (leBytes 4 n ++ s).take 4 = leBytes 4 n :=
  List.take_left' (length_leBytes 4 n)

theorem leBytes_four_append_ne_nil (n : Nat) (s : List Byte) : leBytes 4 n ++ s ≠ [] := by
  simp [leBytes]

/-- The encoding of a method record whose constructor is the tag its encoder recognises
begins with that tag. -/
theorem method_encode_recognised (E : Env) (o : TLObject E) (layer : ℤ)
    (hm : o.isMethod = true) (hc : toU32 o.Constructor = o.recognisedTag) :
    o.Encode E layer ≠ [] ∧ (o.Encode E layer).take 4 = leBytes 4 o.recognisedTag := by
  cases o <;> first
    | (simp [TLObject.isMethod] at hm; done)
    | (simp only [TLObject.Constructor, TLObject.recognisedTag] at hc
       simp only [TLObject.Encode, TLObject.recognisedTag, hc, if_true,
         TLChatGetMutableChat.Encode, TLChatGetChatListByIdList.Encode,
         TLChatGetChatBySelfId.Encode, TLChatCreateChat2.Encode, TLChatDeleteChat.Encode,
         TLChatDeleteChatUser.Encode, TLChatEditChatTitle.Encode, TLChatEditChatAbout.Encode,
         TLChatEditChatPhoto.Encode, TLChatEditChatAdmin.Encode,
         TLChatEditChatDefaultBannedRights.Encode, TLChatAddChatUser.Encode,
         TLChatGetMutableChatByLink.Encode, TLChatToggleNoForwards.Encode,
         TLChatMigratedToChannel.Encode, TLChatGetChatParticipantIdList.Encode,
         TLChatGetUsersChatIdList.Encode, TLChatGetMyChatList.Encode,
         TLChatExportChatInvite.Encode, TLChatGetAdminsWithInvites.Encode,
         TLChatGetExportedChatInvite.Encode, TLChatGetExportedChatInvites.Encode,
         TLChatCheckChatInvite.Encode, TLChatImportChatInvite.Encode,
         TLChatGetChatInviteImporters.Encode, TLChatDeleteExportedChatInvite.Encode,
         TLChatDeleteRevokedExportedChatInvites.Encode, TLChatEditExportedChatInvite.Encode,
         TLChatSetChatAvailableReactions.Encode, TLChatSetHistoryTTL.Encode, TLChatSearch.Encode,
         TLChatGetRecentChatInviteRequesters.Encode, TLChatHideChatJoinRequests.Encode,
         TLChatImportChatInvite2.Encode,
         NewEncodeBuf, EncodeBuf.UInt, EncodeBuf.Int, EncodeBuf.Long, EncodeBuf.String,
         EncodeBuf.VectorLong, EncodeBuf.VectorString, EncodeBuf.Bytes, EncodeBuf.GetBuf,
         List.nil_append, Nat.reduceMod]
       repeat' split
       all_goals
         try simp only [List.append_assoc]
         exact ⟨leBytes_four_append_ne_nil _ _, take_four_leBytes _ _⟩)

/-! ## View operations -/

/-- A view operation writes the name of its variant and nothing else. -/
theorem viewOp_apply_eq (E : Env) (op : ViewOp) (m : ChatInviteExt E) :
    op.apply m = { m with PredicateName := op.predicate } := by
  cases op <;> rfl

/-- A sequence of view operations changes no field other than `PredicateName`. -/
theorem applyViewOps_frame (E : Env) (ops : List ViewOp) (m : ChatInviteExt E) :
    applyViewOps ops m = { m with PredicateName := (applyViewOps ops m).PredicateName } := by
  induction ops generalizing m with
  | nil => rfl
  | cons op ops ih =>
    have h := ih (op.apply m)
    simp only [applyViewOps, List.foldl_cons] at h ⊢
    rw [h, viewOp_apply_eq]

/-- After a non-empty sequence of view operations the name is that of the last one. -/
theorem applyViewOps_name (E : Env) (ops : List ViewOp) (op : ViewOp) (m : ChatInviteExt E) :
    (applyViewOps (ops ++ [op]) m).PredicateName = op.predicate := by
  simp only [applyViewOps, List.foldl_append, List.foldl_cons, List.foldl_nil, viewOp_apply_eq]

theorem Int_isInt32 (d : DecodeBuf) : isInt32 d.Int.1 := by
  have h0 : isInt32 0 := by decide
  unfold DecodeBuf.Int
  split
  · exact h0
  · split
    · simp only [isInt32, toI32]
      split <;> omega
    · exact h0

theorem variantOfTag_already (E : Env) :
    variantOfTag E (-1542554274) = some Predicate_chatInviteAlready := rfl

theorem variantOfTag_invite (E : Env) :
    variantOfTag E (-613035609) = some Predicate_chatInvite := rfl

theorem variantOfTag_peek (E : Env) :
    variantOfTag E (-1394351506) = some Predicate_chatInvitePeek := rfl

/-- The records the registry creates for the three tags of `ChatInviteExt`. -/
theorem registryChatInviteExt_cases (E : Env) (t : ℤ) (s : ChatInviteExt E)
    (h : registryChatInviteExt E t = some s) :
    (t = -1542554274 ∧ s = { PredicateName := Predicate_chatInviteAlready, Constructor := t })
      ∨ (t = -613035609 ∧ s = { PredicateName := Predicate_chatInvite, Constructor := t })
      ∨ (t = -1394351506
          ∧ s = { PredicateName := Predicate_chatInvitePeek, Constructor := t }) := by
  unfold registryChatInviteExt at h
  cases ho : NewTLObjectByClassID E t with
  | none => rw [ho] at h; simp at h
  | some o =>
    rw [ho] at h
    obtain ⟨hc, hi, ht, hz, p1, p2, p3, -, -, -⟩ := registry_instance_facts E t o ho
    unfold isInt32 at hi
    cases o with
    | TLChatInviteAlready m =>
      obtain ⟨⟨n, c, _, _, _, _, _, _, _, _⟩⟩ := m
      simp only [TLObject.recognisedTag] at ht
      have hn := p1 ht
      simp only [TLObject.PredicateName, Option.some.injEq] at hn
      simp only [TLObject.Constructor] at hc
      simp only [TLObject.clearFields, TLObject.TLChatInviteAlready.injEq,
        TLChatInviteAlready.mk.injEq, ChatInviteExt.mk.injEq] at hz
      obtain ⟨-, -, z1, z2, z3, z4, z5, z6, z7, z8⟩ := hz
      subst hn hc z1 z2 z3 z4 z5 z6 z7 z8
      simp only [Option.some.injEq] at h
      subst h
      refine Or.inl ⟨?_, rfl⟩
      unfold toU32 at ht; omega
    | TLChatInvite m =>
      obtain ⟨⟨n, c, _, _, _, _, _, _, _, _⟩⟩ := m
      simp only [TLObject.recognisedTag] at ht
      have hn := p2 ht
      simp only [TLObject.PredicateName, Option.some.injEq] at hn
      simp only [TLObject.Constructor] at hc
      simp only [TLObject.clearFields, TLObject.TLChatInvite.injEq,
        TLChatInvite.mk.injEq, ChatInviteExt.mk.injEq] at hz
      obtain ⟨-, -, z1, z2, z3, z4, z5, z6, z7, z8⟩ := hz
      subst hn hc z1 z2 z3 z4 z5 z6 z7 z8
      simp only [Option.some.injEq] at h
      subst h
      refine Or.inr (Or.inl ⟨?_, rfl⟩)
      unfold toU32 at ht; omega
    | TLChatInvitePeek m =>
      obtain ⟨⟨n, c, _, _, _, _, _, _, _, _⟩⟩ := m
      simp only [TLObject.recognisedTag] at ht
      have hn := p3 ht
      simp only [TLObject.PredicateName, Option.some.injEq] at hn
      simp only [TLObject.Constructor] at hc
      simp only [TLObject.clearFields, TLObject.TLChatInvitePeek.injEq,
        TLChatInvitePeek.mk.injEq, ChatInviteExt.mk.injEq] at hz
      obtain ⟨-, -, z1, z2, z3, z4, z5, z6, z7, z8⟩ := hz
      subst hn hc z1 z2 z3 z4 z5 z6 z7 z8
      simp only [Option.some.injEq] at h
      subst h
      refine Or.inr (Or.inr ⟨?_, rfl⟩)
      unfold toU32 at ht; omega
    | _ => simp at h

/-- A record that `ChatInviteExt.Decode` accepted is consistent, and its tag is set. -/
theorem decoded_consistent (E : Env) (m0 : ChatInviteExt E) (d : DecodeBuf)
    (h : (ChatInviteExt.Decode E m0 d).1 = none) :
    (ChatInviteExt.Decode E m0 d).2.1.Consistent
      ∧ (ChatInviteExt.Decode E m0 d).2.1.Constructor ≠ 0 := by
  have hi := Int_isInt32 d
  by_cases h1 : toU32 d.Int.1 = 0xa40e7d5e
  · have hc : d.Int.1 = -1542554274 := by
      unfold isInt32 at hi; unfold toU32 at h1; omega
    rw [chatInviteExt_decode_already E m0 d d.Int.2 d.Int.1 rfl h1]
    refine ⟨fun _ _ => ?_, ?_⟩
    · show variantOfTag E d.Int.1 = some Predicate_chatInviteAlready
      rw [hc]; exact variantOfTag_already E
    · show d.Int.1 ≠ 0
      omega
  · by_cases h2 : toU32 d.Int.1 = 0xdb75d1a7
    · have hc : d.Int.1 = -613035609 := by
        unfold isInt32 at hi; unfold toU32 at h2; omega
      obtain ⟨e1, e2⟩ := chatInviteExt_decode_invite E m0 d d.Int.2 d.Int.1 rfl h2
      refine ⟨fun _ _ => ?_, ?_⟩
      · rw [e1, e2, hc]; exact variantOfTag_invite E
      · rw [e1]; omega
    · by_cases h3 : toU32 d.Int.1 = 0xace3e26e
      · have hc : d.Int.1 = -1394351506 := by
          unfold isInt32 at hi; unfold toU32 at h3; omega
        rw [chatInviteExt_decode_peek E m0 d d.Int.2 d.Int.1 rfl h3]
        refine ⟨fun _ _ => ?_, ?_⟩
        · show variantOfTag E d.Int.1 = some Predicate_chatInvitePeek
          rw [hc]; exact variantOfTag_peek E
        · show d.Int.1 ≠ 0
          omega
      · simp only [ChatInviteExt.Decode, h1, h2, h3, if_false] at h
        exact absurd h (by simp)

/-! ## Flags of the listing method, and decoding up to a fault -/

theorem wireFlags_append (tag flags : Nat) (t : List Byte) (h : flags < 4294967296) :
    wireFlags (leBytes 4 tag ++ (leBytes 4 flags ++ t)) = flags := by
  rw [← List.append_assoc]
  exact wireFlags_eq tag flags t h

theorem getExportedChatInvites_flags_lt (m : TLChatGetExportedChatInvites) : m.flags < 16 := by
  obtain ⟨c, chatId, adminId, revoked, date, link, limit⟩ := m
  cases revoked <;> cases date <;> cases link <;>
    simp +decide [TLChatGetExportedChatInvites.flags, setBit]

theorem getExportedChatInvites_flags_bits (m : TLChatGetExportedChatInvites) :
    m.flags.testBit 2 = (m.OffsetDate.isSome || m.OffsetLink.isSome)
      ∧ m.flags.testBit 3 = m.Revoked := by
  obtain ⟨c, chatId, adminId, revoked, date, link, limit⟩ := m
  cases revoked <;> cases date <;> cases link <;>
    simp +decide [TLChatGetExportedChatInvites.flags, setBit]

/-- The flags word on the wire is the flags word `Encode` computes. -/
theorem getExportedChatInvites_wireFlags (E : Env) (m : TLChatGetExportedChatInvites)
    (layer : ℤ) (hc : toU32 m.Constructor = 0xb48f18f6) :
    wireFlags (m.Encode E layer) = m.flags := by
  have hlt : m.flags < 4294967296 := by have := getExportedChatInvites_flags_lt m; omega
  have hf : m.flags % 4294967296 = m.flags := Nat.mod_eq_of_lt hlt
  simp only [TLChatGetExportedChatInvites.Encode, hc, if_true, NewEncodeBuf, EncodeBuf.UInt,
    EncodeBuf.Long, EncodeBuf.GetBuf, List.nil_append, Nat.reduceMod, hf]
  cases m.OffsetDate <;> cases m.OffsetLink <;>
    simp only [EncodeBuf.Int, EncodeBuf.String, List.append_assoc, wireFlags_append _ _ _ hlt]

/-- The result of `UserChatIdList.Decode` when the tag read is `0x50067224`: the fields
are written as they are read, whatever the cursor reports at the end. -/
theorem userChatIdList_decode_tag (E : Env) (m0 : UserChatIdList) (d d1 d2 : DecodeBuf)
    (c u : ℤ) (hInt : d.Int = (c, d1)) (hc : toU32 c = 0x50067224) (hLong : d1.Long = (u, d2)) :
    UserChatIdList.Decode E m0 d
      = ((E.getVectorLong d2).2.err,
          { PredicateName := Predicate_userChatIdList, Constructor := c, UserId := u,
            ChatIdList := (E.getVectorLong d2).1 },
          (E.getVectorLong d2).2) := by
  simp only [UserChatIdList.Decode, hInt, hc, if_true, MakeTLUserChatIdList,
    TLUserChatIdList.Decode, hLong, TLUserChatIdList.SetUserId, TLUserChatIdList.SetChatIdList,
    DecodeBuf.VectorLong, DecodeBuf.GetError]

/-! ## The claims on views, the registry and flag-gated fields -/

/-- C21, as amended: the view operations rename and keep the tag.  A registry-created or
freshly decoded `ChatInviteExt` record is consistent (tag and predicate name identify the
same variant); every view operation leaves `Constructor` as it was and overwrites
`PredicateName` with the name of its own variant, so after a non-empty sequence of view
operations the name is that of the last operation, and the record is consistent exactly
when that operation belongs to the variant the tag identifies. -/
theorem view_ops_rename_and_keep_tag (E : Env) (s : ChatInviteExt E) (ops : List ViewOp)
    (op : ViewOp)
    (hs : (∃ t, registryChatInviteExt E t = some s)
      ∨ (∃ m0 d, (ChatInviteExt.Decode E m0 d).1 = none
          ∧ (ChatInviteExt.Decode E m0 d).2.1 = s)) :
    s.Consistent
      ∧ (applyViewOps (ops ++ [op]) s).Constructor = s.Constructor
      ∧ (applyViewOps (ops ++ [op]) s).PredicateName = op.predicate
      ∧ ((applyViewOps (ops ++ [op]) s).Consistent
          ↔ variantOfTag E s.Constructor = some op.predicate) := by
  have hne : op.predicate ≠ "" := by cases op <;> decide
  have hk : (applyViewOps (ops ++ [op]) s).Constructor = s.Constructor := by
    rw [applyViewOps_frame]
  have hn := applyViewOps_name E ops op s
  have hstart : s.Consistent ∧ s.Constructor ≠ 0 := by
    rcases hs with ⟨t, ht⟩ | ⟨m0, d, hd, rfl⟩
    · rcases registryChatInviteExt_cases E t s ht with ⟨rfl, rfl⟩ | ⟨rfl, rfl⟩ | ⟨rfl, rfl⟩
      · exact ⟨fun _ _ => variantOfTag_already E, (by decide : (-1542554274 : ℤ) ≠ 0)⟩
      · exact ⟨fun _ _ => variantOfTag_invite E, (by decide : (-613035609 : ℤ) ≠ 0)⟩
      · exact ⟨fun _ _ => variantOfTag_peek E, (by decide : (-1394351506 : ℤ) ≠ 0)⟩
    · exact decoded_consistent E m0 d hd
  refine ⟨hstart.1, hk, hn, ?_⟩
  unfold ChatInviteExt.Consistent
  rw [hk, hn]
  exact ⟨fun h => h hstart.2 hne, fun h _ _ => h⟩

/-- The amended C21 at the registry-created `chatInvite` record, projected to the peek
view and then to the already-a-member view. -/
theorem view_ops_rename_and_keep_tag_witness :
    exampleRegistryInvite.Consistent
      ∧ (applyViewOps ([ViewOp.To_ChatInvitePeek] ++ [ViewOp.To_ChatInviteAlready])
          exampleRegistryInvite).Constructor = exampleRegistryInvite.Constructor
      ∧ (applyViewOps ([ViewOp.To_ChatInvitePeek] ++ [ViewOp.To_ChatInviteAlready])
          exampleRegistryInvite).PredicateName = ViewOp.To_ChatInviteAlready.predicate
      ∧ ((applyViewOps ([ViewOp.To_ChatInvitePeek] ++ [ViewOp.To_ChatInviteAlready])
          exampleRegistryInvite).Consistent
          ↔ variantOfTag specEnv exampleRegistryInvite.Constructor
            = some ViewOp.To_ChatInviteAlready.predicate) :=
  view_ops_rename_and_keep_tag specEnv exampleRegistryInvite [ViewOp.To_ChatInvitePeek]
    ViewOp.To_ChatInviteAlready (Or.inl ⟨-613035609, by rfl⟩)

/-- C21, counterexample: the record the registry creates for the tag `0xdb75d1a7` has the
name `chatInvite`; after `To_ChatInviteAlready` on it the tag is still `0xdb75d1a7`, which
identifies `chatInvite`, while the name is `chatInviteAlready`: both are set and they
identify different variants. -/
theorem view_projection_breaks_consistency :
    registryChatInviteExt specEnv (-613035609) = some exampleRegistryInvite
      ∧ (applyViewOps [ViewOp.To_ChatInviteAlready] exampleRegistryInvite).Constructor
          = -613035609
      ∧ (applyViewOps [ViewOp.To_ChatInviteAlready] exampleRegistryInvite).PredicateName
          = Predicate_chatInviteAlready
      ∧ variantOfTag specEnv (-613035609) = some Predicate_chatInvite
      ∧ ¬ (applyViewOps [ViewOp.To_ChatInviteAlready] exampleRegistryInvite).Consistent := by
  refine ⟨rfl, rfl, rfl, rfl, fun h => ?_⟩
  have h2 := h (by decide) (by decide)
  exact absurd h2 (by decide)

/-- C22: a view built from a bare record takes the view's own identity.  Each of
`MakeTLChatInviteAlready`, `MakeTLChatInvite` and `MakeTLChatInvitePeek`, given no storage
record, returns a view on a fresh record that has the view's predicate name and every
other field at its zero value; given a storage record (a bare one in particular) it
stores the view's predicate name in it and leaves `Constructor` and every data field as
they were. -/
theorem make_view_takes_own_identity (E : Env) (d : ChatInviteExt E) :
    (MakeTLChatInviteAlready (none : Option (ChatInviteExt E))).Data2
        = { PredicateName := Predicate_chatInviteAlready }
      ∧ (MakeTLChatInvite (none : Option (ChatInviteExt E))).Data2
        = { PredicateName := Predicate_chatInvite }
      ∧ (MakeTLChatInvitePeek (none : Option (ChatInviteExt E))).Data2
        = { PredicateName := Predicate_chatInvitePeek }
      ∧ (MakeTLChatInviteAlready (some d)).Data2
        = { d with PredicateName := Predicate_chatInviteAlready }
      ∧ (MakeTLChatInvite (some d)).Data2 = { d with PredicateName := Predicate_chatInvite }
      ∧ (MakeTLChatInvitePeek (some d)).Data2
        = { d with PredicateName := Predicate_chatInvitePeek } :=
  ⟨rfl, rfl, rfl, rfl, rfl, rfl⟩

/-- A value set through a view is what the matching getter returns on the record after
any further sequence of view operations, and is the field of the record
`To_ChatInviteExt` of the view returns; a view operation changes no field other than
`PredicateName`.  This is the statement on records threaded through the calls; the
statement on a heap, where a view holds an address, follows further down. -/
theorem views_get_after_set (E : Env) (s : ChatInviteExt E) (ops : List ViewOp) :
    (∀ v,
        ((applyViewOps ops (s.To_ChatInviteAlready.SetChat v).Data2).To_ChatInviteAlready).GetChat
          = v
        ∧ ((applyViewOps ops (s.To_ChatInviteAlready.SetChat v).Data2).To_ChatInvitePeek).GetChat
          = v
        ∧ (s.To_ChatInviteAlready.SetChat v).To_ChatInviteExt.Chat = v)
      ∧ (∀ v,
        ((applyViewOps ops (s.To_ChatInvitePeek.SetChat v).Data2).To_ChatInviteAlready).GetChat
          = v
        ∧ ((applyViewOps ops (s.To_ChatInvitePeek.SetChat v).Data2).To_ChatInvitePeek).GetChat
          = v
        ∧ (s.To_ChatInvitePeek.SetChat v).To_ChatInviteExt.Chat = v)
      ∧ (∀ v,
        ((applyViewOps ops (s.To_ChatInvitePeek.SetExpires v).Data2).To_ChatInvitePeek).GetExpires
          = v
        ∧ (s.To_ChatInvitePeek.SetExpires v).To_ChatInviteExt.Expires = v)
      ∧ (∀ v,
        ((applyViewOps ops
            (s.To_ChatInvite.SetRequestNeeded v).Data2).To_ChatInvite).GetRequestNeeded = v
        ∧ (s.To_ChatInvite.SetRequestNeeded v).To_ChatInviteExt.RequestNeeded = v)
      ∧ (∀ v,
        ((applyViewOps ops (s.To_ChatInvite.SetTitle v).Data2).To_ChatInvite).GetTitle = v
        ∧ (s.To_ChatInvite.SetTitle v).To_ChatInviteExt.Title = v)
      ∧ (∀ v,
        ((applyViewOps ops (s.To_ChatInvite.SetAbout v).Data2).To_ChatInvite).GetAbout = v
        ∧ (s.To_ChatInvite.SetAbout v).To_ChatInviteExt.About = v)
      ∧ (∀ v,
        ((applyViewOps ops (s.To_ChatInvite.SetPhoto v).Data2).To_ChatInvite).GetPhoto = v
        ∧ (s.To_ChatInvite.SetPhoto v).To_ChatInviteExt.Photo = v)
      ∧ (∀ v,
        ((applyViewOps ops
            (s.To_ChatInvite.SetParticipantsCount v).Data2).To_ChatInvite).GetParticipantsCount = v
        ∧ (s.To_ChatInvite.SetParticipantsCount v).To_ChatInviteExt.ParticipantsCount = v)
      ∧ (∀ v,
        ((applyViewOps ops
            (s.To_ChatInvite.SetParticipants v).Data2).To_ChatInvite).GetParticipants = v
        ∧ (s.To_ChatInvite.SetParticipants v).To_ChatInviteExt.Participants = v)
      ∧ (∀ op : ViewOp, op.apply s = { s with PredicateName := op.predicate }) := by
  refine ⟨fun v => ⟨?_, ?_, rfl⟩, fun v => ⟨?_, ?_, rfl⟩, fun v => ⟨?_, rfl⟩, fun v => ⟨?_, rfl⟩,
    fun v => ⟨?_, rfl⟩, fun v => ⟨?_, rfl⟩, fun v => ⟨?_, rfl⟩, fun v => ⟨?_, rfl⟩,
    fun v => ⟨?_, rfl⟩, fun op => viewOp_apply_eq E op s⟩
  all_goals
    rw [applyViewOps_frame]
    rfl

/-- C24: registry resolution.  For every `int32` tag, `NewTLObjectByClassID` returns no
object exactly when the tag, read unsigned, is not one of the forty tags of the map
literal, and `CheckClassID` is true exactly when `NewTLObjectByClassID` returns an
object; the forty tags are distinct, six entries create a variant view of a data record
and thirty-four a method record. -/
theorem registry_resolution (E : Env) (t : ℤ) (ht : isInt32 t) :
    (NewTLObjectByClassID E t = none ↔ toU32 t ∉ registeredTags)
      ∧ (CheckClassID E t = true ↔ (NewTLObjectByClassID E t).isSome = true)
      ∧ registeredTags.length = 40 ∧ registeredTags.Nodup
      ∧ ((clazzIdRegisters2 E).filter (fun p => !(p.2 ()).isMethod)).length = 6
      ∧ ((clazzIdRegisters2 E).filter (fun p => (p.2 ()).isMethod)).length = 34 := by
  refine ⟨?_, ?_, by decide, by decide, rfl, rfl⟩
  · have hnone : NewTLObjectByClassID E t = none ↔ (clazzIdRegisters2 E).lookup t = none := by
      unfold NewTLObjectByClassID
      cases (clazzIdRegisters2 E).lookup t <;> simp
    rw [hnone, lookup_none_iff, registry_keys, ← registry_keys_unsigned, List.mem_map]
    constructor
    · rintro h ⟨k, hk, hku⟩
      exact h (toU32_injOn k t (registry_keys_int32 k hk) ht hku ▸ hk)
    · intro h hk
      exact h ⟨t, hk, rfl⟩
  · unfold CheckClassID NewTLObjectByClassID
    cases (clazzIdRegisters2 E).lookup t <;> simp

/-- The resolution of C24 at the tag 7, which the registry does not list. -/
theorem registry_resolution_witness :
    (NewTLObjectByClassID specEnv 7 = none ↔ toU32 7 ∉ registeredTags)
      ∧ (CheckClassID specEnv 7 = true ↔ (NewTLObjectByClassID specEnv 7).isSome = true)
      ∧ registeredTags.length = 40 ∧ registeredTags.Nodup
      ∧ ((clazzIdRegisters2 specEnv).filter (fun p => !(p.2 ()).isMethod)).length = 6
      ∧ ((clazzIdRegisters2 specEnv).filter (fun p => (p.2 ()).isMethod)).length = 34 :=
  registry_resolution specEnv 7 (by decide)

/-- C25: registry instances are empty and carry their tag.  The object
`NewTLObjectByClassID` returns for a tag has that tag as its `Constructor`, an `int32`
whose unsigned reading is one of the forty hexadecimal tags of the comments (the keys of
the map literal read unsigned being those tags in order); every data field of the object
is at its zero value; and for each of the six data constructors the predicate name is that
of the variant the tag identifies. -/
theorem registry_instances_empty (E : Env) (t : ℤ) (o : TLObject E)
    (h : NewTLObjectByClassID E t = some o) :
    o.Constructor = t ∧ isInt32 t ∧ toU32 t ∈ registeredTags
      ∧ (clazzIdRegisters2 E).map (fun p => toU32 p.1) = registeredTags
      ∧ o.clearFields = o
      ∧ (toU32 t = 0xa40e7d5e → o.PredicateName = some Predicate_chatInviteAlready)
      ∧ (toU32 t = 0xdb75d1a7 → o.PredicateName = some Predicate_chatInvite)
      ∧ (toU32 t = 0xace3e26e → o.PredicateName = some Predicate_chatInvitePeek)
      ∧ (toU32 t = 0x721051f6 → o.PredicateName = some Predicate_chatInviteImported)
      ∧ (toU32 t = 0x1c6e3c54 → o.PredicateName = some Predicate_recentChatInviteRequesters)
      ∧ (toU32 t = 0x50067224 → o.PredicateName = some Predicate_userChatIdList) := by
  obtain ⟨hc, hi, -, hz, hp⟩ := registry_instance_facts E t o h
  have hkeys : (clazzIdRegisters2 E).map (fun p => toU32 p.1) = registeredTags := by
    have hm : (clazzIdRegisters2 E).map (fun p => toU32 p.1)
        = ((clazzIdRegisters2 E).map Prod.fst).map toU32 := by
      rw [List.map_map]; rfl
    rw [hm, registry_keys, registry_keys_unsigned]
  refine ⟨hc, hi, ?_, hkeys, hz, hp⟩
  obtain ⟨f, hmem, -⟩ := newTLObject_mem E t o h
  rw [← hkeys]
  exact List.mem_map.mpr ⟨(t, f), hmem, rfl⟩

/-- The instance of C25 for the tag `0x50067224`: a `userChatIdList` view on an otherwise
empty record. -/
theorem registry_instances_empty_witness :
    exampleRegistryUserChatIdList.Constructor = 1342599716 ∧ isInt32 1342599716
      ∧ toU32 1342599716 ∈ registeredTags
      ∧ (clazzIdRegisters2 specEnv).map (fun p => toU32 p.1) = registeredTags
      ∧ exampleRegistryUserChatIdList.clearFields = exampleRegistryUserChatIdList
      ∧ (toU32 1342599716 = 0xa40e7d5e →
          exampleRegistryUserChatIdList.PredicateName = some Predicate_chatInviteAlready)
      ∧ (toU32 1342599716 = 0xdb75d1a7 →
          exampleRegistryUserChatIdList.PredicateName = some Predicate_chatInvite)
      ∧ (toU32 1342599716 = 0xace3e26e →
          exampleRegistryUserChatIdList.PredicateName = some Predicate_chatInvitePeek)
      ∧ (toU32 1342599716 = 0x721051f6 →
          exampleRegistryUserChatIdList.PredicateName = some Predicate_chatInviteImported)
      ∧ (toU32 1342599716 = 0x1c6e3c54 →
          exampleRegistryUserChatIdList.PredicateName
            = some Predicate_recentChatInviteRequesters)
      ∧ (toU32 1342599716 = 0x50067224 →
          exampleRegistryUserChatIdList.PredicateName = some Predicate_userChatIdList) :=
  registry_instances_empty specEnv 1342599716 exampleRegistryUserChatIdList (by rfl)

/-- C26: encodings of registry-created methods begin with the tag that was looked up.
For a method record the registry creates for a tag, with any values assigned to its data
fields afterwards, and every layer, the bytes of `Encode` are not empty and their first
four bytes are the little-endian encoding of the tag (the nested encoders of package
`mtproto` being functions that return). -/
theorem registry_method_encode_tag (E : Env) (t : ℤ) (o o' : TLObject E) (layer : ℤ)
    (h : NewTLObjectByClassID E t = some o) (hm : o.isMethod = true)
    (hf : o'.clearFields = o) :
    o'.Encode E layer ≠ [] ∧ (o'.Encode E layer).take 4 = leBytes 4 (toU32 t) := by
  obtain ⟨hc, -, ht, -⟩ := registry_instance_facts E t o h
  obtain ⟨k1, k2, k3⟩ := clearFields_keeps E o'
  rw [hf] at k1 k2 k3
  rw [ht, k2]
  exact method_encode_recognised E o' layer (k3 ▸ hm) (by rw [← k1, hc, ht, k2])

/-- The tag prefix of C26 at a registry-created `chat.createChat2` record with its three
fields assigned. -/
theorem registry_method_encode_tag_witness :
    exampleCreateChat2.Encode specEnv 158 ≠ []
      ∧ (exampleCreateChat2.Encode specEnv 158).take 4 = leBytes 4 (toU32 (-465608273)) :=
  registry_method_encode_tag specEnv (-465608273) exampleRegistryCreateChat2 exampleCreateChat2
    158 (by rfl) (by rfl) (by rfl)

/-- C27: the shared flag bit of the exported-chat-invite listing method.  For a
`TLChatGetExportedChatInvites` with constructor `0xb48f18f6`, bit 2 of the encoded flags
word is set iff `OffsetDate` or `OffsetLink` is present and bit 3 iff `Revoked`; two
records that differ only in having `OffsetDate` alone or `OffsetLink` alone present have
the same flags word; and the decoder makes `OffsetDate` present and makes `OffsetLink`
present exactly when bit 2 of the flags word it read is set. -/
theorem getExportedChatInvites_shared_flag_bit (E : Env) (m : TLChatGetExportedChatInvites)
    (layer : ℤ) (d : DecodeBuf) (hc : toU32 m.Constructor = 0xb48f18f6) :
    (wireFlags (m.Encode E layer)).testBit 2 = (m.OffsetDate.isSome || m.OffsetLink.isSome)
      ∧ (wireFlags (m.Encode E layer)).testBit 3 = m.Revoked
      ∧ (∀ date link,
          wireFlags (TLChatGetExportedChatInvites.Encode E
              { m with OffsetDate := some date, OffsetLink := none } layer)
            = wireFlags (TLChatGetExportedChatInvites.Encode E
              { m with OffsetDate := none, OffsetLink := some link } layer))
      ∧ (TLChatGetExportedChatInvites.Decode E
            { Constructor := m.Constructor } d).2.1.OffsetDate.isSome = d.UInt.1.testBit 2
      ∧ (TLChatGetExportedChatInvites.Decode E
            { Constructor := m.Constructor } d).2.1.OffsetLink.isSome = d.UInt.1.testBit 2 := by
  obtain ⟨b2, b3⟩ := getExportedChatInvites_flags_bits m
  refine ⟨?_, ?_, ?_, ?_, ?_⟩
  · rw [getExportedChatInvites_wireFlags E m layer hc]; exact b2
  · rw [getExportedChatInvites_wireFlags E m layer hc]; exact b3
  · intro date link
    rw [getExportedChatInvites_wireFlags E
        { m with OffsetDate := some date, OffsetLink := none } layer hc,
      getExportedChatInvites_wireFlags E
        { m with OffsetDate := none, OffsetLink := some link } layer hc]
    cases hr : m.Revoked <;> simp +decide [TLChatGetExportedChatInvites.flags, setBit, hr]
  · simp only [TLChatGetExportedChatInvites.Decode, hc, if_true, hasBit_eq_testBit,
      DecodeBuf.String]
    cases d.UInt.1.testBit 3 <;> cases d.UInt.1.testBit 2 <;> simp
  · simp only [TLChatGetExportedChatInvites.Decode, hc, if_true, hasBit_eq_testBit,
      DecodeBuf.String]
    cases d.UInt.1.testBit 3 <;> cases d.UInt.1.testBit 2 <;> simp

/-- The shared bit of C27 at a record with only `OffsetDate` present and a buffer whose
flags word has only bit 2 set. -/
theorem getExportedChatInvites_shared_flag_bit_witness :
    (wireFlags (exampleOffsetDateOnly.Encode specEnv 158)).testBit 2
        = (exampleOffsetDateOnly.OffsetDate.isSome || exampleOffsetDateOnly.OffsetLink.isSome)
      ∧ (wireFlags (exampleOffsetDateOnly.Encode specEnv 158)).testBit 3
        = exampleOffsetDateOnly.Revoked
      ∧ (∀ date link,
          wireFlags (TLChatGetExportedChatInvites.Encode specEnv
              { exampleOffsetDateOnly with OffsetDate := some date, OffsetLink := none } 158)
            = wireFlags (TLChatGetExportedChatInvites.Encode specEnv
              { exampleOffsetDateOnly with OffsetDate := none, OffsetLink := some link } 158))
      ∧ (TLChatGetExportedChatInvites.Decode specEnv
            { Constructor := exampleOffsetDateOnly.Constructor }
            (NewDecodeBuf [4, 0, 0, 0])).2.1.OffsetDate.isSome
          = (NewDecodeBuf [4, 0, 0, 0]).UInt.1.testBit 2
      ∧ (TLChatGetExportedChatInvites.Decode specEnv
            { Constructor := exampleOffsetDateOnly.Constructor }
            (NewDecodeBuf [4, 0, 0, 0])).2.1.OffsetLink.isSome
          = (NewDecodeBuf [4, 0, 0, 0]).UInt.1.testBit 2 :=
  getExportedChatInvites_shared_flag_bit specEnv exampleOffsetDateOnly 158
    (NewDecodeBuf [4, 0, 0, 0]) (by decide)

/-- C28: fields read before a fault are already written.  On a buffer that holds the
tag `0x50067224`, eight body bytes, and a rest on which the `VectorLong` reader faults,
`UserChatIdList.Decode` returns an error and leaves in the target the `int64` decoded
from the eight bytes as `UserId`, the tag as `Constructor` and `userChatIdList` as
`PredicateName`. -/
theorem userChatIdList_fault_keeps_fields (E : Env) (m0 : UserChatIdList)
    (b0 b1 b2 b3 b4 b5 b6 b7 : Byte) (rest : List Byte)
    (hshort : (E.getVectorLong ⟨rest, none⟩).2.err ≠ none) :
    ∃ e l d', UserChatIdList.Decode E m0
        (NewDecodeBuf (leBytes 4 0x50067224 ++ [b0, b1, b2, b3, b4, b5, b6, b7] ++ rest))
      = (some e,
          { PredicateName := Predicate_userChatIdList, Constructor := 1342599716,
            UserId := toI64 (leVal [b0, b1, b2, b3, b4, b5, b6, b7]), ChatIdList := l },
          d') := by
  have htag : toI32 1342599716 = 1342599716 := by decide
  have hInt := Int_leBytes_tag 1342599716 ([b0, b1, b2, b3, b4, b5, b6, b7] ++ rest) (by decide)
  have hLong : DecodeBuf.Long ⟨[b0, b1, b2, b3, b4, b5, b6, b7] ++ rest, none⟩
      = (toI64 (leVal [b0, b1, b2, b3, b4, b5, b6, b7]), ⟨rest, none⟩) := rfl
  have hdec := userChatIdList_decode_tag E m0 _ _ _ _ _ hInt (toU32_toI32 _ (by decide)) hLong
  rw [htag] at hdec
  obtain ⟨e, he⟩ := Option.ne_none_iff_exists'.mp hshort
  rw [he] at hdec
  exact ⟨e, (E.getVectorLong ⟨rest, none⟩).1, (E.getVectorLong ⟨rest, none⟩).2,
    by rw [NewDecodeBuf, List.append_assoc, hdec]⟩

/-- The partial decode of C28 at a buffer with user id 5 and two stray bytes where the
chat-id vector should begin. -/
theorem userChatIdList_fault_keeps_fields_witness :
    ∃ e l d', UserChatIdList.Decode specEnv {}
        (NewDecodeBuf (leBytes 4 0x50067224 ++ [5, 0, 0, 0, 0, 0, 0, 0] ++ [1, 0]))
      = (some e,
          { PredicateName := Predicate_userChatIdList, Constructor := 1342599716,
            UserId := toI64 (leVal [5, 0, 0, 0, 0, 0, 0, 0]), ChatIdList := l },
          d') :=
  userChatIdList_fault_keeps_fields specEnv {} 5 0 0 0 0 0 0 0 [1, 0] (by decide)

/-- C29, as amended: decoding consumes exactly one encoding of a record whose identity is
set.  For a `RecentChatInviteRequesters` record whose identity resolves to
`recentChatInviteRequesters`, at a layer that resolves
the predicate to `0x1c6e3c54`, `Decode` over the encoding followed by any bytes `s`
returns no error and leaves the cursor, without fault, at the first byte of `s`; the
encoding begins with the one tag, and the tag read by the decoder leaves exactly the rest
of the encoding and `s` (the `VectorLong` primitives being inverse at the list). -/
theorem recentChatInviteRequesters_decode_consumes_one (E : Env)
    (x m0 : RecentChatInviteRequesters) (layer : ℤ) (s : List Byte)
    (hid : resolvePredicateName E x.PredicateName x.Constructor
      = Predicate_recentChatInviteRequesters)
    (hlayer : toU32 (E.GetClazzID Predicate_recentChatInviteRequesters layer) = 0x1c6e3c54)
    (hpending : isInt32 x.RequestsPending) (hvec : E.VectorLongInverse x.RecentRequesters) :
    (RecentChatInviteRequesters.Decode E m0
        ⟨(RecentChatInviteRequesters.Encode E x layer).1 ++ s, none⟩).1 = none
      ∧ (RecentChatInviteRequesters.Decode E m0
        ⟨(RecentChatInviteRequesters.Encode E x layer).1 ++ s, none⟩).2.2 = ⟨s, none⟩
      ∧ (RecentChatInviteRequesters.Decode E m0
        ⟨(RecentChatInviteRequesters.Encode E x layer).1 ++ s, none⟩).2.1.Constructor = 476986452
      ∧ (RecentChatInviteRequesters.Encode E x layer).1.take 4 = leBytes 4 0x1c6e3c54
      ∧ (DecodeBuf.Int ⟨(RecentChatInviteRequesters.Encode E x layer).1 ++ s, none⟩).2.buf
          = (RecentChatInviteRequesters.Encode E x layer).1.drop 4 ++ s := by
  have h := recentChatInviteRequesters_decode_encode_append E x m0 layer s hid hlayer hpending
    hvec
  rw [h]
  refine ⟨rfl, rfl, rfl, ?_, ?_⟩
  · simp only [RecentChatInviteRequesters.Encode, hid, if_true,
      RecentChatInviteRequesters.To_RecentChatInviteRequesters,
      TLRecentChatInviteRequesters.Encode, hlayer, NewEncodeBuf, EncodeBuf.UInt, EncodeBuf.Int,
      EncodeBuf.VectorLong, EncodeBuf.GetBuf, List.nil_append, List.append_assoc, Nat.reduceMod]
    exact List.take_left' (length_leBytes 4 _)
  · simp only [RecentChatInviteRequesters.Encode, hid, if_true,
      RecentChatInviteRequesters.To_RecentChatInviteRequesters,
      TLRecentChatInviteRequesters.Encode, hlayer, NewEncodeBuf, EncodeBuf.UInt, EncodeBuf.Int,
      EncodeBuf.VectorLong, EncodeBuf.GetBuf, List.nil_append, List.append_assoc, Nat.reduceMod,
      Int_leBytes_tag _ _ (by decide : (476986452 : Nat) < 4294967296),
      List.drop_left' (length_leBytes 4 _)]

/-- The amended framing of C29 at a record with three pending requests, followed by two bytes. -/
theorem recentChatInviteRequesters_decode_consumes_one_witness :
    (RecentChatInviteRequesters.Decode specEnv {}
        ⟨(RecentChatInviteRequesters.Encode specEnv exampleRequesters 158).1 ++ [9, 9], none⟩).1
        = none
      ∧ (RecentChatInviteRequesters.Decode specEnv {}
        ⟨(RecentChatInviteRequesters.Encode specEnv exampleRequesters 158).1 ++ [9, 9], none⟩).2.2
        = ⟨[9, 9], none⟩
      ∧ (RecentChatInviteRequesters.Decode specEnv {}
        ⟨(RecentChatInviteRequesters.Encode specEnv exampleRequesters 158).1 ++ [9, 9],
          none⟩).2.1.Constructor = 476986452
      ∧ (RecentChatInviteRequesters.Encode specEnv exampleRequesters 158).1.take 4
        = leBytes 4 0x1c6e3c54
      ∧ (DecodeBuf.Int
          ⟨(RecentChatInviteRequesters.Encode specEnv exampleRequesters 158).1 ++ [9, 9],
            none⟩).2.buf
          = (RecentChatInviteRequesters.Encode specEnv exampleRequesters 158).1.drop 4 ++ [9, 9] :=
  recentChatInviteRequesters_decode_consumes_one specEnv exampleRequesters {} 158 [9, 9]
    (by decide) (by decide) (by decide) (specEnv_VectorLongInverse _ (by decide) (by decide))

/-- C30: decoding never clears a flag-gated field.  For every cursor and every
`TLChatHideChatJoinRequests` target with constructor `0x3ea52cd1`, `Approved` keeps the
value it had when bit 0 of the flags word read is clear, `Link` when bit 1 is clear and
`UserId` when bit 2 is clear. -/
theorem hideChatJoinRequests_decode_keeps_ungated (E : Env) (m : TLChatHideChatJoinRequests)
    (d : DecodeBuf) (hc : toU32 m.Constructor = 0x3ea52cd1) :
    (d.UInt.1.testBit 0 = false → (m.Decode E d).2.1.Approved = m.Approved)
      ∧ (d.UInt.1.testBit 1 = false → (m.Decode E d).2.1.Link = m.Link)
      ∧ (d.UInt.1.testBit 2 = false → (m.Decode E d).2.1.UserId = m.UserId) := by
  simp only [TLChatHideChatJoinRequests.Decode, hc, if_true, hasBit_eq_testBit,
    DecodeBuf.String]
  cases d.UInt.1.testBit 0 <;> cases d.UInt.1.testBit 1 <;> cases d.UInt.1.testBit 2 <;> simp

/-- The frame of C30 at a target with all three fields set and a zero flags word. -/
theorem hideChatJoinRequests_decode_keeps_ungated_witness :
    ((NewDecodeBuf exampleHideBody).UInt.1.testBit 0 = false →
        (exampleHideChatJoinRequests.Decode specEnv (NewDecodeBuf exampleHideBody)).2.1.Approved
          = exampleHideChatJoinRequests.Approved)
      ∧ ((NewDecodeBuf exampleHideBody).UInt.1.testBit 1 = false →
        (exampleHideChatJoinRequests.Decode specEnv (NewDecodeBuf exampleHideBody)).2.1.Link
          = exampleHideChatJoinRequests.Link)
      ∧ ((NewDecodeBuf exampleHideBody).UInt.1.testBit 2 = false →
        (exampleHideChatJoinRequests.Decode specEnv (NewDecodeBuf exampleHideBody)).2.1.UserId
          = exampleHideChatJoinRequests.UserId) :=
  hideChatJoinRequests_decode_keeps_ungated specEnv exampleHideChatJoinRequests
    (NewDecodeBuf exampleHideBody) (by decide)

/-! ## The frame of `ChatInviteExt.Encode`, unrecognised methods, and the tags of the decoders -/

/-- C31: the only effect of `Encode` on the storage record is its predicate name.  For
every `ChatInviteExt` record and layer, the record after `ChatInviteExt.Encode` differs
from the record before in no field other than `PredicateName`; the record is unchanged
when the name was one of the three variant names and when the identity could not be
resolved (a non-empty other name, or an empty name with no map entry or with an entry
other than the three names); and when the name was empty and the lookup gave one of the
three variant names, `PredicateName` is that name. -/
theorem chatInviteExt_encode_frame (E : Env) (m : ChatInviteExt E) (layer : ℤ) :
    (ChatInviteExt.Encode E m layer).2
        = { m with PredicateName := (ChatInviteExt.Encode E m layer).2.PredicateName }
      ∧ ((m.PredicateName = Predicate_chatInviteAlready ∨ m.PredicateName = Predicate_chatInvite
            ∨ m.PredicateName = Predicate_chatInvitePeek) →
          (ChatInviteExt.Encode E m layer).2 = m)
      ∧ (((m.PredicateName ≠ "" ∧ m.PredicateName ≠ Predicate_chatInviteAlready
              ∧ m.PredicateName ≠ Predicate_chatInvite
              ∧ m.PredicateName ≠ Predicate_chatInvitePeek)
            ∨ (m.PredicateName = "" ∧ E.clazzIdNameRegisters2 m.Constructor = none)
            ∨ (m.PredicateName = "" ∧ ∃ n, E.clazzIdNameRegisters2 m.Constructor = some n
                ∧ n ≠ Predicate_chatInviteAlready ∧ n ≠ Predicate_chatInvite
                ∧ n ≠ Predicate_chatInvitePeek)) →
          (ChatInviteExt.Encode E m layer).2 = m)
      ∧ (∀ n, m.PredicateName = "" → E.clazzIdNameRegisters2 m.Constructor = some n →
          (n = Predicate_chatInviteAlready ∨ n = Predicate_chatInvite
            ∨ n = Predicate_chatInvitePeek) →
          (ChatInviteExt.Encode E m layer).2 = { m with PredicateName := n }) := by
  have e1 : ¬ ("" = Predicate_chatInviteAlready) := by decide
  have e2 : ¬ ("" = Predicate_chatInvite) := by decide
  have e3 : ¬ ("" = Predicate_chatInvitePeek) := by decide
  have a0 : ¬ (Predicate_chatInviteAlready = "") := by decide
  have i0 : ¬ (Predicate_chatInvite = "") := by decide
  have p0 : ¬ (Predicate_chatInvitePeek = "") := by decide
  have ia : ¬ (Predicate_chatInvite = Predicate_chatInviteAlready) := by decide
  have pa : ¬ (Predicate_chatInvitePeek = Predicate_chatInviteAlready) := by decide
  have pi : ¬ (Predicate_chatInvitePeek = Predicate_chatInvite) := by decide
  refine ⟨?_, ?_, ?_, ?_⟩
  · simp only [ChatInviteExt.Encode, ChatInviteExt.To_ChatInviteAlready,
      ChatInviteExt.To_ChatInvite, ChatInviteExt.To_ChatInvitePeek]
    split_ifs <;> rfl
  · obtain ⟨name, c, chat, rn, title, about, photo, count, parts, expires⟩ := m
    rintro (h | h | h) <;> simp only at h <;> subst h <;>
      simp only [ChatInviteExt.Encode, resolvePredicateName, ChatInviteExt.To_ChatInviteAlready,
        ChatInviteExt.To_ChatInvite, ChatInviteExt.To_ChatInvitePeek, a0, i0, p0, ia, pa, pi,
        if_true, if_false]
  · rintro (⟨h0, h1, h2, h3⟩ | ⟨h0, hn⟩ | ⟨h0, n, hn, h1, h2, h3⟩)
    · simp only [ChatInviteExt.Encode, resolvePredicateName, h0, h1, h2, h3, if_false]
    · simp only [ChatInviteExt.Encode, resolvePredicateName, h0, hn, if_true, e1, e2, e3,
        if_false]
    · simp only [ChatInviteExt.Encode, resolvePredicateName, h0, hn, if_true, h1, h2, h3,
        if_false]
  · intro n h0 hn hcase
    rcases hcase with h | h | h <;> subst h <;>
      simp only [ChatInviteExt.Encode, resolvePredicateName, h0, hn,
        ChatInviteExt.To_ChatInviteAlready, ChatInviteExt.To_ChatInvite,
        ChatInviteExt.To_ChatInvitePeek, ia, pa, pi, if_true, if_false]

/-- The frame of C31 at a record without a name whose tag is that of `chatInvitePeek`:
`Encode` stores the resolved name and changes nothing else. -/
theorem chatInviteExt_encode_frame_witness :
    (ChatInviteExt.Encode specEnv exampleUnnamedPeek 158).2
      = { exampleUnnamedPeek with PredicateName := Predicate_chatInvitePeek } :=
  (chatInviteExt_encode_frame specEnv exampleUnnamedPeek 158).2.2.2
    Predicate_chatInvitePeek rfl (by decide) (Or.inr (Or.inr rfl))

/-- C32: a method record without its recognised tag encodes to nothing.  For every layer
and every field assignment, the `Encode` of a method record whose `Constructor`, read as
`uint32`, is not the one tag of the `case` of its encoder is the empty byte sequence. -/
theorem method_encode_unrecognised (E : Env) (o : TLObject E) (layer : ℤ)
    (hm : o.isMethod = true) (hc : toU32 o.Constructor ≠ o.recognisedTag) :
    o.Encode E layer = [] := by
  cases o <;> first
    | (simp [TLObject.isMethod] at hm; done)
    | (simp only [TLObject.Constructor, TLObject.recognisedTag] at hc
       simp only [TLObject.Encode, hc, if_false,
         TLChatGetMutableChat.Encode, TLChatGetChatListByIdList.Encode,
         TLChatGetChatBySelfId.Encode, TLChatCreateChat2.Encode, TLChatDeleteChat.Encode,
         TLChatDeleteChatUser.Encode, TLChatEditChatTitle.Encode, TLChatEditChatAbout.Encode,
         TLChatEditChatPhoto.Encode, TLChatEditChatAdmin.Encode,
         TLChatEditChatDefaultBannedRights.Encode, TLChatAddChatUser.Encode,
         TLChatGetMutableChatByLink.Encode, TLChatToggleNoForwards.Encode,
         TLChatMigratedToChannel.Encode, TLChatGetChatParticipantIdList.Encode,
         TLChatGetUsersChatIdList.Encode, TLChatGetMyChatList.Encode,
         TLChatExportChatInvite.Encode, TLChatGetAdminsWithInvites.Encode,
         TLChatGetExportedChatInvite.Encode, TLChatGetExportedChatInvites.Encode,
         TLChatCheckChatInvite.Encode, TLChatImportChatInvite.Encode,
         TLChatGetChatInviteImporters.Encode, TLChatDeleteExportedChatInvite.Encode,
         TLChatDeleteRevokedExportedChatInvites.Encode, TLChatEditExportedChatInvite.Encode,
         TLChatSetChatAvailableReactions.Encode, TLChatSetHistoryTTL.Encode, TLChatSearch.Encode,
         TLChatGetRecentChatInviteRequesters.Encode, TLChatHideChatJoinRequests.Encode,
         TLChatImportChatInvite2.Encode, NewEncodeBuf, EncodeBuf.GetBuf])

/-- The empty encoding of C32 at a zero-valued `TLChatCreateChat2`, whose constructor is
0 and not `0xe43f61af`. -/
theorem method_encode_unrecognised_witness :
    exampleZeroCreateChat2.Constructor = 0 ∧ exampleZeroCreateChat2.recognisedTag = 0xe43f61af
      ∧ exampleZeroCreateChat2.Encode specEnv 158 = [] :=
  ⟨rfl, rfl, method_encode_unrecognised specEnv exampleZeroCreateChat2 158 (by decide)
    (by decide)⟩

/-- A cursor whose first read gives a chosen `int32` and leaves no fault. -/
theorem exists_cursor_reading (t : ℤ) (ht : isInt32 t) :
    ∃ d d1 : DecodeBuf, d.Int = (t, d1) ∧ d1.err = none :=
  ⟨_, _, Int_leBytes t [] ht, rfl⟩

/-- The tags of the `switch` of `ChatInviteExt.Decode`. -/
theorem recognises_chatInviteExt (E : Env) (t : ℤ) (ht : isInt32 t) :
    Recognises (ChatInviteExt.Decode E) t
      ↔ (toU32 t = 0xa40e7d5e ∨ toU32 t = 0xdb75d1a7 ∨ toU32 t = 0xace3e26e) := by
  constructor
  · intro h
    by_contra hn
    simp only [not_or] at hn
    obtain ⟨h1, h2, h3⟩ := hn
    obtain ⟨d, d1, hInt, hd1⟩ := exists_cursor_reading t ht
    have hx := h {} d d1 hInt
    simp only [ChatInviteExt.Decode, hInt, h1, h2, h3, if_false, DecodeBuf.GetError, hd1] at hx
    exact absurd hx (by simp)
  · intro h m d d1 hInt
    rcases h with h | h | h
    · simp +decide only [ChatInviteExt.Decode, hInt, h, if_true, if_false]
    · simp +decide only [ChatInviteExt.Decode, hInt, h, if_true, if_false]
    · simp +decide only [ChatInviteExt.Decode, hInt, h, if_true, if_false]

/-- The tag of the `switch` of `ChatInviteImported.Decode`. -/
theorem recognises_chatInviteImported (E : Env) (t : ℤ) (ht : isInt32 t) :
    Recognises (ChatInviteImported.Decode E) t ↔ toU32 t = 0x721051f6 := by
  constructor
  · intro h
    by_contra h1
    obtain ⟨d, d1, hInt, hd1⟩ := exists_cursor_reading t ht
    have hx := h {} d d1 hInt
    simp only [ChatInviteImported.Decode, hInt, h1, if_false, DecodeBuf.GetError, hd1] at hx
    exact absurd hx (by simp)
  · intro h m d d1 hInt
    simp +decide only [ChatInviteImported.Decode, hInt, h, if_true, if_false]

/-- The tag of the `switch` of `RecentChatInviteRequesters.Decode`. -/
theorem recognises_recentChatInviteRequesters (E : Env) (t : ℤ) (ht : isInt32 t) :
    Recognises (RecentChatInviteRequesters.Decode E) t ↔ toU32 t = 0x1c6e3c54 := by
  constructor
  · intro h
    by_contra h1
    obtain ⟨d, d1, hInt, hd1⟩ := exists_cursor_reading t ht
    have hx := h {} d d1 hInt
    simp only [RecentChatInviteRequesters.Decode, hInt, h1, if_false, DecodeBuf.GetError, hd1]
      at hx
    exact absurd hx (by simp)
  · intro h m d d1 hInt
    simp +decide only [RecentChatInviteRequesters.Decode, hInt, h, if_true, if_false]

/-- The tag of the `switch` of `UserChatIdList.Decode`. -/
theorem recognises_userChatIdList (E : Env) (t : ℤ) (ht : isInt32 t) :
    Recognises (UserChatIdList.Decode E) t ↔ toU32 t = 0x50067224 := by
  constructor
  · intro h
    by_contra h1
    obtain ⟨d, d1, hInt, hd1⟩ := exists_cursor_reading t ht
    have hx := h {} d d1 hInt
    simp only [UserChatIdList.Decode, hInt, h1, if_false, DecodeBuf.GetError, hd1] at hx
    exact absurd hx (by simp)
  · intro h m d d1 hInt
    simp +decide only [UserChatIdList.Decode, hInt, h, if_true, if_false]

/-- The tag under which the registry creates a view of a given supertype. -/
theorem registry_supertype_tag (E : Env) (t : ℤ) (o : TLObject E)
    (h : NewTLObjectByClassID E t = some o) :
    (o.supertype = some Supertype.ChatInviteExt →
        toU32 t = 0xa40e7d5e ∨ toU32 t = 0xdb75d1a7 ∨ toU32 t = 0xace3e26e)
      ∧ (o.supertype = some Supertype.ChatInviteImported → toU32 t = 0x721051f6)
      ∧ (o.supertype = some Supertype.RecentChatInviteRequesters → toU32 t = 0x1c6e3c54)
      ∧ (o.supertype = some Supertype.UserChatIdList → toU32 t = 0x50067224) := by
  obtain ⟨-, -, htag, -⟩ := registry_instance_facts E t o h
  rw [htag]
  cases o <;>
    simp only [TLObject.supertype, TLObject.recognisedTag, reduceCtorEq, Option.some.injEq,
      false_implies, true_or, or_true, implies_true, and_self]

/-- The views the registry creates under the six tags of the data records. -/
theorem registry_views (E : Env) :
    (∃ o, NewTLObjectByClassID E (-1542554274) = some o
        ∧ o.supertype = some Supertype.ChatInviteExt)
      ∧ (∃ o, NewTLObjectByClassID E (-613035609) = some o
        ∧ o.supertype = some Supertype.ChatInviteExt)
      ∧ (∃ o, NewTLObjectByClassID E (-1394351506) = some o
        ∧ o.supertype = some Supertype.ChatInviteExt)
      ∧ (∃ o, NewTLObjectByClassID E 1913672182 = some o
        ∧ o.supertype = some Supertype.ChatInviteImported)
      ∧ (∃ o, NewTLObjectByClassID E 476986452 = some o
        ∧ o.supertype = some Supertype.RecentChatInviteRequesters)
      ∧ (∃ o, NewTLObjectByClassID E 1342599716 = some o
        ∧ o.supertype = some Supertype.UserChatIdList) :=
  ⟨⟨_, rfl, rfl⟩, ⟨_, rfl, rfl⟩, ⟨_, rfl, rfl⟩, ⟨_, rfl, rfl⟩, ⟨_, rfl, rfl⟩, ⟨_, rfl, rfl⟩⟩

/-- The `Decode` of a view the registry created accepts the constructor stored in it. -/
theorem registry_view_decode_accepts (E : Env) (t : ℤ) (o : TLObject E)
    (h : NewTLObjectByClassID E t = some o) : o.DecodeAccepts E := by
  obtain ⟨hc, -, htag, -⟩ := registry_instance_facts E t o h
  rw [← hc] at htag
  cases o <;> simp only [TLObject.DecodeAccepts] <;>
    simp only [TLObject.Constructor, TLObject.recognisedTag] at htag <;> intro d
  · simp only [TLChatInviteAlready.Decode, htag, if_true]
  · simp only [TLChatInvite.Decode, htag, if_true]
  · simp only [TLChatInvitePeek.Decode, htag, if_true]
  · simp only [TLChatInviteImported.Decode, htag, if_true]
  · simp only [TLRecentChatInviteRequesters.Decode, htag, if_true]
  · simp only [TLUserChatIdList.Decode, htag, if_true]

/-- C33: the registry and the polymorphic decoders agree on tags.  For every 32-bit tag
`t` and each of the four supertypes, the `Decode` of the supertype recognises `t` as a
leading tag exactly when `NewTLObjectByClassID t` returns a variant view of that
supertype; and the `Decode` of every view the registry returns accepts the constructor
the registry stored in it. -/
theorem registry_agrees_with_decoders (E : Env) (t : ℤ) (ht : isInt32 t) :
    (Recognises (ChatInviteExt.Decode E) t ↔
        ∃ o, NewTLObjectByClassID E t = some o ∧ o.supertype = some Supertype.ChatInviteExt)
      ∧ (Recognises (ChatInviteImported.Decode E) t ↔
        ∃ o, NewTLObjectByClassID E t = some o
          ∧ o.supertype = some Supertype.ChatInviteImported)
      ∧ (Recognises (RecentChatInviteRequesters.Decode E) t ↔
        ∃ o, NewTLObjectByClassID E t = some o
          ∧ o.supertype = some Supertype.RecentChatInviteRequesters)
      ∧ (Recognises (UserChatIdList.Decode E) t ↔
        ∃ o, NewTLObjectByClassID E t = some o ∧ o.supertype = some Supertype.UserChatIdList)
      ∧ (∀ o, NewTLObjectByClassID E t = some o → o.DecodeAccepts E) := by
  obtain ⟨v1, v2, v3, v4, v5, v6⟩ := registry_views E
  have hi := ht
  unfold isInt32 at hi
  refine ⟨?_, ?_, ?_, ?_, fun o h => registry_view_decode_accepts E t o h⟩
  · rw [recognises_chatInviteExt E t ht]
    constructor
    · rintro (h | h | h)
      · obtain rfl : t = -1542554274 := by unfold toU32 at h; omega
        exact v1
      · obtain rfl : t = -613035609 := by unfold toU32 at h; omega
        exact v2
      · obtain rfl : t = -1394351506 := by unfold toU32 at h; omega
        exact v3
    · rintro ⟨o, h, hs⟩
      exact (registry_supertype_tag E t o h).1 hs
  · rw [recognises_chatInviteImported E t ht]
    constructor
    · intro h
      obtain rfl : t = 1913672182 := by unfold toU32 at h; omega
      exact v4
    · rintro ⟨o, h, hs⟩
      exact (registry_supertype_tag E t o h).2.1 hs
  · rw [recognises_recentChatInviteRequesters E t ht]
    constructor
    · intro h
      obtain rfl : t = 476986452 := by unfold toU32 at h; omega
      exact v5
    · rintro ⟨o, h, hs⟩
      exact (registry_supertype_tag E t o h).2.2.1 hs
  · rw [recognises_userChatIdList E t ht]
    constructor
    · intro h
      obtain rfl : t = 1342599716 := by unfold toU32 at h; omega
      exact v6
    · rintro ⟨o, h, hs⟩
      exact (registry_supertype_tag E t o h).2.2.2 hs

/-- The agreement of C33 at the tag `0x50067224`: `UserChatIdList.Decode` recognises it,
the other three decoders do not, and the view the registry creates decodes. -/
theorem registry_agrees_with_decoders_witness :
    Recognises (UserChatIdList.Decode specEnv) 1342599716
      ∧ ¬ Recognises (ChatInviteExt.Decode specEnv) 1342599716
      ∧ (∀ o, NewTLObjectByClassID specEnv 1342599716 = some o → o.DecodeAccepts specEnv) :=
  ⟨(registry_agrees_with_decoders specEnv 1342599716 (by decide)).2.2.2.1.mpr
      (registry_views specEnv).2.2.2.2.2,
    fun h => by
      obtain ⟨o, ho, hs⟩ :=
        (registry_agrees_with_decoders specEnv 1342599716 (by decide)).1.mp h
      have h2 : NewTLObjectByClassID specEnv 1342599716
          = some (.TLUserChatIdList
              (MakeTLUserChatIdList (some { Constructor := 1342599716 }))) := rfl
      rw [h2] at ho
      rw [← Option.some.inj ho] at hs
      exact absurd hs (by decide),
    (registry_agrees_with_decoders specEnv 1342599716 (by decide)).2.2.2.2⟩

/-- C34: the exported-chat-invite listing method round-trips when its two offset fields
agree in presence, and the decoder consumes all the bytes.  For a
`TLChatGetExportedChatInvites` with constructor `0xb48f18f6` in which `OffsetDate` and
`OffsetLink` are both present or both absent, the encoding begins with the tag, and
`Decode` on an empty instance with the same constructor over the bytes after the tag
returns no error, the original record, and a cursor with no byte left and no fault. -/
theorem getExportedChatInvites_roundtrip_consumes_all (E : Env)
    (m : TLChatGetExportedChatInvites) (layer : ℤ)
    (hc : toU32 m.Constructor = 0xb48f18f6)
    (hboth : m.OffsetDate.isSome = m.OffsetLink.isSome)
    (hchat : isInt64 m.ChatId) (hadmin : isInt64 m.AdminId) (hlimit : isInt32 m.Limit)
    (hdate : ∀ v, m.OffsetDate = some v → isInt32 v)
    (hlink : ∀ s, m.OffsetLink = some s → E.StringInverse s) :
    (m.Encode E layer).take 4 = leBytes 4 0xb48f18f6
      ∧ TLChatGetExportedChatInvites.Decode E { Constructor := m.Constructor }
          (NewDecodeBuf ((m.Encode E layer).drop 4)) = (none, m, ⟨[], none⟩) := by
  have h := getExportedChatInvites_decode_encode_append E m layer [] hc hboth hchat
    hadmin hlimit hdate hlink
  rw [List.append_nil] at h
  refine ⟨?_, ?_⟩
  · exact (method_encode_recognised E (.TLChatGetExportedChatInvites m) layer rfl hc).2
  · rw [NewDecodeBuf, h]

/-- The round trip of C34 at a record with both offset fields absent. -/
theorem getExportedChatInvites_roundtrip_consumes_all_witness :
    (exampleListingNoOffsets.Encode specEnv 158).take 4 = leBytes 4 0xb48f18f6
      ∧ TLChatGetExportedChatInvites.Decode specEnv
          { Constructor := exampleListingNoOffsets.Constructor }
          (NewDecodeBuf ((exampleListingNoOffsets.Encode specEnv 158).drop 4))
        = (none, exampleListingNoOffsets, ⟨[], none⟩) :=
  getExportedChatInvites_roundtrip_consumes_all specEnv exampleListingNoOffsets 158
    (by decide) (by decide) (by decide) (by decide) (by decide)
    (fun v h => by simp [exampleListingNoOffsets] at h)
    (fun s h => by simp [exampleListingNoOffsets] at h)

/-! ## Records without an identity -/

/-- C1, counterexample: a record built from a user id and chat ids alone does not round
trip.  With neither `PredicateName` nor `Constructor` set, `UserChatIdList.Encode` takes
its `default` branch and returns no bytes, and `Decode` over them returns an error and
does not yield the user id. -/
theorem userChatIdList_roundtrip_bare_fails :
    isInt64 exampleBareUserChatIdList.UserId
      ∧ specEnv.VectorLongInverse exampleBareUserChatIdList.ChatIdList
      ∧ toU32 (specEnv.GetClazzID Predicate_userChatIdList 158) = 0x50067224
      ∧ (UserChatIdList.Encode specEnv exampleBareUserChatIdList 158).1 = []
      ∧ (UserChatIdList.Decode specEnv {}
          (NewDecodeBuf (UserChatIdList.Encode specEnv exampleBareUserChatIdList 158).1)).1
        ≠ none
      ∧ (UserChatIdList.Decode specEnv {}
          (NewDecodeBuf (UserChatIdList.Encode specEnv exampleBareUserChatIdList 158).1)).2.1.UserId
        ≠ exampleBareUserChatIdList.UserId :=
  ⟨by decide, specEnv_VectorLongInverse _ (by decide) (by decide), by decide, by decide,
    by decide, by decide⟩

/-- C5, counterexample: a present `Requesters` record without identity does not round
trip.  The encoder sets flags bit 0 for it, but the nested
`RecentChatInviteRequesters.Encode` takes its `default` branch and contributes no bytes;
the decoder then reads the nested record from an exhausted cursor and returns an error,
and the values of the nested record are not reproduced. -/
theorem chatInviteImported_roundtrip_bare_fails :
    specEnv.MutableChatFramed exampleImportedBareRequesters.GetChat 158
      ∧ toU32 (specEnv.GetClazzID Predicate_chatInviteImported 158) = 0x721051f6
      ∧ toU32 (specEnv.GetClazzID Predicate_recentChatInviteRequesters 158) = 0x1c6e3c54
      ∧ (RecentChatInviteRequesters.Encode specEnv exampleBareRequesters 158).1 = []
      ∧ (ChatInviteImported.Decode specEnv {}
          (NewDecodeBuf
            (ChatInviteImported.Encode specEnv
              exampleImportedBareRequesters.To_ChatInviteImported 158).1)).1 ≠ none
      ∧ ((ChatInviteImported.Decode specEnv {}
          (NewDecodeBuf
            (ChatInviteImported.Encode specEnv
              exampleImportedBareRequesters.To_ChatInviteImported 158).1)).2.1.Requesters.map
            (fun q => q.RequestsPending)) ≠ some exampleBareRequesters.RequestsPending :=
  ⟨fun r => Nested_framed _ _ 158 r (by decide), by decide, by decide, by decide, by decide,
    by decide⟩

/-- C29, counterexample: a record without identity has an empty encoding, so the decoder
reads its tag from the bytes that follow.  On the encoding of the bare record followed
by the five bytes `1 2 3 4 5`, `RecentChatInviteRequesters.Decode` consumes four of the
five bytes as the tag, returns an error and leaves the cursor at the fifth byte. -/
theorem recentChatInviteRequesters_decode_bare_overruns :
    isInt32 exampleBareRequesters.RequestsPending
      ∧ specEnv.VectorLongInverse exampleBareRequesters.RecentRequesters
      ∧ toU32 (specEnv.GetClazzID Predicate_recentChatInviteRequesters 158) = 0x1c6e3c54
      ∧ (RecentChatInviteRequesters.Encode specEnv exampleBareRequesters 158).1 = []
      ∧ (RecentChatInviteRequesters.Decode specEnv {}
          ⟨(RecentChatInviteRequesters.Encode specEnv exampleBareRequesters 158).1
            ++ [1, 2, 3, 4, 5], none⟩).1 = some (Error.invalidConstructorId 0x04030201)
      ∧ (RecentChatInviteRequesters.Decode specEnv {}
          ⟨(RecentChatInviteRequesters.Encode specEnv exampleBareRequesters 158).1
            ++ [1, 2, 3, 4, 5], none⟩).2.2 = ⟨[5], none⟩ :=
  ⟨by decide, specEnv_VectorLongInverse _ (by decide) (by decide), by decide, by decide,
    by decide, by decide⟩

/-! ## Views on a heap -/

theorem store_same {E : Env} (h : Heap E) (p : Ptr) (r : ChatInviteExt E) :
    (h.store p r) p = r := by
  simp only [Heap.store, if_true]

theorem store_other {E : Env} (h : Heap E) (p q : Ptr) (r : ChatInviteExt E) (hq : q ≠ p) :
    (h.store p r) q = h q := by
  simp only [Heap.store, hq, if_false]

/-- A view operation on the record at `s` writes the name of its variant into that record
and nothing else. -/
theorem applyAt_eq (E : Env) (op : ViewOp) (s : Ptr) (h : Heap E) :
    op.applyAt s h = h.store s { h s with PredicateName := op.predicate } := by
  cases op <;> rfl

/-- Its effect on the record is that of the operation on a stored record. -/
theorem applyAt_apply (E : Env) (op : ViewOp) (s : Ptr) (h : Heap E) :
    (op.applyAt s h) s = op.apply (h s) := by
  rw [applyAt_eq, store_same, viewOp_apply_eq]

theorem applyViewOpsAt_same (E : Env) (ops : List ViewOp) (s : Ptr) (h : Heap E) :
    (applyViewOpsAt ops s h) s
      = { h s with PredicateName := ((applyViewOpsAt ops s h) s).PredicateName } := by
  induction ops generalizing h with
  | nil => rfl
  | cons op ops ih =>
    have hx := ih (op.applyAt s h)
    simp only [applyViewOpsAt, List.foldl_cons] at hx ⊢
    rw [hx, applyAt_eq, store_same]

theorem applyViewOpsAt_other (E : Env) (ops : List ViewOp) (s q : Ptr) (h : Heap E)
    (hq : q ≠ s) : (applyViewOpsAt ops s h) q = h q := by
  induction ops generalizing h with
  | nil => rfl
  | cons op ops ih =>
    have hx := ih (op.applyAt s h)
    simp only [applyViewOpsAt, List.foldl_cons] at hx ⊢
    rw [hx, applyAt_eq, store_other _ _ _ _ hq]

/-- C23: views are aliases of one storage record.  Storage records live in a heap and a
view holds the address of its record.  Every projection of the record at address `s`
returns a view that holds `s` itself, writes the name of its variant into that record and
changes nothing else on the heap.  After a value is set through any view that holds `s`,
and after any further sequence of view operations on `s`, the matching getter of every
view that holds `s` returns that value (for `Chat` also across the already-a-member and
the peek view), `To_ChatInviteExt` of the view returns the pointer `s` and the record
there has the value; while a record at another address, such as a copy would be, keeps
its fields. -/
theorem views_alias_storage (E : Env) (h : Heap E) (s : Ptr) (ops : List ViewOp) :
    ((OnHeap.To_ChatInviteAlready s h).2.Data2 = s ∧ (OnHeap.To_ChatInvite s h).2.Data2 = s
        ∧ (OnHeap.To_ChatInvitePeek s h).2.Data2 = s
        ∧ (∀ fresh, (OnHeap.MakeTLChatInviteAlready (some s) fresh h).2.Data2 = s
          ∧ (OnHeap.MakeTLChatInvite (some s) fresh h).2.Data2 = s
          ∧ (OnHeap.MakeTLChatInvitePeek (some s) fresh h).2.Data2 = s))
      ∧ (∀ op : ViewOp,
          (op.applyAt s h) s = { h s with PredicateName := op.predicate }
          ∧ ∀ q, q ≠ s → (op.applyAt s h) q = h q)
      ∧ (∀ (a b : OnHeap.TLChatInviteAlready) (p : OnHeap.TLChatInvitePeek) v,
          a.Data2 = s → b.Data2 = s → p.Data2 = s →
            b.GetChat (applyViewOpsAt ops s (a.SetChat h v)) = v
            ∧ p.GetChat (applyViewOpsAt ops s (a.SetChat h v)) = v
            ∧ (a.To_ChatInviteExt (a.SetChat h v)).2 = s
            ∧ ((a.To_ChatInviteExt (a.SetChat h v)).1 s).Chat = v
            ∧ ∀ q, q ≠ s → (a.SetChat h v) q = h q)
      ∧ (∀ (a b : OnHeap.TLChatInvitePeek) (p : OnHeap.TLChatInviteAlready) v,
          a.Data2 = s → b.Data2 = s → p.Data2 = s →
            b.GetChat (applyViewOpsAt ops s (a.SetChat h v)) = v
            ∧ p.GetChat (applyViewOpsAt ops s (a.SetChat h v)) = v
            ∧ (a.To_ChatInviteExt (a.SetChat h v)).2 = s
            ∧ ((a.To_ChatInviteExt (a.SetChat h v)).1 s).Chat = v
            ∧ ∀ q, q ≠ s → (a.SetChat h v) q = h q)
      ∧ (∀ (a b : OnHeap.TLChatInvitePeek) v, a.Data2 = s → b.Data2 = s →
            b.GetExpires (applyViewOpsAt ops s (a.SetExpires h v)) = v
            ∧ (a.To_ChatInviteExt (a.SetExpires h v)).2 = s
            ∧ ((a.To_ChatInviteExt (a.SetExpires h v)).1 s).Expires = v
            ∧ ∀ q, q ≠ s → (a.SetExpires h v) q = h q)
      ∧ (∀ (a b : OnHeap.TLChatInvite) v, a.Data2 = s → b.Data2 = s →
            b.GetRequestNeeded (applyViewOpsAt ops s (a.SetRequestNeeded h v)) = v
            ∧ (a.To_ChatInviteExt (a.SetRequestNeeded h v)).2 = s
            ∧ ((a.To_ChatInviteExt (a.SetRequestNeeded h v)).1 s).RequestNeeded = v
            ∧ ∀ q, q ≠ s → (a.SetRequestNeeded h v) q = h q)
      ∧ (∀ (a b : OnHeap.TLChatInvite) v, a.Data2 = s → b.Data2 = s →
            b.GetTitle (applyViewOpsAt ops s (a.SetTitle h v)) = v
            ∧ (a.To_ChatInviteExt (a.SetTitle h v)).2 = s
            ∧ ((a.To_ChatInviteExt (a.SetTitle h v)).1 s).Title = v
            ∧ ∀ q, q ≠ s → (a.SetTitle h v) q = h q)
      ∧ (∀ (a b : OnHeap.TLChatInvite) v, a.Data2 = s → b.Data2 = s →
            b.GetAbout (applyViewOpsAt ops s (a.SetAbout h v)) = v
            ∧ (a.To_ChatInviteExt (a.SetAbout h v)).2 = s
            ∧ ((a.To_ChatInviteExt (a.SetAbout h v)).1 s).About = v
            ∧ ∀ q, q ≠ s → (a.SetAbout h v) q = h q)
      ∧ (∀ (a b : OnHeap.TLChatInvite) v, a.Data2 = s → b.Data2 = s →
            b.GetPhoto (applyViewOpsAt ops s (a.SetPhoto h v)) = v
            ∧ (a.To_ChatInviteExt (a.SetPhoto h v)).2 = s
            ∧ ((a.To_ChatInviteExt (a.SetPhoto h v)).1 s).Photo = v
            ∧ ∀ q, q ≠ s → (a.SetPhoto h v) q = h q)
      ∧ (∀ (a b : OnHeap.TLChatInvite) v, a.Data2 = s → b.Data2 = s →
            b.GetParticipantsCount (applyViewOpsAt ops s (a.SetParticipantsCount h v)) = v
            ∧ (a.To_ChatInviteExt (a.SetParticipantsCount h v)).2 = s
            ∧ ((a.To_ChatInviteExt (a.SetParticipantsCount h v)).1 s).ParticipantsCount = v
            ∧ ∀ q, q ≠ s → (a.SetParticipantsCount h v) q = h q)
      ∧ (∀ (a b : OnHeap.TLChatInvite) v, a.Data2 = s → b.Data2 = s →
            b.GetParticipants (applyViewOpsAt ops s (a.SetParticipants h v)) = v
            ∧ (a.To_ChatInviteExt (a.SetParticipants h v)).2 = s
            ∧ ((a.To_ChatInviteExt (a.SetParticipants h v)).1 s).Participants = v
            ∧ ∀ q, q ≠ s → (a.SetParticipants h v) q = h q) := by
  refine ⟨⟨rfl, rfl, rfl, fun _ => ⟨rfl, rfl, rfl⟩⟩, fun op => ⟨?_, fun q hq => ?_⟩,
    ?_, ?_, ?_, ?_, ?_, ?_, ?_, ?_, ?_⟩
  · rw [applyAt_eq, store_same]
  · rw [applyAt_eq, store_other _ _ _ _ hq]
  · rintro ⟨a⟩ ⟨b⟩ ⟨p⟩ v ha hb hp
    simp only at ha hb hp
    subst ha hb hp
    refine ⟨?_, ?_, rfl, ?_, fun q hq => store_other _ _ _ _ hq⟩
    · simp only [OnHeap.TLChatInviteAlready.GetChat]
      rw [applyViewOpsAt_same]
      simp only [OnHeap.TLChatInviteAlready.SetChat, store_same]
    · simp only [OnHeap.TLChatInvitePeek.GetChat]
      rw [applyViewOpsAt_same]
      simp only [OnHeap.TLChatInviteAlready.SetChat, store_same]
    · simp only [OnHeap.TLChatInviteAlready.To_ChatInviteExt,
        OnHeap.TLChatInviteAlready.SetChat, store_same]
  · rintro ⟨a⟩ ⟨b⟩ ⟨p⟩ v ha hb hp
    simp only at ha hb hp
    subst ha hb hp
    refine ⟨?_, ?_, rfl, ?_, fun q hq => store_other _ _ _ _ hq⟩
    · simp only [OnHeap.TLChatInvitePeek.GetChat]
      rw [applyViewOpsAt_same]
      simp only [OnHeap.TLChatInvitePeek.SetChat, store_same]
    · simp only [OnHeap.TLChatInviteAlready.GetChat]
      rw [applyViewOpsAt_same]
      simp only [OnHeap.TLChatInvitePeek.SetChat, store_same]
    · simp only [OnHeap.TLChatInvitePeek.To_ChatInviteExt,
        OnHeap.TLChatInvitePeek.SetChat, store_same]
  · rintro ⟨a⟩ ⟨b⟩ v ha hb
    simp only at ha hb
    subst ha hb
    refine ⟨?_, rfl, ?_, fun q hq => store_other _ _ _ _ hq⟩
    · simp only [OnHeap.TLChatInvitePeek.GetExpires]
      rw [applyViewOpsAt_same]
      simp only [OnHeap.TLChatInvitePeek.SetExpires, store_same]
    · simp only [OnHeap.TLChatInvitePeek.To_ChatInviteExt,
        OnHeap.TLChatInvitePeek.SetExpires, store_same]
  · rintro ⟨a⟩ ⟨b⟩ v ha hb
    simp only at ha hb
    subst ha hb
    refine ⟨?_, rfl, ?_, fun q hq => store_other _ _ _ _ hq⟩
    · simp only [OnHeap.TLChatInvite.GetRequestNeeded]
      rw [applyViewOpsAt_same]
      simp only [OnHeap.TLChatInvite.SetRequestNeeded, store_same]
    · simp only [OnHeap.TLChatInvite.To_ChatInviteExt,
        OnHeap.TLChatInvite.SetRequestNeeded, store_same]
  · rintro ⟨a⟩ ⟨b⟩ v ha hb
    simp only at ha hb
    subst ha hb
    refine ⟨?_, rfl, ?_, fun q hq => store_other _ _ _ _ hq⟩
    · simp only [OnHeap.TLChatInvite.GetTitle]
      rw [applyViewOpsAt_same]
      simp only [OnHeap.TLChatInvite.SetTitle, store_same]
    · simp only [OnHeap.TLChatInvite.To_ChatInviteExt, OnHeap.TLChatInvite.SetTitle,
        store_same]
  · rintro ⟨a⟩ ⟨b⟩ v ha hb
    simp only at ha hb
    subst ha hb
    refine ⟨?_, rfl, ?_, fun q hq => store_other _ _ _ _ hq⟩
    · simp only [OnHeap.TLChatInvite.GetAbout]
      rw [applyViewOpsAt_same]
      simp only [OnHeap.TLChatInvite.SetAbout, store_same]
    · simp only [OnHeap.TLChatInvite.To_ChatInviteExt, OnHeap.TLChatInvite.SetAbout,
        store_same]
  · rintro ⟨a⟩ ⟨b⟩ v ha hb
    simp only at ha hb
    subst ha hb
    refine ⟨?_, rfl, ?_, fun q hq => store_other _ _ _ _ hq⟩
    · simp only [OnHeap.TLChatInvite.GetPhoto]
      rw [applyViewOpsAt_same]
      simp only [OnHeap.TLChatInvite.SetPhoto, store_same]
    · simp only [OnHeap.TLChatInvite.To_ChatInviteExt, OnHeap.TLChatInvite.SetPhoto,
        store_same]
  · rintro ⟨a⟩ ⟨b⟩ v ha hb
    simp only at ha hb
    subst ha hb
    refine ⟨?_, rfl, ?_, fun q hq => store_other _ _ _ _ hq⟩
    · simp only [OnHeap.TLChatInvite.GetParticipantsCount]
      rw [applyViewOpsAt_same]
      simp only [OnHeap.TLChatInvite.SetParticipantsCount, store_same]
    · simp only [OnHeap.TLChatInvite.To_ChatInviteExt,
        OnHeap.TLChatInvite.SetParticipantsCount, store_same]
  · rintro ⟨a⟩ ⟨b⟩ v ha hb
    simp only at ha hb
    subst ha hb
    refine ⟨?_, rfl, ?_, fun q hq => store_other _ _ _ _ hq⟩
    · simp only [OnHeap.TLChatInvite.GetParticipants]
      rw [applyViewOpsAt_same]
      simp only [OnHeap.TLChatInvite.SetParticipants, store_same]
    · simp only [OnHeap.TLChatInvite.To_ChatInviteExt,
        OnHeap.TLChatInvite.SetParticipants, store_same]

/-- The aliasing of C23 on a heap of empty records, at address 3: a title set through the
view `To_ChatInvite` returned is read through a view projected before the write and
through one projected after the record was projected to the peek view and back; an expiry
set through the peek view is read through a second peek view; the record at address 4
keeps its empty title. -/
theorem views_alias_storage_witness :
    (OnHeap.To_ChatInvite 3 exampleHeap).2.GetTitle
        ((OnHeap.To_ChatInvite 3 exampleHeap).2.SetTitle
          (OnHeap.To_ChatInvite 3 exampleHeap).1 "Team") = "Team"
      ∧ (OnHeap.To_ChatInvite 3
          (applyViewOpsAt [ViewOp.To_ChatInvitePeek] 3
            ((OnHeap.To_ChatInvite 3 exampleHeap).2.SetTitle
              (OnHeap.To_ChatInvite 3 exampleHeap).1 "Team"))).2.GetTitle
          (applyViewOpsAt [ViewOp.To_ChatInvitePeek, ViewOp.To_ChatInvite] 3
            ((OnHeap.To_ChatInvite 3 exampleHeap).2.SetTitle
              (OnHeap.To_ChatInvite 3 exampleHeap).1 "Team")) = "Team"
      ∧ (OnHeap.To_ChatInvitePeek 3 exampleHeap).2.GetExpires
          ((OnHeap.To_ChatInvitePeek 3 exampleHeap).2.SetExpires
            (OnHeap.To_ChatInvitePeek 3 exampleHeap).1 1700000000) = 1700000000
      ∧ (OnHeap.TLChatInvite.GetTitle { Data2 := 4 }
          ((OnHeap.To_ChatInvite 3 exampleHeap).2.SetTitle
            (OnHeap.To_ChatInvite 3 exampleHeap).1 "Team")) = "" :=
  ⟨((views_alias_storage specEnv (OnHeap.To_ChatInvite 3 exampleHeap).1 3 []).2.2.2.2.2.2.1
      { Data2 := 3 } { Data2 := 3 } "Team" rfl rfl).1,
    ((views_alias_storage specEnv (OnHeap.To_ChatInvite 3 exampleHeap).1 3
      [ViewOp.To_ChatInvitePeek, ViewOp.To_ChatInvite]).2.2.2.2.2.2.1
      { Data2 := 3 } { Data2 := 3 } "Team" rfl rfl).1,
    ((views_alias_storage specEnv (OnHeap.To_ChatInvitePeek 3 exampleHeap).1 3 []).2.2.2.2.1
      { Data2 := 3 } { Data2 := 3 } 1700000000 rfl rfl).1,
    by decide⟩

end Chat

namespace Dao

/-! ## Decimal digits -/

theorem digitChar_toNat (d : Nat) (h : d < 10) : (digitChar d).toNat = 48 + d := by
  interval_cases d <;> rfl

theorem isDigit_digitChar (d : Nat) (h : d < 10) : isDigit (digitChar d) = true := by
  interval_cases d <;> rfl

theorem isDigit_bounds (c : Char) (h : isDigit c = true) : 48 ≤ c.toNat ∧ c.toNat ≤ 57 := by
  simpa [isDigit] using h

theorem isDigit_not_sign (c : Char) (h : isDigit c = true) : c ≠ '+' ∧ c ≠ '-' := by
  constructor <;> (intro hc; subst hc; revert h; decide)

theorem decimalDigits_lt (fuel n d : Nat) (h : d ∈ decimalDigits fuel n) : d < 10 := by
  induction fuel generalizing n with
  | zero => simp [decimalDigits] at h
  | succ fuel ih =>
    unfold decimalDigits at h
    split at h
    · simp only [List.mem_singleton] at h
      omega
    · rcases List.mem_cons.mp h with h | h
      · omega
      · exact ih _ h

theorem decimalDigits_ne_nil (fuel n : Nat) : decimalDigits (fuel + 1) n ≠ [] := by
  unfold decimalDigits
  split <;> simp

theorem decimalDigits_value (fuel n : Nat) (h : n < 10 ^ fuel) :
    (decimalDigits fuel n).foldr (fun d a => a * 10 + d) 0 = n := by
  induction fuel generalizing n with
  | zero =>
    simp only [pow_zero, Nat.lt_one_iff] at h
    subst h
    rfl
  | succ fuel ih =>
    unfold decimalDigits
    split
    · simp
    · have h2 : n / 10 < 10 ^ fuel := by
        rw [pow_succ] at h
        exact Nat.div_lt_of_lt_mul (by rw [Nat.mul_comm]; exact h)
      simp only [List.foldr_cons, ih _ h2]
      omega

/-- The digits `formatDecimal` writes denote the number formatted. -/
theorem decimalValue_digits (n : Nat) (h : n < 10 ^ 20) :
    decimalValue ((decimalDigits 20 n).reverse.map digitChar) = n := by
  have hlt := decimalDigits_lt 20 n
  have hv := decimalDigits_value 20 n h
  generalize decimalDigits 20 n = ds at hlt hv
  rw [← hv, ← List.foldl_reverse]
  have hlt2 : ∀ d ∈ ds.reverse, d < 10 := fun d hd => hlt d (List.mem_reverse.mp hd)
  generalize ds.reverse = l at hlt2
  unfold decimalValue
  generalize (0 : Nat) = acc
  induction l generalizing acc with
  | nil => rfl
  | cons d l ih =>
    simp only [List.map_cons, List.foldl_cons]
    rw [digitChar_toNat d (hlt2 d (List.mem_cons_self _ _)), Nat.add_sub_cancel_left]
    exact ih (fun x hx => hlt2 x (List.mem_cons_of_mem _ hx)) _

theorem formatted_digits_are_digits (n : Nat) :
    ∀ c ∈ (decimalDigits 20 n).reverse.map digitChar, isDigit c = true := by
  intro c hc
  obtain ⟨d, hd, rfl⟩ := List.mem_map.mp hc
  exact isDigit_digitChar d (decimalDigits_lt 20 n d (List.mem_reverse.mp hd))

theorem formatted_digits_ne_nil (n : Nat) :
    (decimalDigits 20 n).reverse.map digitChar ≠ [] := by
  have h := decimalDigits_ne_nil 19 n
  simpa using h

/-! ## The loop of `ParseUint` -/

theorem foldl_digits_ge (cs : List Char) (acc : Nat) :
    acc ≤ cs.foldl (fun a c => a * 10 + (c.toNat - 48)) acc := by
  induction cs generalizing acc with
  | nil => exact Nat.le_refl _
  | cons c cs ih =>
    simp only [List.foldl_cons]
    exact Nat.le_trans (by omega) (ih _)

/-- Over digits whose value fits a `uint64` the loop goes on with that value. -/
theorem parseUintLoop_digits (cs rest : List Char) (acc : Nat)
    (hcs : ∀ c ∈ cs, isDigit c = true)
    (hv : cs.foldl (fun a c => a * 10 + (c.toNat - 48)) acc ≤ 18446744073709551615) :
    parseUintLoop (cs ++ rest) acc
      = parseUintLoop rest (cs.foldl (fun a c => a * 10 + (c.toNat - 48)) acc) := by
  induction cs generalizing acc with
  | nil => rfl
  | cons c cs ih =>
    simp only [List.foldl_cons] at hv ⊢
    have hge := foldl_digits_ge cs (acc * 10 + (c.toNat - 48))
    have hd : isDigit c = true := hcs c (List.mem_cons_self _ _)
    have h1 : ¬ (acc ≥ 1844674407370955162) := by omega
    have h2 : ¬ (acc * 10 + (c.toNat - 48) > 18446744073709551615) := by omega
    simp only [List.cons_append, parseUintLoop, hd, if_true, h1, h2, if_false]
    exact ih _ (fun x hx => hcs x (List.mem_cons_of_mem _ hx)) hv

/-- Over digits whose value passes `maxUint64` the loop stops with a range error, whatever
follows. -/
theorem parseUintLoop_overflow (cs rest : List Char) (acc : Nat)
    (hcs : ∀ c ∈ cs, isDigit c = true) (hacc : acc ≤ 18446744073709551615)
    (hv : cs.foldl (fun a c => a * 10 + (c.toNat - 48)) acc > 18446744073709551615) :
    parseUintLoop (cs ++ rest) acc = (18446744073709551615, some NumError.ErrRange) := by
  induction cs generalizing acc with
  | nil =>
    simp only [List.foldl_nil] at hv
    omega
  | cons c cs ih =>
    simp only [List.foldl_cons] at hv
    have hd : isDigit c = true := hcs c (List.mem_cons_self _ _)
    simp only [List.cons_append, parseUintLoop, hd, if_true]
    split
    · rfl
    · split
      · rfl
      · exact ih _ (fun x hx => hcs x (List.mem_cons_of_mem _ hx)) (by omega) hv

theorem ParseUint_digits (cs : List Char) (hne : cs ≠ []) (hcs : ∀ c ∈ cs, isDigit c = true) :
    ParseUint cs
      = if decimalValue cs ≤ 18446744073709551615 then (decimalValue cs, none)
        else (18446744073709551615, some NumError.ErrRange) := by
  have hloop : ParseUint cs = parseUintLoop cs 0 := by
    cases cs with
    | nil => exact absurd rfl hne
    | cons c cs => rfl
  rw [hloop]
  split
  · rename_i hv
    have h := parseUintLoop_digits cs [] 0 hcs hv
    rw [List.append_nil] at h
    rw [h]
    rfl
  · rename_i hv
    have h := parseUintLoop_overflow cs [] 0 hcs (by omega) (by unfold decimalValue at hv; omega)
    rw [List.append_nil] at h
    exact h

theorem ParseUint_syntax (cs rest : List Char) (c : Char) (hcs : ∀ x ∈ cs, isDigit x = true)
    (hv : decimalValue cs ≤ 18446744073709551615) (hc : isDigit c = false) :
    ParseUint (cs ++ c :: rest) = (0, some NumError.ErrSyntax) := by
  have hloop : ParseUint (cs ++ c :: rest) = parseUintLoop (cs ++ c :: rest) 0 := by
    cases cs with
    | nil => rfl
    | cons x cs => rfl
  rw [hloop, parseUintLoop_digits cs (c :: rest) 0 hcs hv]
  simp only [parseUintLoop, hc, Bool.false_eq_true, if_false]

/-! ## `ParseInt` -/

theorem toI64_isInt64 (n : Nat) : Chat.isInt64 (Chat.toI64 n) := by
  simp only [Chat.isInt64, Chat.toI64]
  split <;> omega

theorem ParseInt_isInt64 (s : String) : Chat.isInt64 (ParseInt s).1 := by
  have h0 : Chat.isInt64 0 := by decide
  have hmax : Chat.isInt64 9223372036854775807 := by decide
  have hmin : Chat.isInt64 (-9223372036854775808) := by decide
  unfold ParseInt
  split
  · exact h0
  · simp only []
    split_ifs <;> first | exact h0 | exact hmax | exact hmin | exact toI64_isInt64 _

/-- A string of digits parses to the number it denotes, or to the largest `int64` when
that number is larger. -/
theorem ParseInt_digits (cs : List Char) (hne : cs ≠ []) (hcs : ∀ c ∈ cs, isDigit c = true) :
    (ParseInt (String.mk cs)).1 = min (decimalValue cs : ℤ) 9223372036854775807 := by
  have hU := ParseUint_digits cs hne hcs
  cases cs with
  | nil => exact absurd rfl hne
  | cons c cs =>
    obtain ⟨hp, hm⟩ := isDigit_not_sign c (hcs c (List.mem_cons_self _ _))
    generalize decimalValue (c :: cs) = V at hU ⊢
    by_cases hV : V ≤ 18446744073709551615
    · rw [if_pos hV] at hU
      simp only [ParseInt, hp, hm, or_self, if_false, decide_False, hU, reduceCtorEq, true_and,
        Bool.false_eq_true, false_and]
      split
      · omega
      · simp only [Chat.toI64]
        split <;> omega
    · rw [if_neg hV] at hU
      have h9 : (18446744073709551615 : Nat) ≥ 9223372036854775808 := by decide
      simp only [ParseInt, hp, hm, or_self, if_false, decide_False, hU, Option.some.injEq, reduceCtorEq, true_and,
        h9, if_true]
      omega

/-- After a `+` the digits parse as without it. -/
theorem ParseInt_plus_digits (cs : List Char) (hne : cs ≠ [])
    (hcs : ∀ c ∈ cs, isDigit c = true) :
    (ParseInt (String.mk ('+' :: cs))).1 = min (decimalValue cs : ℤ) 9223372036854775807 := by
  have hU := ParseUint_digits cs hne hcs
  generalize decimalValue cs = V at hU ⊢
  have hpm : ¬ ('+' = '-') := by decide
  by_cases hV : V ≤ 18446744073709551615
  · rw [if_pos hV] at hU
    simp only [ParseInt, true_or, if_true, hpm, decide_False, hU, reduceCtorEq, true_and,
      Bool.false_eq_true, false_and, if_false]
    split
    · omega
    · simp only [Chat.toI64]
      split <;> omega
  · rw [if_neg hV] at hU
    have h9 : (18446744073709551615 : Nat) ≥ 9223372036854775808 := by decide
    simp only [ParseInt, true_or, if_true, hpm, decide_False, hU, Option.some.injEq, reduceCtorEq, true_and,
      h9, if_false]
    omega

/-- After a `-` the digits parse to the negated number, or to the smallest `int64` when
that is smaller. -/
theorem ParseInt_minus_digits (cs : List Char) (hne : cs ≠ [])
    (hcs : ∀ c ∈ cs, isDigit c = true) :
    (ParseInt (String.mk ('-' :: cs))).1 = - min (decimalValue cs : ℤ) 9223372036854775808 := by
  have hU := ParseUint_digits cs hne hcs
  generalize decimalValue cs = V at hU ⊢
  by_cases hV : V ≤ 18446744073709551615
  · rw [if_pos hV] at hU
    simp only [ParseInt, or_true, if_true, decide_True, hU, reduceCtorEq, true_and,
      Bool.true_eq_false, false_and, if_false]
    split
    · omega
    · simp only [Chat.toI64, Chat.toU64]
      split <;> split <;> omega
  · rw [if_neg hV] at hU
    have h9 : (18446744073709551615 : Nat) > 9223372036854775808 := by decide
    simp only [ParseInt, or_true, if_true, decide_True, hU, Option.some.injEq, reduceCtorEq, true_and,
      Bool.true_eq_false, false_and, h9, if_false]
    omega

/-- A sign alone, and the empty string, are syntax errors. -/
theorem ParseInt_no_digits :
    ParseInt "" = (0, some NumError.ErrSyntax) ∧ ParseInt "+" = (0, some NumError.ErrSyntax)
      ∧ ParseInt "-" = (0, some NumError.ErrSyntax) := by
  decide

/-- A character that is not a digit, met before the digits pass `maxUint64`, is a syntax
error: the value is 0. -/
theorem ParseInt_syntax (cs rest : List Char) (c : Char) (hcs : ∀ x ∈ cs, isDigit x = true)
    (hv : decimalValue cs ≤ 18446744073709551615) (hc : isDigit c = false) :
    ((cs ≠ [] ∨ (c ≠ '+' ∧ c ≠ '-')) → ParseInt (String.mk (cs ++ c :: rest))
        = (0, some NumError.ErrSyntax))
      ∧ ParseInt (String.mk ('+' :: (cs ++ c :: rest))) = (0, some NumError.ErrSyntax)
      ∧ ParseInt (String.mk ('-' :: (cs ++ c :: rest))) = (0, some NumError.ErrSyntax) := by
  have hU := ParseUint_syntax cs rest c hcs hv hc
  have hpm : ¬ ('+' = '-') := by decide
  refine ⟨?_, ?_, ?_⟩
  · intro h
    have hfirst : ∃ x xs, cs ++ c :: rest = x :: xs ∧ x ≠ '+' ∧ x ≠ '-' := by
      cases cs with
      | nil =>
        rcases h with h | h
        · exact absurd rfl h
        · exact ⟨c, rest, rfl, h.1, h.2⟩
      | cons x xs =>
        obtain ⟨hp, hm⟩ := isDigit_not_sign x (hcs x (List.mem_cons_self _ _))
        exact ⟨x, xs ++ c :: rest, rfl, hp, hm⟩
    obtain ⟨x, xs, hx, hp, hm⟩ := hfirst
    rw [hx] at hU ⊢
    simp only [ParseInt, hp, hm, or_self, if_false, hU, if_true]
  · simp only [ParseInt, true_or, if_true, hU]
  · simp only [ParseInt, or_true, if_true, hU]

/-- Once the digits pass `maxUint64` the value is the largest `int64`, or the smallest
after a `-`, whatever follows the digits. -/
theorem ParseInt_overflow (cs rest : List Char) (hcs : ∀ x ∈ cs, isDigit x = true)
    (hv : decimalValue cs > 18446744073709551615) :
    (ParseInt (String.mk (cs ++ rest))).1 = 9223372036854775807
      ∧ (ParseInt (String.mk ('+' :: (cs ++ rest)))).1 = 9223372036854775807
      ∧ (ParseInt (String.mk ('-' :: (cs ++ rest)))).1 = -9223372036854775808 := by
  have hloop := parseUintLoop_overflow cs rest 0 hcs (by omega) hv
  have hpm : ¬ ('+' = '-') := by decide
  have h9 : (18446744073709551615 : Nat) ≥ 9223372036854775808 := by decide
  have h8 : (18446744073709551615 : Nat) > 9223372036854775808 := by decide
  cases cs with
  | nil =>
    simp only [decimalValue, List.foldl_nil] at hv
    omega
  | cons x xs =>
    obtain ⟨hp, hm⟩ := isDigit_not_sign x (hcs x (List.mem_cons_self _ _))
    have hU : ParseUint (x :: xs ++ rest) = (18446744073709551615, some NumError.ErrRange) :=
      hloop
    refine ⟨?_, ?_, ?_⟩
    · simp only [List.cons_append] at hU ⊢
      simp only [ParseInt, hp, hm, or_self, if_false, decide_False, hU, Option.some.injEq,
        reduceCtorEq, true_and, h9, if_true]
    · simp only [ParseInt, true_or, if_true, hpm, decide_False, hU, Option.some.injEq,
        reduceCtorEq, true_and, h9, if_false]
    · simp only [ParseInt, or_true, if_true, decide_True, hU, Option.some.injEq, reduceCtorEq,
        true_and, Bool.true_eq_false, false_and, h8, if_false]

/-! ## The keys -/

theorem HasPrefix_append (p r : String) : HasPrefix (p ++ r) p = true := by
  simp only [HasPrefix, String.data_append, List.isPrefixOf_iff_prefix]
  exact List.prefix_append _ _

theorem HasPrefix_iff (k p : String) : HasPrefix k p = true ↔ ∃ r : String, k = p ++ r := by
  constructor
  · intro h
    simp only [HasPrefix, List.isPrefixOf_iff_prefix] at h
    obtain ⟨t, ht⟩ := h
    exact ⟨String.mk t, String.ext (by simp only [String.data_append]; exact ht.symm)⟩
  · rintro ⟨r, rfl⟩
    exact HasPrefix_append p r

/-- The value of a key that begins with the constant and a `#` is what `ParseInt` makes
of the rest. -/
theorem parse_of_key (r : String) :
    parseCacheUserDataCacheKey (cacheUserDataKeyPrefix ++ "#" ++ r) = (ParseInt r).1 := by
  have hp : HasPrefix (cacheUserDataKeyPrefix ++ "#" ++ r) (cacheUserDataKeyPrefix ++ "#") = true :=
    HasPrefix_append _ _
  have hlen : (cacheUserDataKeyPrefix ++ "#").data.length = cacheUserDataKeyPrefix.length + 1 := by
    decide
  have hdrop : (cacheUserDataKeyPrefix ++ "#" ++ r).data.drop (cacheUserDataKeyPrefix.length + 1)
      = r.data := by
    rw [String.data_append, ← hlen]
    exact List.drop_left' rfl
  simp only [parseCacheUserDataCacheKey, hp, if_true, hdrop]

theorem parse_without_key (k : String)
    (h : ¬ ∃ r : String, k = cacheUserDataKeyPrefix ++ "#" ++ r) :
    parseCacheUserDataCacheKey k = 0 := by
  have hp : ¬ (HasPrefix k (cacheUserDataKeyPrefix ++ "#") = true) := fun hp =>
    h ((HasPrefix_iff _ _).mp hp)
  simp only [parseCacheUserDataCacheKey, hp, if_false, Bool.false_eq_true]

theorem parse_isInt64 (k : String) : Chat.isInt64 (parseCacheUserDataCacheKey k) := by
  unfold parseCacheUserDataCacheKey
  split
  · exact ParseInt_isInt64 _
  · decide

/-- What `formatDecimal` writes parses back. -/
theorem ParseInt_formatDecimal (v : ℤ) (h : Chat.isInt64 v) : (ParseInt (formatDecimal v)).1 = v := by
  unfold Chat.isInt64 at h
  have hn : v.natAbs < 10 ^ 20 := by omega
  have hval := decimalValue_digits v.natAbs hn
  have hdig := formatted_digits_are_digits v.natAbs
  have hne := formatted_digits_ne_nil v.natAbs
  unfold formatDecimal
  by_cases hv : v < 0
  · simp only [hv, if_true]
    have hs : "-" ++ String.mk ((decimalDigits 20 v.natAbs).reverse.map digitChar)
        = String.mk ('-' :: (decimalDigits 20 v.natAbs).reverse.map digitChar) := rfl
    rw [hs, ParseInt_minus_digits _ hne hdig, hval]
    omega
  · simp only [hv, if_false]
    rw [ParseInt_digits _ hne hdig, hval]
    omega

/-! ## The claims on the cache keys and the emoji status -/

/-- C35: cache keys round-trip.  For every `int64` id, `parseCacheUserDataCacheKey` of
`genCacheUserDataCacheKey id` is `id` and `isCacheUserDataCacheKey` accepts the key; hence
two `int64` ids with the same key are equal. -/
theorem cache_key_roundtrip (id : ℤ) (h : Chat.isInt64 id) :
    parseCacheUserDataCacheKey (genCacheUserDataCacheKey id) = id
      ∧ isCacheUserDataCacheKey (genCacheUserDataCacheKey id) = true
      ∧ (∀ id2 : ℤ, Chat.isInt64 id2 →
          genCacheUserDataCacheKey id = genCacheUserDataCacheKey id2 → id = id2) := by
  have hrt : ∀ v : ℤ, Chat.isInt64 v →
      parseCacheUserDataCacheKey (genCacheUserDataCacheKey v) = v := by
    intro v hv
    unfold genCacheUserDataCacheKey
    rw [parse_of_key, ParseInt_formatDecimal v hv]
  refine ⟨hrt id h, ?_, ?_⟩
  · unfold genCacheUserDataCacheKey isCacheUserDataCacheKey
    rw [String.append_assoc]
    exact HasPrefix_append _ _
  · intro id2 h2 heq
    rw [← hrt id h, ← hrt id2 h2, heq]

/-- The round trip of C35 at the smallest `int64`, with the key written out. -/
theorem cache_key_roundtrip_witness :
    genCacheUserDataCacheKey (-9223372036854775808) = "user_data.1#-9223372036854775808"
      ∧ parseCacheUserDataCacheKey (genCacheUserDataCacheKey (-9223372036854775808))
        = -9223372036854775808
      ∧ isCacheUserDataCacheKey (genCacheUserDataCacheKey (-9223372036854775808)) = true :=
  ⟨by decide,
    (cache_key_roundtrip (-9223372036854775808) (by decide)).1,
    (cache_key_roundtrip (-9223372036854775808) (by decide)).2.1⟩

/-- C36, counterexample: a text that is not a decimal `int64` and is not mapped to 0.
The digits `9223372036854775808` denote `2^63`: no `int64` is written so, and
`strconv.ParseInt` reports a range error for them, yet `parseCacheUserDataCacheKey` returns
the largest `int64`; after a `-`, digits beyond the range give the smallest `int64`. -/
theorem parse_out_of_range_not_zero :
    (¬ ∃ v : ℤ, Chat.isInt64 v ∧ formatDecimal v = "9223372036854775808")
      ∧ (ParseInt "9223372036854775808").2 = some NumError.ErrRange
      ∧ parseCacheUserDataCacheKey "user_data.1#9223372036854775808" = 9223372036854775807
      ∧ parseCacheUserDataCacheKey "user_data.1#-99999999999999999999"
        = -9223372036854775808 := by
  refine ⟨?_, by decide, by decide, by decide⟩
  rintro ⟨v, hv, hf⟩
  have h1 := ParseInt_formatDecimal v hv
  rw [hf] at h1
  have h2 : (ParseInt "9223372036854775808").1 = 9223372036854775807 := by decide
  rw [h2] at h1
  subst h1
  revert hf
  decide

/-- C36, as amended: key parsing is total and the key test is weaker than the parser.
For every string `k`, `parseCacheUserDataCacheKey k` is an `int64`, and it is 0 when `k`
does not start with `user_data.1#`.  For the text after that prefix: the empty text and a
sign alone give 0; digits `cs` of value at most `2^64 - 1` followed by a character `c`
other than a digit give 0, with or without a sign before them; digits alone give their
value, capped at the largest `int64`, or after a `-` the negated value, capped at the
smallest; and digits of value above `2^64 - 1` give the largest or the smallest `int64`
whatever follows them.  `isCacheUserDataCacheKey` accepts every string that starts with
`user_data.1`, among them `user_data.10#7`, which the parser maps to 0. -/
theorem parse_key_total (k r : String) (cs rest : List Char) (c : Char)
    (hcs : ∀ x ∈ cs, isDigit x = true) (hc : isDigit c = false) :
    Chat.isInt64 (parseCacheUserDataCacheKey k)
      ∧ ((¬ ∃ s : String, k = cacheUserDataKeyPrefix ++ "#" ++ s) →
          parseCacheUserDataCacheKey k = 0)
      ∧ (parseCacheUserDataCacheKey (cacheUserDataKeyPrefix ++ "#" ++ "") = 0
          ∧ parseCacheUserDataCacheKey (cacheUserDataKeyPrefix ++ "#" ++ "+") = 0
          ∧ parseCacheUserDataCacheKey (cacheUserDataKeyPrefix ++ "#" ++ "-") = 0)
      ∧ (decimalValue cs ≤ 18446744073709551615 →
          ((cs ≠ [] ∨ (c ≠ '+' ∧ c ≠ '-')) →
            parseCacheUserDataCacheKey
              (cacheUserDataKeyPrefix ++ "#" ++ String.mk (cs ++ c :: rest)) = 0)
          ∧ parseCacheUserDataCacheKey
              (cacheUserDataKeyPrefix ++ "#" ++ String.mk ('+' :: (cs ++ c :: rest))) = 0
          ∧ parseCacheUserDataCacheKey
              (cacheUserDataKeyPrefix ++ "#" ++ String.mk ('-' :: (cs ++ c :: rest))) = 0)
      ∧ (cs ≠ [] →
          parseCacheUserDataCacheKey (cacheUserDataKeyPrefix ++ "#" ++ String.mk cs)
              = min (decimalValue cs : ℤ) 9223372036854775807
          ∧ parseCacheUserDataCacheKey (cacheUserDataKeyPrefix ++ "#" ++ String.mk ('+' :: cs))
              = min (decimalValue cs : ℤ) 9223372036854775807
          ∧ parseCacheUserDataCacheKey (cacheUserDataKeyPrefix ++ "#" ++ String.mk ('-' :: cs))
              = - min (decimalValue cs : ℤ) 9223372036854775808)
      ∧ (decimalValue cs > 18446744073709551615 →
          parseCacheUserDataCacheKey (cacheUserDataKeyPrefix ++ "#" ++ String.mk (cs ++ rest))
              = 9223372036854775807
          ∧ parseCacheUserDataCacheKey
              (cacheUserDataKeyPrefix ++ "#" ++ String.mk ('+' :: (cs ++ rest)))
              = 9223372036854775807
          ∧ parseCacheUserDataCacheKey
              (cacheUserDataKeyPrefix ++ "#" ++ String.mk ('-' :: (cs ++ rest)))
              = -9223372036854775808)
      ∧ isCacheUserDataCacheKey (cacheUserDataKeyPrefix ++ r) = true
      ∧ isCacheUserDataCacheKey "user_data.10#7" = true
      ∧ parseCacheUserDataCacheKey "user_data.10#7" = 0 := by
  refine ⟨parse_isInt64 k, parse_without_key k, ?_, ?_, ?_, ?_, HasPrefix_append _ _,
    by decide, by decide⟩
  · simp only [parse_of_key, ParseInt_no_digits, and_self]
  · intro hv
    obtain ⟨h1, h2, h3⟩ := ParseInt_syntax cs rest c hcs hv hc
    refine ⟨fun h => ?_, ?_, ?_⟩
    · rw [parse_of_key, h1 h]
    · rw [parse_of_key, h2]
    · rw [parse_of_key, h3]
  · intro hne
    exact ⟨by rw [parse_of_key, ParseInt_digits cs hne hcs],
      by rw [parse_of_key, ParseInt_plus_digits cs hne hcs],
      by rw [parse_of_key, ParseInt_minus_digits cs hne hcs]⟩
  · intro hv
    obtain ⟨h1, h2, h3⟩ := ParseInt_overflow cs rest hcs hv
    exact ⟨by rw [parse_of_key, h1], by rw [parse_of_key, h2], by rw [parse_of_key, h3]⟩

/-- The amended C36 at the digits `12` followed by `x`, which give 0, and at the digits
`12` alone, which give 12 and after a `-` give -12. -/
theorem parse_key_total_witness :
    parseCacheUserDataCacheKey (cacheUserDataKeyPrefix ++ "#" ++ String.mk (['1', '2'] ++ 'x' :: []))
        = 0
      ∧ parseCacheUserDataCacheKey (cacheUserDataKeyPrefix ++ "#" ++ String.mk ['1', '2'])
        = min (decimalValue ['1', '2'] : ℤ) 9223372036854775807
      ∧ parseCacheUserDataCacheKey (cacheUserDataKeyPrefix ++ "#" ++ String.mk ('-' :: ['1', '2']))
        = - min (decimalValue ['1', '2'] : ℤ) 9223372036854775808
      ∧ decimalValue ['1', '2'] = 12 :=
  ⟨((parse_key_total "user_data.10#7" "0#7" ['1', '2'] [] 'x' (by decide) (by decide)).2.2.2.1
      (by decide)).1 (Or.inl (by decide)),
    ((parse_key_total "user_data.10#7" "0#7" ['1', '2'] [] 'x' (by decide)
      (by decide)).2.2.2.2.1 (by decide)).1,
    ((parse_key_total "user_data.10#7" "0#7" ['1', '2'] [] 'x' (by decide)
      (by decide)).2.2.2.2.1 (by decide)).2.2,
    by decide⟩

/-- C37: emoji-status construction.  `makeEmojiStatus` returns no status exactly when
`documentId` is 0; for a non-zero `documentId` and `until > 0` it returns the plain
emoji-status variant with `DocumentId` set and `Until` left at 0; for a non-zero
`documentId` and `until <= 0` it returns the emoji-status-until variant with `DocumentId`
set and `Until` equal to `until`. -/
theorem makeEmojiStatus_cases (documentId until_ : ℤ) :
    (makeEmojiStatus documentId until_ = none ↔ documentId = 0)
      ∧ (documentId ≠ 0 → until_ > 0 →
          makeEmojiStatus documentId until_
            = some { PredicateName := Predicate_emojiStatus, Constructor := 0,
                     DocumentId := documentId, Until := 0 })
      ∧ (documentId ≠ 0 → until_ ≤ 0 →
          makeEmojiStatus documentId until_
            = some { PredicateName := Predicate_emojiStatusUntil, Constructor := 0,
                     DocumentId := documentId, Until := until_ }) := by
  refine ⟨?_, ?_, ?_⟩
  · unfold makeEmojiStatus
    split
    · simp [*]
    · split <;> simp [*]
  · intro hd hu
    simp only [makeEmojiStatus, hd, hu, if_true, if_false, MakeTLEmojiStatus,
      TLEmojiStatus.To_EmojiStatus]
  · intro hd hu
    have hu2 : ¬ (until_ > 0) := by omega
    simp only [makeEmojiStatus, hd, hu2, if_false, MakeTLEmojiStatusUntil,
      TLEmojiStatusUntil.To_EmojiStatus]

/-- The cases of C37 at a non-zero document id: with a positive `until` the plain variant,
with `until` 0 the until-variant, and without a document id no status. -/
theorem makeEmojiStatus_cases_witness :
    makeEmojiStatus 5 1700000000
        = some { PredicateName := "emojiStatus", Constructor := 0, DocumentId := 5, Until := 0 }
      ∧ makeEmojiStatus 5 0
        = some { PredicateName := "emojiStatusUntil", Constructor := 0, DocumentId := 5,
                 Until := 0 }
      ∧ makeEmojiStatus 0 1700000000 = none :=
  ⟨(makeEmojiStatus_cases 5 1700000000).2.1 (by decide) (by decide),
    (makeEmojiStatus_cases 5 0).2.2 (by decide) (by decide),
    (makeEmojiStatus_cases 0 1700000000).1.mpr rfl⟩

end Dao
